import Mathlib

/-!
# GeekOS process-execution core: executable parser, user-memory validator,
# user/kernel copies and user-context ownership

A shallow embedding of `elf.c` (project1), `userseg.c` and `user.c` (project2),
`uservm.c` and `paging.c` (project4), followed by the properties proved about it.

Conventions of the embedding:
* `ulong_t` / `unsigned int` values are natural numbers; where the C arithmetic
  can wrap, the wrap is written explicitly with `% 2 ^ 32`;
* a `char *` is the sequence of bytes reachable from the pointer, indexed by
  offset (`Buffer`);
* a `KASSERT` that fails halts the kernel (`Run.halted`).
-/

namespace geekos

/-! ## Part 1: definitions -/

/-- One byte of memory (a C `char`, viewed as unsigned). -/
abbrev uchar := Fin 256

/-- The memory reachable from a C `char *`: the byte found at each offset from the pointer. -/
abbrev Buffer := Nat → uchar

/-- Modulus of `ulong_t` arithmetic on the 32-bit target, `2 ^ 32`. -/
abbrev WORD : Nat := 4294967296

/-- Little-endian `unsigned short` stored at offset `off`. -/
def read16 (p : Buffer) (off : Nat) : Nat :=
  (p off).val + 256 * (p (off + 1)).val

/-- Little-endian `unsigned int` stored at offset `off`. -/
def read32 (p : Buffer) (off : Nat) : Nat :=
  (p off).val + 256 * (p (off + 1)).val + 65536 * (p (off + 2)).val
    + 16777216 * (p (off + 3)).val

/-- The C library `memcpy(dest + destOff, src + srcOff, n)` on two buffers that do not
overlap: the `n` bytes starting at `dest + destOff` become the `n` bytes starting at
`src + srcOff`; every other byte of `dest` keeps its value. -/
def memcpy (dest : Buffer) (destOff : Nat) (src : Buffer) (srcOff : Nat) (n : Nat) : Buffer :=
  fun a => if destOff ≤ a ∧ a < destOff + n then src (srcOff + (a - destOff)) else dest a

/-- The C library `memset(dest + destOff, value, n)`. -/
def memset (dest : Buffer) (destOff : Nat) (value : uchar) (n : Nat) : Buffer :=
  fun a => if destOff ≤ a ∧ a < destOff + n then value else dest a

/-- Modelled from the spec: `PAGE_SIZE` (geekos/mem.h is not among the sources), the
size of a page of the 32-bit target. -/
abbrev PAGE_SIZE : Nat := 4096

/-- Modelled from the spec: `PAGE_POWER` (geekos/mem.h is not among the sources),
`PAGE_SIZE = 2 ^ PAGE_POWER`. -/
abbrev PAGE_POWER : Nat := 12

/-- Modelled from the spec: `Round_Up_To_Page(addr)` (geekos/mem.h is not among the
sources), "page-aligned(addr)": an aligned `addr` is returned as it is, any other is
cleared to its page and advanced by one page, in `ulong_t` arithmetic. -/
def Round_Up_To_Page (addr : Nat) : Nat :=
  if addr % PAGE_SIZE ≠ 0 then (addr - addr % PAGE_SIZE + PAGE_SIZE) % WORD
  else addr

/-- The least multiple of `PAGE_SIZE` that is at least `x`, in exact arithmetic. -/
def pageAlign (x : Nat) : Nat := (x + (PAGE_SIZE - 1)) / PAGE_SIZE * PAGE_SIZE

/-- A command line, the characters of a C string. -/
abbrev Command := List uchar

/-- Outcome of kernel code that contains `KASSERT`.
Modelled from the spec: `KASSERT` (geekos/kassert.h is not among the sources) "fails
fast": when the asserted condition is false the kernel halts and the call never
returns; `halted` carries the state at the failed assertion. -/
inductive Run (σ α : Type) where
  | returned (value : α) (state : σ) : Run σ α
  | halted (state : σ) : Run σ α

/-- True when the call returned to its caller. -/
def Run.succeeded {σ α : Type} : Run σ α → Bool
  | Run.returned _ _ => true
  | Run.halted _ => false

/-- The state in which a run ended, whether it returned or halted. -/
def Run.state {σ α : Type} : Run σ α → σ
  | Run.returned _ s => s
  | Run.halted s => s

/-! ### elf.c -/

namespace elf

/-- Fields of the ELF file header that `Parse_ELF_Executable` reads. -/
structure elfHeader where
  entry : Nat
  phoff : Nat
  phnum : Nat
  deriving DecidableEq, Repr

/-- Fields of one program header that `Parse_ELF_Executable` reads. -/
structure programHeader where
  offset : Nat
  vaddr : Nat
  fileSize : Nat
  memSize : Nat
  flags : Nat
  deriving DecidableEq, Repr

/-- Modelled from the spec: `sizeof(programHeader)`; geekos/elf.h is not among the
sources, the spec (section 6) fixes "a standard 32-bit segment-header convention":
eight 32-bit words. -/
def sizeof_programHeader : Nat := 32

/-- Modelled from the spec: the view `(elfHeader*)exeFileData` of the raw bytes, with
the standard 32-bit layout (geekos/elf.h is not among the sources): `entry` is the
32-bit word at byte 24, `phoff` the 32-bit word at byte 28, `phnum` the 16-bit
half-word at byte 44. -/
def elfHeader_at (exeFileData : Buffer) : elfHeader :=
  { entry := read32 exeFileData 24
    phoff := read32 exeFileData 28
    phnum := read16 exeFileData 44 }

/-- Modelled from the spec: the view `(programHeader*)(exeFileData + off)` of the raw
bytes, with the standard 32-bit layout (geekos/elf.h is not among the sources): words
`type, offset, vaddr, paddr, fileSize, memSize, flags, alignment` in this order. -/
def programHeader_at (exeFileData : Buffer) (off : Nat) : programHeader :=
  { offset := read32 exeFileData (off + 4)
    vaddr := read32 exeFileData (off + 8)
    fileSize := read32 exeFileData (off + 16)
    memSize := read32 exeFileData (off + 20)
    flags := read32 exeFileData (off + 24) }

/-- A segment of the executable, `struct Exe_Segment`, with the five fields that
`Parse_ELF_Executable` assigns; each holds a 32-bit word (the declaration is in
geekos/elf.h, which is not among the sources). -/
structure Exe_Segment where
  offsetInFile : Nat
  lengthInFile : Nat
  startAddress : Nat
  sizeInMemory : Nat
  protFlags : Nat
  deriving DecidableEq, Repr

/-- The parsed executable, `struct Exe_Format`; `segmentList` is the array of
`EXE_MAX_SEGMENTS` segments, indexed from 0. -/
structure Exe_Format where
  segmentList : Nat → Exe_Segment
  numSegments : Nat
  entryAddr : Nat

/-- The `for (i = 0; i < pElfHeader->phnum; i++)` loop of `Parse_ELF_Executable`:
`i` is the loop counter, `pProgHeader` the offset of the program header the cursor
points to, `n` the number of iterations still available (the loop is entered with
`n = phnum`, so the loop test is what ends it). -/
def segmentLoop (exeFileData : Buffer) (phnum : Nat) :
    Nat → Nat → Nat → Exe_Format → Exe_Format
  | 0, _, _, exeFormat => exeFormat
  | n + 1, i, pProgHeader, exeFormat =>
    if i < phnum then
      let h := programHeader_at exeFileData pProgHeader
      segmentLoop exeFileData phnum n (i + 1) (pProgHeader + sizeof_programHeader)
        { exeFormat with
          segmentList := Function.update exeFormat.segmentList i
            { offsetInFile := h.offset
              lengthInFile := h.fileSize
              startAddress := h.vaddr
              sizeInMemory := h.memSize
              protFlags := h.flags } }
    else exeFormat

/-- `Parse_ELF_Executable(exeFileData, exeFileLength, exeFormat)`: the return code and
the contents of `*exeFormat` afterwards. `EXE_MAX_SEGMENTS` is a constant of
geekos/elf.h, which is not among the sources, and is taken as a parameter. -/
def Parse_ELF_Executable (EXE_MAX_SEGMENTS : Nat) (exeFileData : Buffer)
    (exeFileLength : Nat) (exeFormat : Exe_Format) : Int × Exe_Format :=
  if exeFileLength = 0 then (-2, exeFormat)
  else
    let pElfHeader := elfHeader_at exeFileData
    let pProgHeader := pElfHeader.phoff
    if pElfHeader.phnum > EXE_MAX_SEGMENTS then (-1, exeFormat)
    else
      let f1 := { exeFormat with numSegments := pElfHeader.phnum }
      let f2 := segmentLoop exeFileData pElfHeader.phnum pElfHeader.phnum 0 pProgHeader f1
      (0, { f2 with entryAddr := pElfHeader.entry })

/-- The segment that the parser is expected to produce from the `i`-th program
header of the image. -/
def segmentOfHeader (exeFileData : Buffer) (i : Nat) : Exe_Segment :=
  let h := programHeader_at exeFileData
    ((elfHeader_at exeFileData).phoff + sizeof_programHeader * i)
  { offsetInFile := h.offset
    lengthInFile := h.fileSize
    startAddress := h.vaddr
    sizeInMemory := h.memSize
    protFlags := h.flags }

/-- An `Exe_Format` whose every field is zero (a zero-initialised output argument). -/
def emptyFormat : Exe_Format :=
  { segmentList := fun _ => ⟨0, 0, 0, 0, 0⟩, numSegments := 0, entryAddr := 0 }

/-- A sample image: `entry = 0x1000`, `phoff = 52`, `phnum = 2`; the first program
header (bytes 52..83) has offset 1, vaddr 2, fileSize 3, memSize 4, flags 5, the second
(bytes 84..115) has offset 6, vaddr 7, fileSize 8, memSize 9, flags 7. -/
def sampleImage : Buffer := fun a =>
  if a = 25 then 16 else if a = 28 then 52 else if a = 44 then 2
  else if a = 56 then 1 else if a = 60 then 2 else if a = 68 then 3
  else if a = 72 then 4 else if a = 76 then 5
  else if a = 88 then 6 else if a = 92 then 7 else if a = 100 then 8
  else if a = 104 then 9 else if a = 108 then 7 else 0

/-- A sample image whose header announces 200 program headers. -/
def crowdedImage : Buffer := fun a => if a = 44 then 200 else 0

end elf


/-! ### user.h: the data shared by user.c, userseg.c and uservm.c -/

/-- What the sources put into a segment descriptor of a context's LDT: whether it is a
code or a data segment, its base address, its length in pages and its privilege level
(`Init_Code_Segment_Descriptor` and `Init_Data_Segment_Descriptor` are not among the
sources; the descriptor records their arguments). -/
structure Segment_Descriptor where
  isCode : Bool := false
  baseAddr : Nat := 0
  numPages : Nat := 0
  privilegeLevel : Nat := 0
  deriving DecidableEq, Repr

/-- The fields of `struct User_Context` that the sources use. `memory` is the block
the `memory` pointer refers to, byte by byte from the start of the block (in the paged
variant: the staging buffer); `size`, `entryAddr`, `argBlockAddr`, `stackPointerAddr`
are `ulong_t`, `refCount` is an `int`; `ldtDescriptor` and `pageDir` are pointers, `ldt`
is the array of the context's descriptors and the three selectors are `ushort_t`. -/
structure User_Context where
  memory : Buffer
  size : Nat
  entryAddr : Nat
  argBlockAddr : Nat
  stackPointerAddr : Nat
  refCount : Int
  ldtDescriptor : Nat := 0
  ldt : Nat → Segment_Descriptor := fun _ => {}
  ldtSelector : Nat := 0
  csSelector : Nat := 0
  dsSelector : Nat := 0
  pageDir : Nat := 0

/-- The fields of `struct Kernel_Thread` that the sources use: the pointer
`userContext`, with 0 for `NULL`, and the process id `pid`. -/
structure Kernel_Thread where
  userContext : Nat
  pid : Int := 0

/-- The kernel state the embedded functions work on: the `User_Context` object found
at each address, the `Kernel_Thread` object found at each address, the global
`g_currentThread` and the interrupt flag. `destroyed` is a record kept for the proofs:
the arguments of the calls of `Destroy_User_Context` made so far, oldest first. -/
structure Kernel where
  userContexts : Nat → User_Context
  threads : Nat → Kernel_Thread
  g_currentThread : Nat
  interruptsEnabled : Bool
  destroyed : List Nat := []

/-- The object `*(g_currentThread->userContext)`. -/
def Kernel.currentContext (k : Kernel) : User_Context :=
  k.userContexts (k.threads k.g_currentThread).userContext

/-- Modelled from the spec: `Disable_Interrupts()` (geekos/int.h is not among the
sources) turns preemption off. -/
def Disable_Interrupts (k : Kernel) : Kernel := { k with interruptsEnabled := false }

/-- Modelled from the spec: `Enable_Interrupts()` (geekos/int.h is not among the
sources) turns preemption back on. -/
def Enable_Interrupts (k : Kernel) : Kernel := { k with interruptsEnabled := true }

/-! ### userseg.c (flat, segmentation-based variant) -/

namespace userseg

/-- `Validate_User_Memory(userContext, userAddr, bufSize)` of userseg.c; the
subtraction is the `ulong_t` one. -/
def Validate_User_Memory (userContext : User_Context) (userAddr bufSize : Nat) : Bool :=
  if userAddr ≥ userContext.size then false
  else
    let avail := (userContext.size + WORD - userAddr) % WORD
    if bufSize > avail then false
    else true

/-- `Copy_From_User(destInKernel, srcInUser, bufSize)` of userseg.c: the returned flag
and the kernel buffer afterwards. -/
def Copy_From_User (k : Kernel) (destInKernel : Buffer) (srcInUser bufSize : Nat) :
    Bool × Buffer :=
  if Validate_User_Memory k.currentContext srcInUser bufSize then
    (true, memcpy destInKernel 0 k.currentContext.memory srcInUser bufSize)
  else
    (false, destInKernel)

/-- `Copy_To_User(destInUser, srcInKernel, bufSize)` of userseg.c: the returned flag and
the kernel state afterwards (the block of the current thread's context is what can
change). -/
def Copy_To_User (k : Kernel) (destInUser : Nat) (srcInKernel : Buffer) (bufSize : Nat) :
    Bool × Kernel :=
  if Validate_User_Memory k.currentContext destInUser bufSize then
    (true,
      { k with
        userContexts := Function.update k.userContexts
          (k.threads k.g_currentThread).userContext
          { k.currentContext with
            memory := memcpy k.currentContext.memory destInUser srcInKernel 0 bufSize } })
  else
    (false, k)

/-- The collaborators of `Load_User_Program` that are not among the sources.
Modelled from the spec: `Get_Argument_Block_Size(command, &numArgs, &argBlockSize)`
yields the pair `(numArgs, argBlockSize)`; `Format_Argument_Block(argBlock, numArgs,
userAddress, command)` serializes the argument block, and `Format_Argument_Block n u c`
is the sequence of the `argBlockSize` bytes it writes from `argBlock` on (the caller
guarantees the space, the layout is opaque). `Malloc_context` and `Malloc_memory size`
are the pointers the two `Malloc` calls of `Create_User_Context` return (0 for `NULL`),
`heap` the bytes found in the allocated block before it is cleared. The remaining fields
are the descriptor interface of geekos/segment.h and geekos/gdt.h. -/
structure Collaborators where
  Get_Argument_Block_Size : Command → Nat × Nat
  Format_Argument_Block : Nat → Nat → Command → Buffer
  Malloc_context : Nat
  Malloc_memory : Nat → Nat
  heap : Buffer
  Allocate_Segment_Descriptor : Nat
  Get_Descriptor_Index : Nat → Nat
  Selector : Nat → Bool → Nat → Nat
  KERNEL_PRIVILEGE : Nat
  USER_PRIVILEGE : Nat

/-- `DEFAULT_USER_STACK_SIZE` of userseg.c. -/
def DEFAULT_USER_STACK_SIZE : Nat := 8192

/-- `Create_User_Context(size)` of userseg.c: the returned pointer (0 for a failure) and
the kernel state afterwards. When the first `Malloc` fails the code jumps to `memfail`,
where the test `retUser_Context->memory == NULL` reads through the null pointer;
whatever it reads, only `Free(NULL)` can follow and 0 is returned. -/
def Create_User_Context (env : Collaborators) (k : Kernel) (size : Nat) : Nat × Kernel :=
  let retUser_Context := env.Malloc_context
  if retUser_Context = 0 then (0, k)
  else
    let cleared : User_Context :=
      { memory := env.heap, size := 0, entryAddr := 0, argBlockAddr := 0,
        stackPointerAddr := 0, refCount := 0 }
    if env.Malloc_memory size = 0 then
      (0, { k with userContexts := Function.update k.userContexts retUser_Context cleared })
    else
      (retUser_Context,
        { k with
          userContexts := Function.update k.userContexts retUser_Context
            { cleared with memory := memset env.heap 0 0 size, size := size } })

/-- The loop "Find maximum virtual address" of `Load_User_Program`: `i` is the loop
counter, `maxva` the running maximum, `n` the number of iterations still available
(the loop is entered with `n = numSegments`). -/
def maxvaLoop (exeFormat : elf.Exe_Format) : Nat → Nat → Nat → Nat
  | 0, _, maxva => maxva
  | n + 1, i, maxva =>
    if i < exeFormat.numSegments then
      let segment := exeFormat.segmentList i
      let topva := (segment.startAddress + segment.sizeInMemory) % WORD
      maxvaLoop exeFormat n (i + 1) (if topva > maxva then topva else maxva)
    else maxva

/-- The loop "Load segment data into memory" of `Load_User_Program`, on the bytes of
the block. -/
def loadLoop (exeFileData : Buffer) (exeFormat : elf.Exe_Format) :
    Nat → Nat → Buffer → Buffer
  | 0, _, memory => memory
  | n + 1, i, memory =>
    if i < exeFormat.numSegments then
      let segment := exeFormat.segmentList i
      loadLoop exeFileData exeFormat n (i + 1)
        (memcpy memory segment.startAddress exeFileData segment.offsetInFile
          segment.lengthInFile)
    else memory

/-- `Load_User_Program(exeFileData, exeFileLength, exeFormat, command, pUserContext)` of
userseg.c: the return code, the pointer stored in `*pUserContext` and the kernel state
afterwards. -/
def Load_User_Program (env : Collaborators) (k : Kernel) (exeFileData : Buffer)
    (_exeFileLength : Nat) (exeFormat : elf.Exe_Format) (command : Command) :
    Int × Nat × Kernel :=
  let numArgs := (env.Get_Argument_Block_Size command).1
  let argBlockSize := (env.Get_Argument_Block_Size command).2
  let maxva := maxvaLoop exeFormat exeFormat.numSegments 0 0
  let size := (Round_Up_To_Page maxva
    + Round_Up_To_Page ((DEFAULT_USER_STACK_SIZE + argBlockSize) % WORD)) % WORD
  let created := Create_User_Context env k size
  if created.1 = 0 then (-1, 0, created.2)
  else
    let pUserContext := created.1
    let k1 := created.2
    let c := k1.userContexts pUserContext
    let memory1 := loadLoop exeFileData exeFormat exeFormat.numSegments 0 c.memory
    let segment := exeFormat.segmentList 1
    let userAddress := (segment.startAddress + segment.lengthInFile) % WORD
    let memory2 := memcpy memory1 userAddress
      (env.Format_Argument_Block numArgs userAddress command) 0 argBlockSize
    let ldtDescriptor := env.Allocate_Segment_Descriptor
    let numPages := (c.size / PAGE_SIZE + 10) % WORD
    let base := env.Malloc_memory size
    let loaded : User_Context :=
      { c with
        memory := memory2
        ldtDescriptor := ldtDescriptor
        ldtSelector := env.Selector env.KERNEL_PRIVILEGE true
          (env.Get_Descriptor_Index ldtDescriptor)
        ldt := fun j =>
          if j = 0 then
            { isCode := true, baseAddr := base, numPages := numPages,
              privilegeLevel := env.USER_PRIVILEGE }
          else if j = 1 then
            { isCode := false, baseAddr := base, numPages := numPages,
              privilegeLevel := env.USER_PRIVILEGE }
          else c.ldt j
        csSelector := env.Selector env.USER_PRIVILEGE false 0
        dsSelector := env.Selector env.USER_PRIVILEGE false 1
        entryAddr := exeFormat.entryAddr
        argBlockAddr := userAddress
        stackPointerAddr := c.size }
    (0, pUserContext,
      { k1 with userContexts := Function.update k1.userContexts pUserContext loaded })

/-- The size `Load_User_Program` computes for the block, in `ulong_t` arithmetic. -/
def computedSize (env : Collaborators) (exeFormat : elf.Exe_Format) (command : Command) : Nat :=
  (Round_Up_To_Page (maxvaLoop exeFormat exeFormat.numSegments 0 0)
    + Round_Up_To_Page
        ((DEFAULT_USER_STACK_SIZE + (env.Get_Argument_Block_Size command).2) % WORD)) % WORD

/-- The address `Load_User_Program` computes for the argument block. -/
def computedArgAddr (exeFormat : elf.Exe_Format) : Nat :=
  ((exeFormat.segmentList 1).startAddress + (exeFormat.segmentList 1).lengthInFile) % WORD

/-- The largest `startAddress + sizeInMemory` among the first `n` segments, in exact
arithmetic (0 when `n = 0`). -/
def segmentEndsMax (exeFormat : elf.Exe_Format) : Nat → Nat
  | 0 => 0
  | n + 1 =>
    max (segmentEndsMax exeFormat n)
      ((exeFormat.segmentList n).startAddress + (exeFormat.segmentList n).sizeInMemory)

/-- The size of the block in exact arithmetic: page-aligned(max segment end) +
page-aligned(stack size + argument-block size). -/
def exactSize (env : Collaborators) (exeFormat : elf.Exe_Format) (command : Command) : Nat :=
  pageAlign (segmentEndsMax exeFormat exeFormat.numSegments)
    + pageAlign (DEFAULT_USER_STACK_SIZE + (env.Get_Argument_Block_Size command).2)

/-- `Destroy_User_Context(userContext)` of userseg.c. Its body hands the block, the LDT
descriptor and the structure back to allocators that are not among the sources
(`Free`, `Free_Segment_Descriptor`); the call is recorded in `destroyed`. -/
def Destroy_User_Context (k : Kernel) (userContext : Nat) : Kernel :=
  { k with destroyed := k.destroyed ++ [userContext] }

end userseg

/-! ### uservm.c (paged variant) -/

namespace uservm

/-- `Validate_User_Memory(userContext, userAddr, bufSize)` of uservm.c. `USER_VM_SIZE`
is a constant of a header that is not among the sources and is taken as a parameter. -/
def Validate_User_Memory (USER_VM_SIZE : Nat) (_userContext : User_Context)
    (userAddr bufSize : Nat) : Bool :=
  if userAddr ≥ USER_VM_SIZE then false
  else
    let avail := (USER_VM_SIZE + WORD - userAddr) % WORD
    if bufSize > avail then false
    else true

/-- `Copy_From_User(destInKernel, srcInUser, bufSize)` of uservm.c. Both pointers are
linear addresses; `linear` is the linear address space as the installed translation
shows it, and it is the state the `memcpy` changes. -/
def Copy_From_User (USER_VM_SIZE : Nat) (k : Kernel) (linear : Buffer)
    (destInKernel srcInUser bufSize : Nat) : Run Buffer Bool :=
  if destInKernel = 0 then Run.halted linear
  else if srcInUser = 0 then Run.halted linear
  else
    let mem_valid := false
    if (k.threads k.g_currentThread).userContext ≠ 0 then
      let mem_valid := Validate_User_Memory USER_VM_SIZE k.currentContext srcInUser bufSize
      if mem_valid then
        Run.returned mem_valid
          (memcpy linear destInKernel linear ((srcInUser + 0x80000000) % WORD) bufSize)
      else Run.returned mem_valid linear
    else Run.returned mem_valid linear

/-- `Copy_To_User(destInUser, srcInKernel, numBytes)` of uservm.c, on the same state as
`Copy_From_User`. -/
def Copy_To_User (USER_VM_SIZE : Nat) (k : Kernel) (linear : Buffer)
    (destInUser srcInKernel numBytes : Nat) : Run Buffer Bool :=
  if srcInKernel = 0 then Run.halted linear
  else if destInUser = 0 then Run.halted linear
  else
    let mem_valid := true
    if (k.threads k.g_currentThread).userContext ≠ 0 then
      let mem_valid := Validate_User_Memory USER_VM_SIZE k.currentContext destInUser numBytes
      if mem_valid then
        Run.returned mem_valid
          (memcpy linear ((0x80000000 + destInUser) % WORD) linear srcInKernel numBytes)
      else Run.returned mem_valid linear
    else Run.returned mem_valid linear

end uservm

/-! ### user.c -/

namespace user

/-- `Attach_User_Context(kthread, context)` of user.c; both arguments are pointers. -/
def Attach_User_Context (k : Kernel) (kthread context : Nat) : Run Kernel Unit :=
  if context = 0 then Run.halted k
  else
    let k1 : Kernel :=
      { k with
        threads := Function.update k.threads kthread
          { k.threads kthread with userContext := context } }
    let k2 := Disable_Interrupts k1
    if (k2.userContexts context).refCount = 0 then
      let k3 : Kernel :=
        { k2 with
          userContexts := Function.update k2.userContexts context
            { k2.userContexts context with
              refCount := (k2.userContexts context).refCount + 1 } }
      Run.returned () (Enable_Interrupts k3)
    else Run.halted k2

/-- `Detach_User_Context(kthread)` of user.c (`Destroy_User_Context` is the one of
userseg.c, the variant user.c is built with). -/
def Detach_User_Context (k : Kernel) (kthread : Nat) : Kernel :=
  let old := (k.threads kthread).userContext
  let k1 : Kernel :=
    { k with
      threads := Function.update k.threads kthread
        { k.threads kthread with userContext := 0 } }
  if old ≠ 0 then
    let k2 := Disable_Interrupts k1
    let k3 : Kernel :=
      { k2 with
        userContexts := Function.update k2.userContexts old
          { k2.userContexts old with refCount := (k2.userContexts old).refCount - 1 } }
    let refCount := (k3.userContexts old).refCount
    let k4 := Enable_Interrupts k3
    if refCount = 0 then userseg.Destroy_User_Context k4 old
    else k4
  else k1

/-- The calls `Spawn` can make, for the record of the calls it did make. -/
inductive SpawnCall where
  | Read_Fully : SpawnCall
  | Parse_ELF_Executable : SpawnCall
  | Load_User_Program : SpawnCall
  | Start_User_Thread : SpawnCall
  | Free : SpawnCall
  deriving DecidableEq, Repr

/-- The collaborators of `Spawn` that are not among the sources.
Modelled from the spec: `Read_Fully(path)` yields the buffer and its length, or fails
(`none`, a non-zero return code); `Start_User_Thread(userContext, detached)` creates
the kernel thread bound to the context and yields the pointer to it together with the
kernel state it leaves. `ENOTFOUND`, `ENOEXEC`, `EUNSPECIFIED` are the error codes of
geekos/errno.h, `EXE_MAX_SEGMENTS` the constant of geekos/elf.h, `exeFormat` the
contents of the local variable `exeFormat` before it is parsed into. -/
structure SpawnCollaborators where
  loader : userseg.Collaborators
  Read_Fully : Command → Option (Buffer × Nat)
  Start_User_Thread : Kernel → Nat → Bool → Nat × Kernel
  ENOTFOUND : Int
  ENOEXEC : Int
  EUNSPECIFIED : Int
  EXE_MAX_SEGMENTS : Nat
  exeFormat : elf.Exe_Format

/-- What a call of `Spawn` leaves: the value returned, the contents of `*pThread`, the
kernel state, and the record of the calls made, in order. -/
structure SpawnResult where
  retVal : Int
  pThread : Nat
  kernel : Kernel
  made : List SpawnCall

/-- The state a call of `Spawn` runs on: the kernel objects and the record of the calls
made so far, in order. Every call `Spawn` makes goes through one of the functions of
`Traced` below, which runs the callee on the kernel state and appends the call to the
record. -/
structure SpawnState where
  kernel : Kernel
  made : List SpawnCall

namespace Traced

/-- The call `Read_Fully(program, &exeFileData, &exeFileLength)`: the buffer and its
length, or `none` for a non-zero return code. -/
def Read_Fully (env : SpawnCollaborators) (s : SpawnState) (program : Command) :
    Option (Buffer × Nat) × SpawnState :=
  (env.Read_Fully program, { s with made := s.made ++ [SpawnCall.Read_Fully] })

/-- The call `Parse_ELF_Executable(exeFileData, exeFileLength, &exeFormat)`: the return
code and the contents of `exeFormat` afterwards. -/
def Parse_ELF_Executable (env : SpawnCollaborators) (s : SpawnState) (exeFileData : Buffer)
    (exeFileLength : Nat) : (Int × elf.Exe_Format) × SpawnState :=
  (elf.Parse_ELF_Executable env.EXE_MAX_SEGMENTS exeFileData exeFileLength env.exeFormat,
    { s with made := s.made ++ [SpawnCall.Parse_ELF_Executable] })

/-- The call `Load_User_Program(exeFileData, exeFileLength, &exeFormat, command,
&pUserContext)` of userseg.c, run on the kernel state: the return code and the contents
of `pUserContext` afterwards. -/
def Load_User_Program (env : SpawnCollaborators) (s : SpawnState) (exeFileData : Buffer)
    (exeFileLength : Nat) (exeFormat : elf.Exe_Format) (command : Command) :
    (Int × Nat) × SpawnState :=
  ( ( (userseg.Load_User_Program env.loader s.kernel exeFileData exeFileLength exeFormat
        command).1,
      (userseg.Load_User_Program env.loader s.kernel exeFileData exeFileLength exeFormat
        command).2.1 ),
    { kernel := (userseg.Load_User_Program env.loader s.kernel exeFileData exeFileLength
        exeFormat command).2.2
      made := s.made ++ [SpawnCall.Load_User_Program] } )

/-- The call `Start_User_Thread(pUserContext, false)`, run on the kernel state: the
pointer to the new thread. -/
def Start_User_Thread (env : SpawnCollaborators) (s : SpawnState) (pUserContext : Nat)
    (detached : Bool) : Nat × SpawnState :=
  ( (env.Start_User_Thread s.kernel pUserContext detached).1,
    { kernel := (env.Start_User_Thread s.kernel pUserContext detached).2
      made := s.made ++ [SpawnCall.Start_User_Thread] } )

/-- The call `Free(exeFileData)`; the kernel heap is not part of the kernel state. -/
def Free (s : SpawnState) : SpawnState :=
  { s with made := s.made ++ [SpawnCall.Free] }

end Traced

/-- `Spawn(program, command, pThread)` of user.c; the argument `pThread` is the contents
of `*pThread` before the call. The dumps and prints of the body, and its counter `temp`,
have no effect on what is modelled. When `Read_Fully` fails `exeFileData` is still null
and nothing is freed. -/
def Spawn (env : SpawnCollaborators) (k : Kernel) (program command : Command)
    (pThread : Nat) : SpawnResult :=
  let read := Traced.Read_Fully env { kernel := k, made := [] } program
  match read.1 with
  | none =>
    { retVal := env.ENOTFOUND, pThread := pThread, kernel := read.2.kernel,
      made := read.2.made }
  | some (exeFileData, exeFileLength) =>
    let parsed := Traced.Parse_ELF_Executable env read.2 exeFileData exeFileLength
    if parsed.1.1 ≠ 0 then
      { retVal := env.ENOEXEC, pThread := pThread, kernel := (Traced.Free parsed.2).kernel,
        made := (Traced.Free parsed.2).made }
    else
      let loaded := Traced.Load_User_Program env parsed.2 exeFileData exeFileLength
        parsed.1.2 command
      if loaded.1.1 ≠ 0 then
        { retVal := env.EUNSPECIFIED, pThread := pThread,
          kernel := (Traced.Free loaded.2).kernel, made := (Traced.Free loaded.2).made }
      else
        let started := Traced.Start_User_Thread env loaded.2 loaded.1.2 false
        { retVal := 0, pThread := started.1, kernel := (Traced.Free started.2).kernel,
          made := (Traced.Free started.2).made }

end user

/-! ### paging.c -/

namespace paging

/-- A page-directory entry, `pde_t`, with the fields the sources assign and test. The
declaration is in geekos/paging.h, which is not among the sources; the comments of
`Set_Page_Directory_Entry` give the widths: `present` 1 bit, `flags` 4 bits,
`pageTableBaseAddr` 20 bits. An entry whose fields are all 0 is what a cleared page
holds. -/
structure pde_t where
  present : Nat := 0
  flags : Nat := 0
  accesed : Nat := 0
  reserved : Nat := 0
  largePages : Nat := 0
  globalPage : Nat := 0
  kernelInfo : Nat := 0
  pageTableBaseAddr : Nat := 0
  deriving DecidableEq, Repr

/-- A page-table (leaf) entry, `pte_t`, with the fields the sources assign (declared in
geekos/paging.h, widths as in the comments of `Set_Page_Table_Entry`). -/
structure pte_t where
  present : Nat := 0
  flags : Nat := 0
  accesed : Nat := 0
  dirty : Nat := 0
  pteAttribute : Nat := 0
  globalPage : Nat := 0
  kernelInfo : Nat := 0
  pageBaseAddr : Nat := 0
  deriving DecidableEq, Repr

/-- Modelled from the spec: the size of a `pde_t` and of a `pte_t` (geekos/paging.h is
not among the sources): one 32-bit word, 1024 entries to a page. -/
abbrev ENTRY_SIZE : Nat := 4

/-- Physical memory as the paging code uses it. A page is used under one type: the
entries of page directories are read through `pdes`, those of leaf tables through
`ptes`, both indexed by the address of the entry, and data frames through `bytes`.
`freePages` lists the frames the page allocator will hand out, first to last;
`pageEntry` and `pageVaddr` are the back-references kept in `struct Page` for a frame
(the leaf entry and the virtual address that map it). -/
structure Memory where
  pdes : Nat → pde_t
  ptes : Nat → pte_t
  bytes : Buffer
  freePages : List Nat
  pageEntry : Nat → Nat := fun _ => 0
  pageVaddr : Nat → Nat := fun _ => 0

/-- Modelled from the spec: `PAGE_DIRECTORY_INDEX(x)` (geekos/paging.h is not among the
sources), the directory index of a linear address: its top 10 bits. -/
def PAGE_DIRECTORY_INDEX (x : Nat) : Nat := (x >>> 22) &&& 0x3ff

/-- Modelled from the spec: `PAGE_TABLE_INDEX(x)` (geekos/paging.h is not among the
sources), the leaf index of a linear address: its next 10 bits. -/
def PAGE_TABLE_INDEX (x : Nat) : Nat := (x >>> 12) &&& 0x3ff

/-- Modelled from the spec: `Alloc_Page()` (mem.c is not among the sources) hands out
one page-sized physical frame, `NULL` (0) when none is left. -/
def Alloc_Page (m : Memory) : Nat × Memory :=
  match m.freePages with
  | [] => (0, m)
  | page :: rest => (page, { m with freePages := rest })

/-- Modelled from the spec: `Alloc_Pageable_Page(entry, vaddr)` (mem.c is not among the
sources) hands out one frame like `Alloc_Page` and records in the frame's descriptor
the leaf entry and the virtual address that map it. -/
def Alloc_Pageable_Page (m : Memory) (entry vaddr : Nat) : Nat × Memory :=
  match m.freePages with
  | [] => (0, m)
  | page :: rest =>
    (page,
      { m with
        freePages := rest
        pageEntry := Function.update m.pageEntry page entry
        pageVaddr := Function.update m.pageVaddr page vaddr })

/-- The call `memset(page, 0, PAGE_SIZE)` on physical memory: every entry and every byte
stored in `[page, page + PAGE_SIZE)` becomes zero. -/
def clearPage (m : Memory) (page : Nat) : Memory :=
  { m with
    pdes := fun a => if page ≤ a ∧ a < page + PAGE_SIZE then {} else m.pdes a
    ptes := fun a => if page ≤ a ∧ a < page + PAGE_SIZE then {} else m.ptes a
    bytes := memset m.bytes page 0 PAGE_SIZE }

/-- `Set_Page_Table_Entry(tableEntry, physicalAddr, flags)` of paging.c. -/
def Set_Page_Table_Entry (m : Memory) (tableEntry physicalAddr flags : Nat) : Memory :=
  { m with
    ptes := Function.update m.ptes tableEntry
      { m.ptes tableEntry with
        present := 1
        flags := flags &&& 0x0F
        accesed := 0
        dirty := 0
        pteAttribute := 0
        globalPage := 0
        kernelInfo := 0
        pageBaseAddr := (physicalAddr >>> PAGE_POWER) &&& 0xFFFFF } }

/-- `Set_Page_Directory_Entry(dirEntry, physicalAddr, flags)` of paging.c (its two
prints left out). -/
def Set_Page_Directory_Entry (m : Memory) (dirEntry physicalAddr flags : Nat) : Memory :=
  { m with
    pdes := Function.update m.pdes dirEntry
      { m.pdes dirEntry with
        present := 1
        flags := flags &&& 0x0F
        accesed := 0
        largePages := 0
        globalPage := 0
        kernelInfo := 0
        pageTableBaseAddr := (physicalAddr >>> PAGE_POWER) &&& 0xFFFFF } }

/-- `Register_Page(pageDirectory, linearAddr, flags)` of paging.c: the returned pointer
to the leaf entry and the memory afterwards. -/
def Register_Page (m : Memory) (pageDirectory linearAddr flags : Nat) : Nat × Memory :=
  let dirIndex := PAGE_DIRECTORY_INDEX linearAddr
  let tableIndex := PAGE_TABLE_INDEX linearAddr
  let dirEntry := pageDirectory + ENTRY_SIZE * dirIndex
  if (m.pdes dirEntry).present = 0 then
    let tablePhyAddress := (Alloc_Page m).1
    let m1 := clearPage (Alloc_Page m).2 tablePhyAddress
    let m2 := Set_Page_Directory_Entry m1 dirEntry tablePhyAddress flags
    (tablePhyAddress + ENTRY_SIZE * tableIndex, m2)
  else
    let tablePhyAddress := ((m.pdes dirEntry).pageTableBaseAddr <<< 12) % WORD
    (tablePhyAddress + ENTRY_SIZE * tableIndex, m)

/-- `Register_User_Page(pageDir, vaddr, flags)` of paging.c: the returned physical
address of the frame and the memory afterwards. -/
def Register_User_Page (m : Memory) (pageDir vaddr flags : Nat) : Nat × Memory :=
  let entry := (Register_Page m pageDir vaddr flags).1
  let m1 := (Register_Page m pageDir vaddr flags).2
  let phaddr := (Alloc_Pageable_Page m1 entry vaddr).1
  let m2 := (Alloc_Pageable_Page m1 entry vaddr).2
  (phaddr, Set_Page_Table_Entry m2 entry phaddr flags)

/-- The address of the directory entry that `Register_Page` looks at:
`&pageDirectory[PAGE_DIRECTORY_INDEX(linearAddr)]`. -/
def dirEntryOf (pageDirectory linearAddr : Nat) : Nat :=
  pageDirectory + ENTRY_SIZE * PAGE_DIRECTORY_INDEX linearAddr

/-- A sample physical memory: nothing mapped (every entry zero), every byte 0, and the
frames at 0x5000 and 0x6000 free. -/
def emptyMemory : Memory :=
  { pdes := fun _ => {}, ptes := fun _ => {}, bytes := fun _ => 0,
    freePages := [0x5000, 0x6000] }

end paging

/-! ### uservm.c: the paged builder -/

namespace uservm

/-- Constants of the paged variant whose headers (geekos/paging.h, geekos/mem.h) are not
among the sources; they are taken as parameters. -/
structure Constants where
  USER_VM_START : Nat
  USER_VM_SIZE : Nat
  VM_WRITE : Nat
  VM_READ : Nat
  VM_USER : Nat

/-- The state the paged builder works on: the kernel objects, physical memory and the
global `g_kernelPageDir`. -/
structure State where
  kernel : Kernel
  memory : paging.Memory
  g_kernelPageDir : Nat

/-- `Create_User_Context(size)` of uservm.c: the returned pointer (0 for a failure) and
the kernel state, or a halt at the `KASSERT`. The allocated structure is not cleared:
the fields the function does not assign keep what the memory held. The collaborators
are those of the flat builder (`Malloc_memory` is the first `Malloc` here,
`Malloc_context` the second). -/
def Create_User_Context (c : Constants) (env : userseg.Collaborators) (k : Kernel)
    (size : Nat) : Run Kernel Nat :=
  if size % PAGE_SIZE ≠ 0 then Run.halted k
  else if env.Malloc_memory size = 0 then Run.returned 0 k
  else
    let userContext := env.Malloc_context
    if userContext = 0 then Run.returned 0 k
    else
      let ldt_desc := env.Allocate_Segment_Descriptor
      if ldt_desc = 0 then Run.returned 0 k
      else
        let created : User_Context :=
          { k.userContexts userContext with
            ldt := fun j =>
              if j = 0 then
                { isCode := true, baseAddr := c.USER_VM_START,
                  numPages := c.USER_VM_SIZE / PAGE_SIZE,
                  privilegeLevel := env.USER_PRIVILEGE }
              else if j = 1 then
                { isCode := false, baseAddr := c.USER_VM_START,
                  numPages := c.USER_VM_SIZE / PAGE_SIZE,
                  privilegeLevel := env.USER_PRIVILEGE }
              else (k.userContexts userContext).ldt j
            ldtDescriptor := ldt_desc
            ldtSelector := env.Selector env.KERNEL_PRIVILEGE true
              (env.Get_Descriptor_Index ldt_desc)
            csSelector := env.Selector env.USER_PRIVILEGE false 0
            dsSelector := env.Selector env.USER_PRIVILEGE false 1
            size := size
            memory := memset env.heap 0 0 size
            refCount := 0 }
        Run.returned userContext
          { k with userContexts := Function.update k.userContexts userContext created }

/-- The loop "fill the user pages" of `Load_User_Program`: `i` is the loop counter, `n`
the number of iterations still available (the loop is entered with `n = nPages`);
`staged` is the staging buffer `userContext->memory`. -/
def pageLoop (c : Constants) (pageDir : Nat) (staged : Buffer) (nPages flags : Nat) :
    Nat → Nat → paging.Memory → paging.Memory
  | 0, _, m => m
  | n + 1, i, m =>
    if i < nPages then
      let registered := paging.Register_User_Page m pageDir
        ((c.USER_VM_START + i * PAGE_SIZE) % WORD) flags
      let phaddr := registered.1
      pageLoop c pageDir staged nPages flags n (i + 1)
        { registered.2 with
          bytes := memcpy registered.2.bytes phaddr staged (i * PAGE_SIZE) PAGE_SIZE }
    else m

/-- The body of the loop "fill the user pages" for the counter value `i`: a frame is
registered at `USER_VM_START + i * PAGE_SIZE` and the `PAGE_SIZE` staged bytes from
offset `i * PAGE_SIZE` on are copied into it. -/
def pageStep (c : Constants) (pageDir : Nat) (staged : Buffer) (flags i : Nat)
    (m : paging.Memory) : paging.Memory :=
  { (paging.Register_User_Page m pageDir ((c.USER_VM_START + i * PAGE_SIZE) % WORD) flags).2
    with
    bytes := memcpy
      (paging.Register_User_Page m pageDir
        ((c.USER_VM_START + i * PAGE_SIZE) % WORD) flags).2.bytes
      (paging.Register_User_Page m pageDir
        ((c.USER_VM_START + i * PAGE_SIZE) % WORD) flags).1
      staged (i * PAGE_SIZE) PAGE_SIZE }

/-- What `Load_User_Program` of uservm.c hands back: the return code, the pointer stored
in `*pUserContext`, and, kept for the proofs, the first and the third argument of its
call of `Format_Argument_Block` (the frame written and the base address given to the
serializer). -/
structure Loaded where
  ret : Int
  pUserContext : Nat
  argBlock : Nat
  userAddress : Nat

/-- The start of `Load_User_Program` of uservm.c, "Page directory for user address
space": a page is allocated and cleared and the entries of the kernel page directory
are copied into it; the result is the pointer `pageDir` and the memory afterwards. -/
def newPageDirectory (s : State) : Nat × paging.Memory :=
  let pageDir := (paging.Alloc_Page s.memory).1
  let m0 := paging.clearPage (paging.Alloc_Page s.memory).2 pageDir
  (pageDir,
    { m0 with
      pdes := fun a =>
        if pageDir ≤ a ∧ a < pageDir + PAGE_SIZE then
          m0.pdes (s.g_kernelPageDir + (a - pageDir))
        else m0.pdes a })

/-- The part of `Load_User_Program` of uservm.c from "fill the user pages" to the
registration of the argument page: the frames of the staged program, the cleared stack
frame at `0xFFFFE000` and the argument frame at `0xFFFFF000` are mapped; the result is
the physical address `argPhyAdd` of the argument frame and the memory afterwards. -/
def mapUserPages (c : Constants) (pageDir : Nat) (staged : Buffer) (virtSize : Nat)
    (m1 : paging.Memory) : Nat × paging.Memory :=
  let flags := c.VM_WRITE ||| c.VM_READ ||| c.VM_USER
  let nPages := virtSize / PAGE_SIZE + 1
  let m2 := pageLoop c pageDir staged nPages flags nPages 0 m1
  let stackVirAdd := 0xFFFFE000
  let stackPhyAdd := (paging.Register_User_Page m2 pageDir stackVirAdd flags).1
  let m3 := paging.clearPage (paging.Register_User_Page m2 pageDir stackVirAdd flags).2
    stackPhyAdd
  let argVirAdd := 0xFFFFF000
  paging.Register_User_Page m3 pageDir argVirAdd flags

/-- `Load_User_Program(exeFileData, exeFileLength, exeFormat, command, pUserContext)` of
uservm.c, its page-directory and page-mapping parts being `newPageDirectory` and
`mapUserPages`. The three `KASSERT`s on the pointer arguments hold, the arguments being
actual buffers; the prints are left out. The pointer `Create_User_Context` returns is
used without a test. The two loops over the segments are those of the flat builder. -/
def Load_User_Program (c : Constants) (env : userseg.Collaborators) (s : State)
    (exeFileData : Buffer) (_exeFileLength : Nat) (exeFormat : elf.Exe_Format)
    (command : Command) : Run State Loaded :=
  let pageDir := (newPageDirectory s).1
  let m1 := (newPageDirectory s).2
  let maxva := userseg.maxvaLoop exeFormat exeFormat.numSegments 0 0
  let numArgs := (env.Get_Argument_Block_Size command).1
  let argBlockSize := (env.Get_Argument_Block_Size command).2
  let virtSize := (Round_Up_To_Page maxva + 0x2000) % WORD
  match Create_User_Context c env s.kernel virtSize with
  | Run.halted kh => Run.halted { s with kernel := kh, memory := m1 }
  | Run.returned userContext k1 =>
    let staged := userseg.loadLoop exeFileData exeFormat exeFormat.numSegments 0
      (k1.userContexts userContext).memory
    let stackVirAdd := 0xFFFFE000
    let argVirAdd := 0xFFFFF000
    let argPhyAdd := (mapUserPages c pageDir staged virtSize m1).1
    let m4 := (mapUserPages c pageDir staged virtSize m1).2
    let userAddress := (argVirAdd + WORD - c.USER_VM_START) % WORD
    let m5 : paging.Memory :=
      { m4 with
        bytes := memcpy m4.bytes argPhyAdd
          (env.Format_Argument_Block numArgs userAddress command) 0 argBlockSize }
    let loaded : User_Context :=
      { k1.userContexts userContext with
        memory := staged
        entryAddr := exeFormat.entryAddr
        argBlockAddr := (argVirAdd + WORD - c.USER_VM_START) % WORD
        stackPointerAddr := ((stackVirAdd + WORD - c.USER_VM_START) % WORD + PAGE_SIZE) % WORD
        pageDir := pageDir }
    Run.returned
      { ret := 0, pUserContext := userContext, argBlock := argPhyAdd,
        userAddress := userAddress }
      { s with
        kernel := { k1 with userContexts := Function.update k1.userContexts userContext loaded }
        memory := m5 }

/-- Sample constants of the paged variant: the user window starts at 0x80000000 and is
0x80000000 bytes long. -/
def sampleConstants : Constants :=
  { USER_VM_START := 0x80000000, USER_VM_SIZE := 0x80000000,
    VM_WRITE := 1, VM_READ := 0, VM_USER := 2 }

end uservm

/-! ### paging.c: the page-fault handler -/

/-- The fields of `struct Interrupt_State` that the sources read: the saved registers
`ebx`, `ecx`, `edx`, `esi` and the error code pushed by the processor. -/
structure Interrupt_State where
  ebx : Nat := 0
  ecx : Nat := 0
  edx : Nat := 0
  esi : Nat := 0
  errorCode : Nat := 0

namespace paging

/-- The fields of `faultcode_t` that paging.c reads (the declaration is in
geekos/paging.h, which is not among the sources). -/
structure faultcode_t where
  protectionViolation : Bool
  writeFault : Bool
  userModeFault : Bool
  deriving DecidableEq, Repr

/-- Modelled from the spec: the view `*((faultcode_t *) &(state->errorCode))`
(geekos/paging.h is not among the sources): the fault cause is decoded from the three
low bits of the error code, present-but-protected, write, user mode, in this order. -/
def faultcode_of (errorCode : Nat) : faultcode_t :=
  { protectionViolation := errorCode.testBit 0
    writeFault := errorCode.testBit 1
    userModeFault := errorCode.testBit 2 }

/-- How a call of `Page_Fault_Handler` can end: at a failed `KASSERT` (the kernel
halts), inside `Exit(exitCode)` called by the given thread, or by returning to the
interrupted code.
Modelled from the spec: `Exit` (kthread.c is not among the sources) "never returns to
its caller". -/
inductive FaultOutcome where
  | assertionFailed : FaultOutcome
  | exited (thread : Nat) (exitCode : Int) : FaultOutcome
  | returned : FaultOutcome
  deriving DecidableEq, Repr

/-- `Page_Fault_Handler(state)` of paging.c; `address` is what `Get_Page_Fault_Address()`
yields. The prints and dumps of the body are left out. -/
def Page_Fault_Handler (k : Kernel) (address : Nat) (state : Interrupt_State) :
    FaultOutcome :=
  if k.interruptsEnabled then FaultOutcome.assertionFailed
  else
    let _address := address
    let faultCode := faultcode_of state.errorCode
    if !faultCode.userModeFault then FaultOutcome.assertionFailed
    else FaultOutcome.exited k.g_currentThread (-1)

/-- The field of `struct Boot_Info` that paging.c reads (the declaration is in
geekos/bootinfo.h, which is not among the sources). -/
structure Boot_Info where
  memSizeKB : Nat

/-- The body of the loop of `Init_VM` for the counter value `i`: the translation path
for `address = i << PAGE_POWER` is registered in the kernel page directory, the leaf
entry is set to `address` itself, and the descriptor of the frame at `address`
(`Get_Page(address)`) records the entry and the virtual address. `VM_WRITE` and
`VM_READ` are constants of geekos/paging.h, taken as parameters. -/
def initStep (VM_WRITE VM_READ g_kernelPageDir i : Nat) (m : Memory) : Memory :=
  let address := (i <<< PAGE_POWER) % WORD
  let flags := VM_WRITE ||| VM_READ
  let entry := (Register_Page m g_kernelPageDir address flags).1
  let m1 := (Register_Page m g_kernelPageDir address flags).2
  let m2 := Set_Page_Table_Entry m1 entry address flags
  { m2 with
    pageEntry := Function.update m2.pageEntry address entry
    pageVaddr := Function.update m2.pageVaddr address address }

/-- The loop `for (i = 0; i < numPages; i++)` of `Init_VM`, from the counter value `i`,
with the number of iterations left as fuel. -/
def initLoop (VM_WRITE VM_READ g_kernelPageDir numPages : Nat) :
    Nat → Nat → Memory → Memory
  | 0, _, m => m
  | n + 1, i, m =>
    if i < numPages then
      initLoop VM_WRITE VM_READ g_kernelPageDir numPages n (i + 1)
        (initStep VM_WRITE VM_READ g_kernelPageDir i m)
    else m

/-- `Init_VM(bootInfo)` of paging.c: the new value of the global `g_kernelPageDir` and
the memory afterwards. The print is left out; `Install_Interrupt_Handler` and
`Enable_Paging` (not among the sources) write no translation entry. -/
def Init_VM (VM_WRITE VM_READ : Nat) (bootInfo : Boot_Info) (m : Memory) : Nat × Memory :=
  let numPages := bootInfo.memSizeKB >>> 2
  let g_kernelPageDir := (Alloc_Page m).1
  let m1 := clearPage (Alloc_Page m).2 g_kernelPageDir
  (g_kernelPageDir, initLoop VM_WRITE VM_READ g_kernelPageDir numPages numPages 0 m1)

/-- The address of the leaf entry of page index `j` when the leaf tables of the kernel
directory are the frames of `tables`, in this order: entry `j % 1024` of table
`j / 1024`. -/
def leafEntryOf (tables : List Nat) (j : Nat) : Nat :=
  tables.getD (j / 1024) 0 + ENTRY_SIZE * (j % 1024)

/-- The number of leaf tables that cover `k` pages. -/
def tablesFor (k : Nat) : Nat := (k + 1023) / 1024

/-- The state of the kernel translation structure after `k` iterations of the loop of
`Init_VM`, the directory being at `dir` and the allocator having held the frames
`tables` when the loop started: the allocator has handed out the first `tablesFor k`
frames; the directory entries below `tablesFor k` are present and point to these
frames, the others are absent; the leaf entry of every page index below `k` maps the
page to itself; the other entries of the tables handed out are zero. -/
def InitInv (flags dir : Nat) (tables : List Nat) (k : Nat) (m : Memory) : Prop :=
  m.freePages = tables.drop (tablesFor k) ∧
  (∀ d, d < 1024 →
    (d < tablesFor k →
      (m.pdes (dir + ENTRY_SIZE * d)).present = 1 ∧
      (m.pdes (dir + ENTRY_SIZE * d)).flags = flags &&& 0x0F ∧
      (m.pdes (dir + ENTRY_SIZE * d)).pageTableBaseAddr = tables.getD d 0 >>> 12) ∧
    (tablesFor k ≤ d → (m.pdes (dir + ENTRY_SIZE * d)).present = 0)) ∧
  (∀ j, j < k →
    m.ptes (leafEntryOf tables j)
      = { present := 1, flags := flags &&& 0x0F, pageBaseAddr := j }) ∧
  (∀ j, k ≤ j → j < 1024 * tablesFor k → m.ptes (leafEntryOf tables j) = {})

/-- A sample physical memory at boot: nothing mapped, four free frames from 0x100000
on. -/
def bootMemory : Memory :=
  { pdes := fun _ => {}, ptes := fun _ => {}, bytes := fun _ => 0,
    freePages := [0x100000, 0x101000, 0x102000, 0x103000] }

end paging

/-! ### elf.c: the bytes the parser reads -/

namespace elf

/-- The offsets of the bytes that the view `programHeader_at exeFileData off` reads: the
words `offset`, `vaddr` (bytes 4 to 11 of the entry) and `fileSize`, `memSize`, `flags`
(bytes 16 to 27). -/
def programHeader_reads (off : Nat) : List Nat :=
  ([4, 5, 6, 7, 8, 9, 10, 11, 16, 17, 18, 19, 20, 21, 22, 23, 24, 25, 26, 27]).map
    (fun j => off + j)

/-- The offsets read by the first `n` iterations of the loop of `Parse_ELF_Executable`,
the program-header cursor starting at `phoff`. -/
def tableReads (phoff : Nat) : Nat → List Nat
  | 0 => []
  | n + 1 => tableReads phoff n ++ programHeader_reads (phoff + sizeof_programHeader * n)

/-- The offsets of the bytes of `exeFileData` that `Parse_ELF_Executable` reads, along
its control flow: nothing for a zero length; otherwise `phoff` (bytes 28 to 31) and
`phnum` (bytes 44, 45); and, when `phnum` does not exceed the capacity, the `phnum`
program headers and `entry` (bytes 24 to 27). -/
def Parse_reads (EXE_MAX_SEGMENTS : Nat) (exeFileData : Buffer) (exeFileLength : Nat) :
    List Nat :=
  if exeFileLength = 0 then []
  else
    [28, 29, 30, 31, 44, 45] ++
      (if (elfHeader_at exeFileData).phnum > EXE_MAX_SEGMENTS then []
       else
        tableReads (elfHeader_at exeFileData).phoff (elfHeader_at exeFileData).phnum
          ++ [24, 25, 26, 27])

/-- The image that agrees with `sampleImage` on its first 60 bytes and is zero from
there on. -/
def truncatedImage : Buffer := fun a => if a < 60 then sampleImage a else 0

end elf

/-! ### syscall.c -/

namespace syscall

/-- The collaborators of `Sys_Spawn` that are not among the sources: those of `Spawn`,
the pointers the two `Malloc` calls return for a given length (0 for `NULL`), the bytes
found in the heap from the start of an allocated buffer on (in the buffer and after it),
the error code `ENOMEM` of geekos/errno.h, and the contents of the local variable
`kthread` before `Spawn` writes to it. -/
structure Collaborators where
  spawn : user.SpawnCollaborators
  Malloc_exeName : Nat → Nat
  Malloc_command : Nat → Nat
  heap : Buffer
  ENOMEM : Int
  kthread : Nat

/-- The bytes of a buffer from offset `i` up to the first zero byte, `fuel` bounding the
search. -/
def cstringFrom (b : Buffer) : Nat → Nat → Command
  | 0, _ => []
  | fuel + 1, i => if b i = 0 then [] else b i :: cstringFrom b fuel (i + 1)

/-- The C string a `const char *` to the start of a buffer denotes: the bytes before the
first zero byte, wherever it is. `Sys_Spawn` writes no terminator itself: the string ends
at the first zero byte among the bytes copied from user space or, when there is none,
among the bytes that follow the buffer in the heap. The search is bounded by the size of
the address space. -/
def cstring (b : Buffer) : Command := cstringFrom b WORD 0

/-- `Sys_Spawn(state)` of syscall.c: the value returned and the kernel state at the
return. `Copy_From_User` is the one of userseg.c; the prints and the `Free` calls are
left out. `Spawn` is handed the pointers `exeName` and `command`, so it reads each
string up to its first zero byte. -/
def Sys_Spawn (env : Collaborators) (k : Kernel) (state : Interrupt_State) : Int × Kernel :=
  let exeNameLen := (state.ecx + 1) % WORD
  let commandLen := (state.esi + 1) % WORD
  if env.Malloc_exeName exeNameLen = 0 then (env.ENOMEM, k)
  else if env.Malloc_command commandLen = 0 then (env.ENOMEM, k)
  else
    let exeName0 := memset env.heap 0 0 exeNameLen
    let copied1 := userseg.Copy_From_User k exeName0 state.ebx exeNameLen
    if !copied1.1 then (env.spawn.EUNSPECIFIED, k)
    else
      let command0 := memset env.heap 0 0 commandLen
      let copied2 := userseg.Copy_From_User k command0 state.edx commandLen
      if !copied2.1 then (env.spawn.EUNSPECIFIED, k)
      else
        let k1 := Enable_Interrupts k
        let spawned := user.Spawn env.spawn k1 (cstring copied1.2) (cstring copied2.2)
          env.kthread
        if spawned.retVal ≠ 0 then (env.spawn.EUNSPECIFIED, spawned.kernel)
        else
          let k2 := Disable_Interrupts spawned.kernel
          ((k2.threads spawned.pThread).pid, k2)

end syscall

/-! ### Sample states -/

/-- A user context whose fields are all zero. -/
def zeroContext : User_Context :=
  { memory := fun _ => 0, size := 0, entryAddr := 0, argBlockAddr := 0,
    stackPointerAddr := 0, refCount := 0 }

/-- A user context with a block of 100 bytes, byte `a` of the block holding `a`. -/
def sampleContext : User_Context :=
  { memory := fun a => Fin.ofNat a, size := 100, entryAddr := 4096, argBlockAddr := 64,
    stackPointerAddr := 100, refCount := 1 }

/-- A kernel in which thread 1 is running and owns the sample context, stored at
address 64; every other thread has no user context. -/
def sampleKernel : Kernel :=
  { userContexts := fun p => if p = 64 then sampleContext else zeroContext
    threads := fun t => if t = 1 then Kernel_Thread.mk 64 0 else Kernel_Thread.mk 0 0
    g_currentThread := 1
    interruptsEnabled := true }

/-- A kernel whose running thread (thread 2) has no user context attached. -/
def kernelThreadState : Kernel :=
  { sampleKernel with g_currentThread := 2 }

/-- A kernel buffer holding `7` in every byte. -/
def sevens : Buffer := fun _ => 7

/-- A kernel buffer holding `0` in every byte. -/
def zeros : Buffer := fun _ => 0

/-- A kernel buffer in which byte `a` holds `a mod 256`; used as a sample image. -/
def countingBytes : Buffer := fun a => Fin.ofNat a

/-- Sample collaborators: every command has one argument and an argument block of 16
bytes whose first byte is the argument count and whose other bytes are 0; both
allocations succeed (the context is placed at address 200) and the allocated block
holds the byte 204 everywhere before it is cleared. -/
def sampleEnv : userseg.Collaborators :=
  { Get_Argument_Block_Size := fun _ => (1, 16)
    Format_Argument_Block := fun numArgs _ _ => fun i => if i = 0 then Fin.ofNat numArgs else 0
    Malloc_context := 200
    Malloc_memory := fun _ => 1048576
    heap := fun _ => 204
    Allocate_Segment_Descriptor := 300
    Get_Descriptor_Index := fun _ => 5
    Selector := fun rpl inGdt index => index * 8 + (if inGdt then 0 else 4) + rpl
    KERNEL_PRIVILEGE := 0
    USER_PRIVILEGE := 3 }

/-- A two-segment executable: code (8 file bytes at file offset 128, loaded at 4096) and
data (4 file bytes at file offset 136, loaded at 8192, 12 bytes in memory). -/
def twoSegments : elf.Exe_Format :=
  { segmentList := fun i =>
      if i = 0 then ⟨128, 8, 4096, 8, 5⟩
      else if i = 1 then ⟨136, 4, 8192, 12, 6⟩
      else ⟨0, 0, 0, 0, 0⟩
    numSegments := 2
    entryAddr := 4096 }

/-- A sample image that parses and loads: the header of `sampleImage` with two program
headers describing the segments of `twoSegments`. -/
def loadableImage : Buffer := fun a =>
  if a = 25 then 16 else if a = 28 then 52 else if a = 44 then 2
  else if a = 56 then 128 else if a = 61 then 16 else if a = 68 then 8
  else if a = 72 then 8 else if a = 76 then 5
  else if a = 88 then 136 else if a = 93 then 32 else if a = 100 then 4
  else if a = 104 then 12 else if a = 108 then 6 else 0

/-- Sample collaborators of `Spawn`: the file named by the one-character path `[1]` is
the loadable image, of 200 bytes, no other file exists; starting a thread creates
thread 7 with pid 5 and attaches the context to it. The error codes are those of
GeekOS. -/
def sampleSpawnEnv : user.SpawnCollaborators :=
  { loader := sampleEnv
    Read_Fully := fun path => if path = [1] then some (loadableImage, 200) else none
    Start_User_Thread := fun k context _ =>
      match user.Attach_User_Context
          { k with threads := Function.update k.threads 7 (Kernel_Thread.mk 0 5) }
          7 context with
      | Run.returned _ k2 => (7, k2)
      | Run.halted kh => (0, kh)
    ENOTFOUND := -2
    ENOEXEC := -17
    EUNSPECIFIED := -1
    EXE_MAX_SEGMENTS := 3
    exeFormat := elf.emptyFormat }

/-- Sample collaborators of `Spawn` for which the block allocation of the loader
fails. -/
def sampleSpawnEnvNoMemory : user.SpawnCollaborators :=
  { sampleSpawnEnv with loader := { sampleEnv with Malloc_memory := fun _ => 0 } }

/-- Sample collaborators of `Spawn` whose executable capacity is a single segment. -/
def sampleSpawnEnvSmall : user.SpawnCollaborators :=
  { sampleSpawnEnv with EXE_MAX_SEGMENTS := 1 }

/-- A sample physical memory with nothing mapped and sixteen free frames from 0x10000
on. -/
def roomyMemory : paging.Memory :=
  { pdes := fun _ => {}, ptes := fun _ => {}, bytes := fun _ => 0,
    freePages := (List.range 16).map (fun i => 0x10000 + i * PAGE_SIZE) }

/-- A sample state of the paged variant: the sample kernel, the roomy memory, the kernel
page directory at 0x1000. -/
def sampleState : uservm.State :=
  { kernel := sampleKernel, memory := roomyMemory, g_kernelPageDir := 0x1000 }

/-- A two-segment executable whose first segment announces 100000 file bytes for 0
bytes of memory; its data segment is the one of `twoSegments`. -/
def oversizedFile : elf.Exe_Format :=
  { segmentList := fun i =>
      if i = 0 then ⟨128, 100000, 0, 0, 5⟩
      else if i = 1 then ⟨136, 4, 8192, 12, 6⟩
      else ⟨0, 0, 0, 0, 0⟩
    numSegments := 2
    entryAddr := 4096 }

/-- The sample kernel as a system call finds it: interrupts disabled, thread 1 running
in the sample context. -/
def syscallKernel : Kernel :=
  { sampleKernel with interruptsEnabled := false }

/-- Sample collaborators of `Sys_Spawn`: those of `sampleSpawnEnv`, both allocations
succeed; the heap holds the byte 204 in the first 8 bytes from the start of an allocated
buffer and 0 from there on. -/
def sampleSyscallEnv : syscall.Collaborators :=
  { spawn := sampleSpawnEnv
    Malloc_exeName := fun _ => 4096
    Malloc_command := fun _ => 8192
    heap := fun a => if a < 8 then 204 else 0
    ENOMEM := -8
    kthread := 0 }

/-- Sample collaborators of `Sys_Spawn` for which the allocation of the name buffer
fails. -/
def sampleSyscallEnvNoMemory : syscall.Collaborators :=
  { sampleSyscallEnv with Malloc_exeName := fun _ => 0 }

/-- Registers of a `Sys_Spawn` call with a name of length 3 at user address 10 and a
command of length 2 at user address 20: the 4 bytes 10 to 13 and the 3 bytes 20 to 22 of
the sample block are copied; no file has a name that starts with the byte 10. -/
def spawnMissingFile : Interrupt_State :=
  { ebx := 10, ecx := 3, edx := 20, esi := 2 }

/-- Registers of a `Sys_Spawn` call whose name buffer (31 bytes at user address 90) runs
past the end of the 100-byte sample block. -/
def spawnOutOfBlock : Interrupt_State :=
  { ebx := 90, ecx := 30, edx := 20, esi := 2 }

/-! ## Part 2: theorems -/

namespace elf

theorem segmentLoop_spec (data : Buffer) (phnum : Nat) :
    ∀ (n i p : Nat) (f : Exe_Format), i + n = phnum →
      (segmentLoop data phnum n i p f).numSegments = f.numSegments ∧
      (segmentLoop data phnum n i p f).entryAddr = f.entryAddr ∧
      ∀ j, (segmentLoop data phnum n i p f).segmentList j =
        if i ≤ j ∧ j < phnum then
          (let h := programHeader_at data (p + sizeof_programHeader * (j - i))
           ({ offsetInFile := h.offset, lengthInFile := h.fileSize,
              startAddress := h.vaddr, sizeInMemory := h.memSize,
              protFlags := h.flags } : Exe_Segment))
        else f.segmentList j := by
  intro n
  induction n with
  | zero =>
    intro i p f h
    refine ⟨rfl, rfl, ?_⟩
    intro j
    have : ¬ (i ≤ j ∧ j < phnum) := by omega
    simp [segmentLoop, this]
  | succ n ih =>
    intro i p f h
    have hi : i < phnum := by omega
    have h1 : (i + 1) + n = phnum := by omega
    simp only [segmentLoop, hi, if_true]
    obtain ⟨a, b, c⟩ := ih (i + 1) (p + sizeof_programHeader) _ h1
    refine ⟨a, b, ?_⟩
    intro j
    rw [c j]
    by_cases hj : i + 1 ≤ j
    · have e1 : (i + 1 ≤ j ∧ j < phnum) ↔ (i ≤ j ∧ j < phnum) := by omega
      by_cases hp : j < phnum
      · have e2 : p + sizeof_programHeader + sizeof_programHeader * (j - (i + 1))
            = p + sizeof_programHeader * (j - i) := by
          have : j - i = (j - (i + 1)) + 1 := by omega
          rw [this, Nat.mul_add]; omega
        simp [hj, hp, e2, show i ≤ j by omega]
      · have hji : j ≠ i := by omega
        simp [hp, Function.update_noteq hji]
    · by_cases hij : j = i
      · subst hij
        simp [hi]
      · have hlt : ¬ (i ≤ j) := by omega
        have hne : ¬ (i + 1 ≤ j ∧ j < phnum) := by omega
        simp [hlt, hj, Function.update_noteq hij]

/-- C1: for every image of non-zero length whose header segment count `phnum` is at
most `EXE_MAX_SEGMENTS`, `Parse_ELF_Executable` returns 0, sets `numSegments` to
`phnum`, `entryAddr` to the header's `entry`, and sets `segmentList[i]`, for every
`i < phnum`, to the (offset, fileSize, vaddr, memSize, flags) of the `i`-th program
header, in header order. -/
theorem Parse_ELF_Executable_preserves_segments (EXE_MAX_SEGMENTS : Nat)
    (exeFileData : Buffer) (exeFileLength : Nat) (exeFormat : Exe_Format)
    (hlen : exeFileLength ≠ 0)
    (hnum : (elfHeader_at exeFileData).phnum ≤ EXE_MAX_SEGMENTS) :
    (Parse_ELF_Executable EXE_MAX_SEGMENTS exeFileData exeFileLength exeFormat).1 = 0 ∧
    (Parse_ELF_Executable EXE_MAX_SEGMENTS exeFileData exeFileLength exeFormat).2.numSegments
      = (elfHeader_at exeFileData).phnum ∧
    (Parse_ELF_Executable EXE_MAX_SEGMENTS exeFileData exeFileLength exeFormat).2.entryAddr
      = (elfHeader_at exeFileData).entry ∧
    ∀ i, i < (elfHeader_at exeFileData).phnum →
      (Parse_ELF_Executable EXE_MAX_SEGMENTS exeFileData exeFileLength exeFormat).2.segmentList i
        = segmentOfHeader exeFileData i := by
  have hn : ¬ ((elfHeader_at exeFileData).phnum > EXE_MAX_SEGMENTS) := by omega
  obtain ⟨a, _, c⟩ := segmentLoop_spec exeFileData (elfHeader_at exeFileData).phnum
    (elfHeader_at exeFileData).phnum 0 (elfHeader_at exeFileData).phoff
    { exeFormat with numSegments := (elfHeader_at exeFileData).phnum } (by omega)
  refine ⟨?_, ?_, ?_, ?_⟩
  · simp [Parse_ELF_Executable, hlen, hn]
  · simpa [Parse_ELF_Executable, hlen, hn] using a
  · simp [Parse_ELF_Executable, hlen, hn]
  · intro i hi
    have := c i
    simp only [Nat.zero_le, true_and, hi, if_true, Nat.sub_zero] at this
    simpa [Parse_ELF_Executable, hlen, hn, segmentOfHeader] using this

/-- Witness of C1 on a two-segment image: both hypotheses hold there and the parse
yields the two program headers, in order, and the entry address. -/
theorem Parse_ELF_Executable_preserves_segments_witness :
    (116 : Nat) ≠ 0 ∧ (elfHeader_at sampleImage).phnum ≤ 3 ∧
    (Parse_ELF_Executable 3 sampleImage 116 emptyFormat).1 = 0 ∧
    (Parse_ELF_Executable 3 sampleImage 116 emptyFormat).2.numSegments = 2 ∧
    (Parse_ELF_Executable 3 sampleImage 116 emptyFormat).2.entryAddr = 4096 ∧
    (Parse_ELF_Executable 3 sampleImage 116 emptyFormat).2.segmentList 0
      = ⟨1, 3, 2, 4, 5⟩ ∧
    (Parse_ELF_Executable 3 sampleImage 116 emptyFormat).2.segmentList 1
      = ⟨6, 8, 7, 9, 7⟩ := by
  have hnum : (elfHeader_at sampleImage).phnum ≤ 3 := by decide
  obtain ⟨r, n, e, s⟩ :=
    Parse_ELF_Executable_preserves_segments 3 sampleImage 116 emptyFormat (by decide) hnum
  refine ⟨by decide, hnum, r, ?_, ?_, ?_, ?_⟩
  · rw [n]; decide
  · rw [e]; decide
  · rw [s 0 (by decide)]; decide
  · rw [s 1 (by decide)]; decide

/-- C2: the return code of `Parse_ELF_Executable` is determined by the image length and
the header count alone: -2 for every image of length zero whatever its contents,
otherwise -1 when `phnum` exceeds `EXE_MAX_SEGMENTS`, otherwise 0; and whenever the
code is -2 or -1 the output `Exe_Format` is the one passed in, unmodified. -/
theorem Parse_ELF_Executable_return_code (EXE_MAX_SEGMENTS : Nat)
    (exeFileData : Buffer) (exeFileLength : Nat) (exeFormat : Exe_Format) :
    (Parse_ELF_Executable EXE_MAX_SEGMENTS exeFileData exeFileLength exeFormat).1
      = (if exeFileLength = 0 then -2
         else if (elfHeader_at exeFileData).phnum > EXE_MAX_SEGMENTS then -1 else 0) ∧
    ((Parse_ELF_Executable EXE_MAX_SEGMENTS exeFileData exeFileLength exeFormat).1 ≠ 0 →
      (Parse_ELF_Executable EXE_MAX_SEGMENTS exeFileData exeFileLength exeFormat).2
        = exeFormat) := by
  unfold Parse_ELF_Executable
  by_cases h0 : exeFileLength = 0
  · simp [h0]
  · by_cases h1 : (elfHeader_at exeFileData).phnum > EXE_MAX_SEGMENTS
    · simp [h0, h1]
    · simp [h0, h1]

/-- Witness of C2: a zero-length image gives -2, an image announcing 200 headers with
capacity 3 gives -1, the two-segment sample gives 0, and in the two error cases the
output format is the one passed in. -/
theorem Parse_ELF_Executable_return_code_witness :
    (Parse_ELF_Executable 3 sampleImage 0 emptyFormat).1 = -2 ∧
    (Parse_ELF_Executable 3 crowdedImage 64 emptyFormat).1 = -1 ∧
    (Parse_ELF_Executable 3 sampleImage 116 emptyFormat).1 = 0 ∧
    (Parse_ELF_Executable 3 sampleImage 0 emptyFormat).2 = emptyFormat ∧
    (Parse_ELF_Executable 3 crowdedImage 64 emptyFormat).2 = emptyFormat := by
  have a := Parse_ELF_Executable_return_code 3 sampleImage 0 emptyFormat
  have b := Parse_ELF_Executable_return_code 3 crowdedImage 64 emptyFormat
  have c := Parse_ELF_Executable_return_code 3 sampleImage 116 emptyFormat
  have hb : (elfHeader_at crowdedImage).phnum > 3 := by decide
  have hc : ¬ ((elfHeader_at sampleImage).phnum > 3) := by decide
  have a1 : (Parse_ELF_Executable 3 sampleImage 0 emptyFormat).1 = -2 := by
    rw [a.1]; simp
  have b1 : (Parse_ELF_Executable 3 crowdedImage 64 emptyFormat).1 = -1 := by
    rw [b.1]; simp [hb]
  refine ⟨a1, b1, ?_, a.2 (by rw [a1]; decide), b.2 (by rw [b1]; decide)⟩
  rw [c.1]; simp [hc]

end elf

/-! ### The bounds check -/

namespace userseg

theorem Validate_User_Memory_eq_true_iff (c : User_Context) (userAddr bufSize : Nat)
    (hsize : c.size < WORD) :
    Validate_User_Memory c userAddr bufSize = true ↔
      userAddr < c.size ∧ bufSize ≤ c.size - userAddr := by
  unfold Validate_User_Memory
  by_cases h : userAddr ≥ c.size
  · have : ¬ (userAddr < c.size) := by omega
    simp [h, this]
  · have hav : (c.size + WORD - userAddr) % WORD = c.size - userAddr := by
      simp only [WORD] at hsize ⊢
      omega
    have hlt : userAddr < c.size := by omega
    simp only [h, if_false, hav, hlt, true_and]
    by_cases hb : bufSize > c.size - userAddr
    · have : ¬ (bufSize ≤ c.size - userAddr) := by omega
      simp [hb, this]
    · have : bufSize ≤ c.size - userAddr := by omega
      simp [hb, this]

/-- C3: flat variant, for every user context (its `size` a 32-bit word) and every
`userAddr`, `bufSize`: `Validate_User_Memory` returns true if and only if
`userAddr < size` and `bufSize <= size - userAddr`; in particular it returns false for
every `userAddr >= size`, whatever `bufSize` is. -/
theorem Validate_User_Memory_flat_iff (userContext : User_Context)
    (userAddr bufSize : Nat) (hsize : userContext.size < WORD) :
    (Validate_User_Memory userContext userAddr bufSize = true ↔
      userAddr < userContext.size ∧ bufSize ≤ userContext.size - userAddr) ∧
    (userContext.size ≤ userAddr →
      Validate_User_Memory userContext userAddr bufSize = false) := by
  refine ⟨Validate_User_Memory_eq_true_iff userContext userAddr bufSize hsize, ?_⟩
  intro h
  have hge : userAddr ≥ userContext.size := h
  simp [Validate_User_Memory, hge]

/-- Witness of C3 on the 100-byte sample context: the request (40, 60) is accepted and
satisfies both inequalities, the request (100, 0) starts at `size` and is rejected. -/
theorem Validate_User_Memory_flat_iff_witness :
    sampleContext.size < WORD ∧
    (Validate_User_Memory sampleContext 40 60 = true ↔
      40 < sampleContext.size ∧ 60 ≤ sampleContext.size - 40) ∧
    Validate_User_Memory sampleContext 40 60 = true ∧
    Validate_User_Memory sampleContext 100 0 = false :=
  ⟨by decide,
   (Validate_User_Memory_flat_iff sampleContext 40 60 (by decide)).1,
   (Validate_User_Memory_flat_iff sampleContext 40 60 (by decide)).1.2 (by decide),
   (Validate_User_Memory_flat_iff sampleContext 100 0 (by decide)).2 (by decide)⟩

/-- C4: flat variant, all quantities 32-bit unsigned words: whenever the exact sum
`userAddr + bufSize` is greater than `size`, `Validate_User_Memory` returns false; this
covers every request whose wrapped sum `(userAddr + bufSize) mod 2^32` is `<= size`. -/
theorem Validate_User_Memory_rejects_past_end (userContext : User_Context)
    (userAddr bufSize : Nat) (hsize : userContext.size < WORD)
    (_haddr : userAddr < WORD) (_hbuf : bufSize < WORD)
    (hsum : userContext.size < userAddr + bufSize) :
    Validate_User_Memory userContext userAddr bufSize = false := by
  cases hv : Validate_User_Memory userContext userAddr bufSize with
  | false => rfl
  | true =>
    have := (Validate_User_Memory_eq_true_iff userContext userAddr bufSize hsize).1 hv
    omega

/-- Witness of C4 at a request whose 32-bit sum wraps: with `size = 100`,
`userAddr = 50` and `bufSize = 2^32 - 10` the wrapped sum is 40, below `size`, and the
request is rejected. -/
theorem Validate_User_Memory_rejects_past_end_witness :
    (50 + 4294967286) % WORD = 40 ∧ 40 ≤ sampleContext.size ∧
    sampleContext.size < 50 + 4294967286 ∧
    Validate_User_Memory sampleContext 50 4294967286 = false :=
  ⟨by decide, by decide, by decide,
   Validate_User_Memory_rejects_past_end sampleContext 50 4294967286
     (by decide) (by decide) (by decide) (by decide)⟩

/-- C5, as stated, fails: on the 100-byte sample context the request `userAddr = 100`,
`bufSize = 0` has `userAddr + bufSize = size` exactly, and `Validate_User_Memory`
rejects it. -/
theorem Validate_User_Memory_end_of_block_rejected :
    sampleContext.size < WORD ∧ 100 + 0 = sampleContext.size ∧
    Validate_User_Memory sampleContext 100 0 = false := by
  decide

/-- C5, amended: flat variant, for every `size` (a 32-bit word), `userAddr` and
`bufSize` with `userAddr + bufSize = size` in exact arithmetic and `bufSize > 0`,
`Validate_User_Memory` returns true. -/
theorem Validate_User_Memory_accepts_exact_fit (userContext : User_Context)
    (userAddr bufSize : Nat) (hsize : userContext.size < WORD)
    (hsum : userAddr + bufSize = userContext.size) (hpos : 0 < bufSize) :
    Validate_User_Memory userContext userAddr bufSize = true := by
  rw [Validate_User_Memory_eq_true_iff userContext userAddr bufSize hsize]
  omega

/-- Witness of the amended C5: the request (40, 60) ends exactly at the end of the
100-byte sample block and is accepted. -/
theorem Validate_User_Memory_accepts_exact_fit_witness :
    sampleContext.size < WORD ∧ 40 + 60 = sampleContext.size ∧ 0 < 60 ∧
    Validate_User_Memory sampleContext 40 60 = true :=
  ⟨by decide, by decide, by decide,
   Validate_User_Memory_accepts_exact_fit sampleContext 40 60
     (by decide) (by decide) (by decide)⟩

end userseg

namespace uservm

/-- C6: paged variant: for every context, `userAddr` and `bufSize`,
`Validate_User_Memory` returns exactly what the flat `Validate_User_Memory` returns on
a context whose `size` is `USER_VM_SIZE`, and its result is the same for any two
contexts passed to it (so it does not depend on the context's own `size`). -/
theorem Validate_User_Memory_paged_is_flat_on_window (USER_VM_SIZE : Nat)
    (userContext other : User_Context) (userAddr bufSize : Nat) :
    Validate_User_Memory USER_VM_SIZE userContext userAddr bufSize
      = userseg.Validate_User_Memory { other with size := USER_VM_SIZE } userAddr bufSize ∧
    Validate_User_Memory USER_VM_SIZE userContext userAddr bufSize
      = Validate_User_Memory USER_VM_SIZE other userAddr bufSize :=
  ⟨rfl, rfl⟩

end uservm

/-! ### User/kernel copies, flat variant -/

namespace userseg

theorem memcpy_inside (dest src : Buffer) (destOff srcOff n i : Nat) (hi : i < n) :
    memcpy dest destOff src srcOff n (destOff + i) = src (srcOff + i) := by
  have h : destOff ≤ destOff + i ∧ destOff + i < destOff + n := by omega
  simp [memcpy, h]

theorem memcpy_outside (dest src : Buffer) (destOff srcOff n a : Nat)
    (ha : ¬ (destOff ≤ a ∧ a < destOff + n)) :
    memcpy dest destOff src srcOff n a = dest a := by
  simp [memcpy, ha]

theorem currentContext_after_store (k : Kernel) (c : User_Context) :
    Kernel.currentContext
      { k with
        userContexts :=
          Function.update k.userContexts (k.threads k.g_currentThread).userContext c }
      = c := by
  simp [Kernel.currentContext]

/-- C7: flat variant, copies are all-or-nothing: in every state where the current
thread has a user context (its `size` a 32-bit word), for every (address, length) that
fails the bounds check `userAddr < size && bufSize <= size - userAddr`,
`Copy_From_User` returns false with the kernel destination buffer unchanged and
`Copy_To_User` returns false with the whole kernel state, hence every byte of the user
block, unchanged. -/
theorem Copy_fails_without_copying (k : Kernel) (destInKernel srcInKernel : Buffer)
    (userAddr bufSize : Nat)
    (_hctx : (k.threads k.g_currentThread).userContext ≠ 0)
    (hsize : k.currentContext.size < WORD)
    (hbad : ¬ (userAddr < k.currentContext.size ∧
      bufSize ≤ k.currentContext.size - userAddr)) :
    Copy_From_User k destInKernel userAddr bufSize = (false, destInKernel) ∧
    Copy_To_User k userAddr srcInKernel bufSize = (false, k) ∧
    ∀ a, (Copy_To_User k userAddr srcInKernel bufSize).2.currentContext.memory a
      = k.currentContext.memory a := by
  have hv : Validate_User_Memory k.currentContext userAddr bufSize = false := by
    cases h : Validate_User_Memory k.currentContext userAddr bufSize with
    | false => rfl
    | true =>
      exact absurd
        ((Validate_User_Memory_eq_true_iff k.currentContext userAddr bufSize hsize).1 h) hbad
  have h2 : Copy_To_User k userAddr srcInKernel bufSize = (false, k) := by
    simp [Copy_To_User, hv]
  refine ⟨by simp [Copy_From_User, hv], h2, ?_⟩
  intro a
  rw [h2]

/-- Witness of C7 on the sample kernel (block of 100 bytes): the request (90, 20) runs
past the end of the block; the read leaves the destination as it was and the write
leaves the kernel as it was. -/
theorem Copy_fails_without_copying_witness :
    (sampleKernel.threads sampleKernel.g_currentThread).userContext ≠ 0 ∧
    sampleKernel.currentContext.size < WORD ∧
    ¬ (90 < sampleKernel.currentContext.size ∧
      20 ≤ sampleKernel.currentContext.size - 90) ∧
    Copy_From_User sampleKernel zeros 90 20 = (false, zeros) ∧
    Copy_To_User sampleKernel 90 sevens 20 = (false, sampleKernel) :=
  have h := Copy_fails_without_copying sampleKernel zeros sevens 90 20
    (by decide) (by decide) (by decide)
  ⟨by decide, by decide, by decide, h.1, h.2.1⟩

/-- C8: flat variant, successful copies are full and block-relative: in every state
where the current thread has a user context (its `size` a 32-bit word), for every
(addr, len) that passes the bounds check,
* `Copy_From_User` returns true, byte `i < len` of the destination is block byte
  `addr + i`, and the destination bytes from `len` on keep their value;
* `Copy_To_User` returns true, block byte `addr + i` is source byte `i` for `i < len`,
  every block byte outside `[addr, addr+len)` is unchanged, and the context's `size`,
  `entryAddr`, `argBlockAddr` and `stackPointerAddr` are unchanged;
* `Copy_From_User` after `Copy_To_User` on the same (addr, len) returns true and
  delivers the written bytes. -/
theorem Copy_succeeds_in_full (k : Kernel) (destInKernel srcInKernel : Buffer)
    (userAddr bufSize : Nat)
    (_hctx : (k.threads k.g_currentThread).userContext ≠ 0)
    (hsize : k.currentContext.size < WORD)
    (hok : userAddr < k.currentContext.size ∧
      bufSize ≤ k.currentContext.size - userAddr) :
    ((Copy_From_User k destInKernel userAddr bufSize).1 = true ∧
      (∀ i, i < bufSize → (Copy_From_User k destInKernel userAddr bufSize).2 i
        = k.currentContext.memory (userAddr + i)) ∧
      (∀ i, bufSize ≤ i → (Copy_From_User k destInKernel userAddr bufSize).2 i
        = destInKernel i)) ∧
    ((Copy_To_User k userAddr srcInKernel bufSize).1 = true ∧
      (∀ i, i < bufSize →
        (Copy_To_User k userAddr srcInKernel bufSize).2.currentContext.memory (userAddr + i)
          = srcInKernel i) ∧
      (∀ a, ¬ (userAddr ≤ a ∧ a < userAddr + bufSize) →
        (Copy_To_User k userAddr srcInKernel bufSize).2.currentContext.memory a
          = k.currentContext.memory a) ∧
      (Copy_To_User k userAddr srcInKernel bufSize).2.currentContext.size
        = k.currentContext.size ∧
      (Copy_To_User k userAddr srcInKernel bufSize).2.currentContext.entryAddr
        = k.currentContext.entryAddr ∧
      (Copy_To_User k userAddr srcInKernel bufSize).2.currentContext.argBlockAddr
        = k.currentContext.argBlockAddr ∧
      (Copy_To_User k userAddr srcInKernel bufSize).2.currentContext.stackPointerAddr
        = k.currentContext.stackPointerAddr) ∧
    ((Copy_From_User (Copy_To_User k userAddr srcInKernel bufSize).2
        destInKernel userAddr bufSize).1 = true ∧
      ∀ i, i < bufSize →
        (Copy_From_User (Copy_To_User k userAddr srcInKernel bufSize).2
          destInKernel userAddr bufSize).2 i = srcInKernel i) := by
  have hv : Validate_User_Memory k.currentContext userAddr bufSize = true :=
    (Validate_User_Memory_eq_true_iff k.currentContext userAddr bufSize hsize).2 hok
  have hto : (Copy_To_User k userAddr srcInKernel bufSize).2.currentContext
      = { k.currentContext with
          memory := memcpy k.currentContext.memory userAddr srcInKernel 0 bufSize } := by
    simp only [Copy_To_User, hv, if_true]
    exact currentContext_after_store k _
  have hv2 : Validate_User_Memory
      (Copy_To_User k userAddr srcInKernel bufSize).2.currentContext userAddr bufSize
        = true := by
    rw [hto]
    exact hv
  refine ⟨⟨?_, ?_, ?_⟩, ⟨?_, ?_, ?_, ?_, ?_, ?_, ?_⟩, ⟨?_, ?_⟩⟩
  · simp [Copy_From_User, hv]
  · intro i hi
    simp only [Copy_From_User, hv, if_true]
    have := memcpy_inside destInKernel k.currentContext.memory 0 userAddr bufSize i hi
    simpa using this
  · intro i hi
    simp only [Copy_From_User, hv, if_true]
    exact memcpy_outside _ _ _ _ _ _ (by omega)
  · simp [Copy_To_User, hv]
  · intro i hi
    rw [hto]
    have := memcpy_inside k.currentContext.memory srcInKernel userAddr 0 bufSize i hi
    simpa using this
  · intro a ha
    rw [hto]
    exact memcpy_outside _ _ _ _ _ _ ha
  · rw [hto]
  · rw [hto]
  · rw [hto]
  · rw [hto]
  · simp [Copy_From_User, hv2]
  · intro i hi
    simp only [Copy_From_User, hv2, if_true]
    have h1 := memcpy_inside destInKernel
      (Copy_To_User k userAddr srcInKernel bufSize).2.currentContext.memory
      0 userAddr bufSize i hi
    simp only [Nat.zero_add] at h1
    rw [h1, hto]
    have h2 := memcpy_inside k.currentContext.memory srcInKernel userAddr 0 bufSize i hi
    simpa using h2

/-- Witness of C8 on the sample kernel (block of 100 bytes, byte `a` holding `a`): the
request (40, 60) fits exactly; reading it delivers block byte 45 at index 5, writing
sevens puts 7 at block byte 45 and leaves block byte 39 alone, and reading back
delivers the 7. -/
theorem Copy_succeeds_in_full_witness :
    (sampleKernel.threads sampleKernel.g_currentThread).userContext ≠ 0 ∧
    sampleKernel.currentContext.size < WORD ∧
    (40 < sampleKernel.currentContext.size ∧
      60 ≤ sampleKernel.currentContext.size - 40) ∧
    (Copy_From_User sampleKernel zeros 40 60).1 = true ∧
    (Copy_From_User sampleKernel zeros 40 60).2 5 = 45 ∧
    (Copy_To_User sampleKernel 40 sevens 60).1 = true ∧
    (Copy_To_User sampleKernel 40 sevens 60).2.currentContext.memory 45 = 7 ∧
    (Copy_To_User sampleKernel 40 sevens 60).2.currentContext.memory 39 = 39 ∧
    (Copy_From_User (Copy_To_User sampleKernel 40 sevens 60).2 zeros 40 60).2 5 = 7 := by
  have h := Copy_succeeds_in_full sampleKernel zeros sevens 40 60
    (by decide) (by decide) (by decide)
  refine ⟨by decide, by decide, by decide, h.1.1, ?_, h.2.1.1, ?_, ?_, ?_⟩
  · rw [h.1.2.1 5 (by decide)]; decide
  · exact h.2.1.2.1 5 (by decide)
  · rw [h.2.1.2.2.1 39 (by decide)]; decide
  · exact h.2.2.2 5 (by decide)

end userseg

/-! ### User/kernel copies, paged variant -/

namespace uservm

/-- C9, evaluated on the code: the running thread of `kernelThreadState` has no user
context (`userContext == NULL`). For every window size and every linear memory, with
non-null kernel pointer 8, user address 1 and length 4: `Copy_From_User` returns false
and leaves memory untouched, while `Copy_To_User` leaves memory untouched but returns
true. -/
theorem Copy_To_User_without_context_returns_true (USER_VM_SIZE : Nat) (linear : Buffer) :
    (kernelThreadState.threads kernelThreadState.g_currentThread).userContext = 0 ∧
    Copy_From_User USER_VM_SIZE kernelThreadState linear 8 1 4
      = Run.returned false linear ∧
    Copy_To_User USER_VM_SIZE kernelThreadState linear 1 8 4
      = Run.returned true linear := by
  have h : (kernelThreadState.threads kernelThreadState.g_currentThread).userContext = 0 := by
    decide
  refine ⟨h, ?_, ?_⟩
  · simp [Copy_From_User, h]
  · simp [Copy_To_User, h]

end uservm

/-! ### Ownership of a user context -/

namespace user

/-- C10: `Attach_User_Context(thread, context)` returns if and only if `context` is
non-null and `context.refCount` was 0; when it returns, the thread's `userContext` is
`context` and `context.refCount` is 1; for a null `context`, and for every context whose
`refCount` is not 0, the call stops at a failed assertion, no state is returned, and in
the state at the assertion `refCount` has its old value (it is not incremented). -/
theorem Attach_User_Context_spec (k : Kernel) (kthread context : Nat) :
    ((Attach_User_Context k kthread context).succeeded = true ↔
      context ≠ 0 ∧ (k.userContexts context).refCount = 0) ∧
    (∀ k2, Attach_User_Context k kthread context = Run.returned () k2 →
      (k2.threads kthread).userContext = context ∧
      (k2.userContexts context).refCount = 1) ∧
    (context = 0 → Attach_User_Context k kthread context = Run.halted k) ∧
    (context ≠ 0 → (k.userContexts context).refCount ≠ 0 →
      ∃ kh, Attach_User_Context k kthread context = Run.halted kh ∧
        (kh.userContexts context).refCount = (k.userContexts context).refCount ∧
        ∀ k2, Attach_User_Context k kthread context ≠ Run.returned () k2) := by
  by_cases hc : context = 0
  · simp [Attach_User_Context, hc, Run.succeeded]
  · by_cases hr : (k.userContexts context).refCount = 0
    · refine ⟨?_, ?_, ?_, ?_⟩
      · simp [Attach_User_Context, hc, hr, Run.succeeded, Disable_Interrupts]
      · intro k2 h
        simp only [Attach_User_Context, hc, if_false, Disable_Interrupts, hr, if_true,
          Enable_Interrupts, Run.returned.injEq, true_and] at h
        subst h
        simp [hr]
      · intro h; exact absurd h hc
      · intro _ h; exact absurd hr h
    · refine ⟨?_, ?_, ?_, ?_⟩
      · simp [Attach_User_Context, hc, hr, Run.succeeded, Disable_Interrupts]
      · intro k2 h
        simp [Attach_User_Context, hc, hr, Disable_Interrupts] at h
      · intro h; exact absurd h hc
      · intro _ _
        refine ⟨Disable_Interrupts
          { k with
            threads := Function.update k.threads kthread
              { k.threads kthread with userContext := context } }, ?_, ?_, ?_⟩
        · simp [Attach_User_Context, hc, Disable_Interrupts, hr]
        · rfl
        · intro k2 h
          simp [Attach_User_Context, hc, hr, Disable_Interrupts] at h

/-- Witness of C10 on the sample kernel: the context at address 80 has `refCount` 0, so
attaching thread 3 to it returns, with thread 3 bound to it and `refCount` 1; the
context at address 64 is owned (`refCount` 1), so attaching thread 3 to it does not
return; attaching to the null context does not return either. -/
theorem Attach_User_Context_spec_witness :
    (Attach_User_Context sampleKernel 3 80).succeeded = true ∧
    (Attach_User_Context sampleKernel 3 64).succeeded = false ∧
    Attach_User_Context sampleKernel 3 0 = Run.halted sampleKernel ∧
    (∃ kh, Attach_User_Context sampleKernel 3 64 = Run.halted kh ∧
      (kh.userContexts 64).refCount = 1) ∧
    (∀ k2, Attach_User_Context sampleKernel 3 80 = Run.returned () k2 →
      (k2.threads 3).userContext = 80 ∧ (k2.userContexts 80).refCount = 1) := by
  have a := Attach_User_Context_spec sampleKernel 3 80
  have b := Attach_User_Context_spec sampleKernel 3 64
  have c := Attach_User_Context_spec sampleKernel 3 0
  refine ⟨a.1.2 ⟨by decide, by decide⟩, ?_, c.2.2.1 rfl, ?_, a.2.1⟩
  · cases h : (Attach_User_Context sampleKernel 3 64).succeeded with
    | false => rfl
    | true =>
      have := (b.1.1 h).2
      exact absurd this (by decide)
  · obtain ⟨kh, h1, h2, _⟩ := b.2.2.2 (by decide) (by decide)
    exact ⟨kh, h1, by rw [h2]; decide⟩

end user

namespace user

theorem thread_clear_of_unbound (th : Kernel_Thread) (h : th.userContext = 0) :
    { th with userContext := 0 } = th := by
  cases th
  simp_all

/-- C11: `Detach_User_Context(thread)`: for a thread with no user context the kernel
state is unchanged (so nothing is destroyed); for a thread bound to a context with
`refCount` `r`, afterwards the thread's `userContext` is null, the context's `refCount`
is `r - 1`, and `Destroy_User_Context` has been called on that context exactly once if
`r - 1 = 0` and not at all otherwise. -/
theorem Detach_User_Context_spec (k : Kernel) (kthread : Nat) :
    ((k.threads kthread).userContext = 0 → Detach_User_Context k kthread = k) ∧
    ((k.threads kthread).userContext ≠ 0 →
      ((Detach_User_Context k kthread).threads kthread).userContext = 0 ∧
      ((Detach_User_Context k kthread).userContexts (k.threads kthread).userContext).refCount
        = (k.userContexts (k.threads kthread).userContext).refCount - 1 ∧
      (Detach_User_Context k kthread).destroyed
        = k.destroyed ++
          (if (k.userContexts (k.threads kthread).userContext).refCount - 1 = 0
            then [(k.threads kthread).userContext] else [])) := by
  constructor
  · intro h
    have e : Function.update k.threads kthread { k.threads kthread with userContext := 0 }
        = k.threads := by
      rw [thread_clear_of_unbound _ h]
      exact Function.update_eq_self kthread k.threads
    simp [Detach_User_Context, h, e]
  · intro h
    by_cases hr : (k.userContexts (k.threads kthread).userContext).refCount - 1 = 0
    · simp [Detach_User_Context, h, hr, Disable_Interrupts, Enable_Interrupts,
        userseg.Destroy_User_Context]
    · simp [Detach_User_Context, h, hr, Disable_Interrupts, Enable_Interrupts]

/-- Witness of C11 on the sample kernel: thread 3 has no user context and detaching it
changes nothing; thread 1 owns the context at address 64 with `refCount` 1, and
detaching it clears the pointer, brings the count to 0 and destroys the context
once. -/
theorem Detach_User_Context_spec_witness :
    Detach_User_Context sampleKernel 3 = sampleKernel ∧
    ((Detach_User_Context sampleKernel 1).threads 1).userContext = 0 ∧
    ((Detach_User_Context sampleKernel 1).userContexts 64).refCount = 0 ∧
    (Detach_User_Context sampleKernel 1).destroyed = [64] := by
  have a := (Detach_User_Context_spec sampleKernel 3).1 (by decide)
  have b := (Detach_User_Context_spec sampleKernel 1).2 (by decide)
  refine ⟨a, b.1, ?_, ?_⟩
  · have h := b.2.1
    have e : (sampleKernel.threads 1).userContext = 64 := by decide
    rw [e] at h
    rw [h]
    decide
  · have h := b.2.2
    rw [h]
    decide

end user

namespace user

end user

namespace user

end user

namespace user

end user

/-! ### The flat builder -/

namespace userseg

theorem pageAlign_ge (x : Nat) : x ≤ pageAlign x := by
  unfold pageAlign
  simp only [PAGE_SIZE]
  omega

theorem Round_Up_To_Page_eq_pageAlign (x : Nat) (h : pageAlign x < WORD) :
    Round_Up_To_Page x = pageAlign x := by
  unfold Round_Up_To_Page
  unfold pageAlign at h ⊢
  simp only [PAGE_SIZE, WORD] at h ⊢
  by_cases hx : x % 4096 = 0
  · simp only [hx, ne_eq, not_true_eq_false, if_false]
    omega
  · simp only [hx, ne_eq, not_false_eq_true, if_true]
    omega

theorem segmentEndsMax_ge (f : elf.Exe_Format) :
    ∀ n i, i < n →
      (f.segmentList i).startAddress + (f.segmentList i).sizeInMemory
        ≤ segmentEndsMax f n := by
  intro n
  induction n with
  | zero => intro i hi; omega
  | succ n ih =>
    intro i hi
    simp only [segmentEndsMax]
    by_cases h : i = n
    · subst h; exact Nat.le_max_right _ _
    · exact Nat.le_trans (ih i (by omega)) (Nat.le_max_left _ _)

theorem segmentEndsMax_mono (f : elf.Exe_Format) (n : Nat) :
    segmentEndsMax f n ≤ segmentEndsMax f (n + 1) := by
  simp only [segmentEndsMax]
  exact Nat.le_max_left _ _

theorem maxvaLoop_eq (f : elf.Exe_Format)
    (hno : segmentEndsMax f f.numSegments < WORD) :
    ∀ n i, i + n = f.numSegments →
      maxvaLoop f n i (segmentEndsMax f i) = segmentEndsMax f f.numSegments := by
  intro n
  induction n with
  | zero =>
    intro i h
    have : i = f.numSegments := by omega
    subst this
    rfl
  | succ n ih =>
    intro i h
    have hi : i < f.numSegments := by omega
    have hend := segmentEndsMax_ge f f.numSegments i hi
    have hmod : ((f.segmentList i).startAddress + (f.segmentList i).sizeInMemory) % WORD
        = (f.segmentList i).startAddress + (f.segmentList i).sizeInMemory :=
      Nat.mod_eq_of_lt (by omega)
    have hstep : (if (f.segmentList i).startAddress + (f.segmentList i).sizeInMemory
          > segmentEndsMax f i
        then (f.segmentList i).startAddress + (f.segmentList i).sizeInMemory
        else segmentEndsMax f i) = segmentEndsMax f (i + 1) := by
      simp only [segmentEndsMax]
      by_cases hgt : (f.segmentList i).startAddress + (f.segmentList i).sizeInMemory
          > segmentEndsMax f i
      · simp only [hgt, if_true]; omega
      · simp only [hgt, if_false]; omega
    simp only [maxvaLoop, hi, if_true, hmod, hstep]
    exact ih (i + 1) (by omega)

theorem computedSize_eq_exactSize (env : Collaborators) (f : elf.Exe_Format)
    (command : Command) (hno : exactSize env f command < WORD) :
    computedSize env f command = exactSize env f command := by
  have h1 := pageAlign_ge (segmentEndsMax f f.numSegments)
  have h2 := pageAlign_ge (DEFAULT_USER_STACK_SIZE + (env.Get_Argument_Block_Size command).2)
  unfold exactSize at hno
  have hmax : maxvaLoop f f.numSegments 0 0 = segmentEndsMax f f.numSegments :=
    maxvaLoop_eq f (by omega) f.numSegments 0 (by omega)
  have hst : (DEFAULT_USER_STACK_SIZE + (env.Get_Argument_Block_Size command).2) % WORD
      = DEFAULT_USER_STACK_SIZE + (env.Get_Argument_Block_Size command).2 :=
    Nat.mod_eq_of_lt (by omega)
  unfold computedSize exactSize
  rw [hmax, hst, Round_Up_To_Page_eq_pageAlign _ (by omega),
    Round_Up_To_Page_eq_pageAlign _ (by omega)]
  exact Nat.mod_eq_of_lt hno

theorem Load_User_Program_result (env : Collaborators) (k : Kernel) (data : Buffer)
    (len : Nat) (f : elf.Exe_Format) (command : Command)
    (h : (Load_User_Program env k data len f command).1 = 0) :
    env.Malloc_context ≠ 0 ∧
    (Load_User_Program env k data len f command).2.1 = env.Malloc_context ∧
    (Load_User_Program env k data len f command).2.2.threads = k.threads ∧
    ((Load_User_Program env k data len f command).2.2.userContexts
        env.Malloc_context).size = computedSize env f command ∧
    ((Load_User_Program env k data len f command).2.2.userContexts
        env.Malloc_context).memory
      = memcpy
          (loadLoop data f f.numSegments 0 (memset env.heap 0 0 (computedSize env f command)))
          (computedArgAddr f)
          (env.Format_Argument_Block (env.Get_Argument_Block_Size command).1
            (computedArgAddr f) command)
          0 (env.Get_Argument_Block_Size command).2 ∧
    ((Load_User_Program env k data len f command).2.2.userContexts
        env.Malloc_context).entryAddr = f.entryAddr ∧
    ((Load_User_Program env k data len f command).2.2.userContexts
        env.Malloc_context).argBlockAddr = computedArgAddr f ∧
    ((Load_User_Program env k data len f command).2.2.userContexts
        env.Malloc_context).stackPointerAddr = computedSize env f command ∧
    ((Load_User_Program env k data len f command).2.2.userContexts
        env.Malloc_context).refCount = 0 := by
  by_cases hc : env.Malloc_context = 0
  · simp [Load_User_Program, Create_User_Context, hc] at h
  · by_cases hm : env.Malloc_memory (computedSize env f command) = 0
    · have hm2 := hm
      unfold computedSize at hm2
      simp [Load_User_Program, Create_User_Context, hc, hm2] at h
    · have hm2 := hm
      unfold computedSize at hm2
      refine ⟨hc, ?_, ?_, ?_, ?_, ?_, ?_, ?_, ?_⟩ <;>
        simp [Load_User_Program, Create_User_Context, hc, hm2, computedSize,
          computedArgAddr]

end userseg

namespace userseg

end userseg

namespace userseg

/-- C16: flat builder recorded fields: after every successful `Load_User_Program` the
context's `entryAddr` is `exeFormat.entryAddr`, its `stackPointerAddr` is its `size`,
and its `argBlockAddr` is `segmentList[1].startAddress + segmentList[1].lengthInFile`
(the `ulong_t` sum, which is the exact sum whenever that fits 32 bits), a block-relative
offset; the serializer is given this same address, and the `argBlockSize` bytes it
produces are the bytes of the block from that offset on. -/
theorem Load_User_Program_fields (env : Collaborators) (k : Kernel) (exeFileData : Buffer)
    (exeFileLength : Nat) (exeFormat : elf.Exe_Format) (command : Command)
    (hok : (Load_User_Program env k exeFileData exeFileLength exeFormat command).1 = 0) :
    ((Load_User_Program env k exeFileData exeFileLength exeFormat command).2.2.userContexts
        (Load_User_Program env k exeFileData exeFileLength exeFormat command).2.1).entryAddr
      = exeFormat.entryAddr ∧
    ((Load_User_Program env k exeFileData exeFileLength exeFormat command).2.2.userContexts
        (Load_User_Program env k exeFileData exeFileLength exeFormat
          command).2.1).stackPointerAddr
      = ((Load_User_Program env k exeFileData exeFileLength exeFormat
          command).2.2.userContexts
        (Load_User_Program env k exeFileData exeFileLength exeFormat command).2.1).size ∧
    ((Load_User_Program env k exeFileData exeFileLength exeFormat command).2.2.userContexts
        (Load_User_Program env k exeFileData exeFileLength exeFormat
          command).2.1).argBlockAddr
      = ((exeFormat.segmentList 1).startAddress + (exeFormat.segmentList 1).lengthInFile)
          % WORD ∧
    ((exeFormat.segmentList 1).startAddress + (exeFormat.segmentList 1).lengthInFile < WORD →
      ((Load_User_Program env k exeFileData exeFileLength exeFormat
          command).2.2.userContexts
        (Load_User_Program env k exeFileData exeFileLength exeFormat
          command).2.1).argBlockAddr
        = (exeFormat.segmentList 1).startAddress + (exeFormat.segmentList 1).lengthInFile) ∧
    ∀ i, i < (env.Get_Argument_Block_Size command).2 →
      ((Load_User_Program env k exeFileData exeFileLength exeFormat
          command).2.2.userContexts
        (Load_User_Program env k exeFileData exeFileLength exeFormat command).2.1).memory
        (((Load_User_Program env k exeFileData exeFileLength exeFormat
            command).2.2.userContexts
          (Load_User_Program env k exeFileData exeFileLength exeFormat
            command).2.1).argBlockAddr + i)
      = env.Format_Argument_Block (env.Get_Argument_Block_Size command).1
          ((Load_User_Program env k exeFileData exeFileLength exeFormat
              command).2.2.userContexts
            (Load_User_Program env k exeFileData exeFileLength exeFormat
              command).2.1).argBlockAddr
          command i := by
  obtain ⟨_, hp, _, hsz, hmem, hentry, harg, hstack, _⟩ :=
    Load_User_Program_result env k exeFileData exeFileLength exeFormat command hok
  rw [hp, hentry, hstack, hsz, harg, hmem]
  refine ⟨rfl, rfl, rfl, ?_, ?_⟩
  · intro h
    exact Nat.mod_eq_of_lt h
  · intro i hi
    have := memcpy_inside
      (loadLoop exeFileData exeFormat exeFormat.numSegments 0
        (memset env.heap 0 0 (computedSize env exeFormat command)))
      (env.Format_Argument_Block (env.Get_Argument_Block_Size command).1
        (computedArgAddr exeFormat) command)
      (computedArgAddr exeFormat) 0 (env.Get_Argument_Block_Size command).2 i hi
    simpa using this

/-- Witness of C16 on the two-segment sample: entry 4096, stack pointer 24576 (the
size), argument block at 8192 + 4 = 8196, and block byte 8196 holds the first byte of
the serialized argument block (the argument count 1). -/
theorem Load_User_Program_fields_witness :
    (Load_User_Program sampleEnv sampleKernel countingBytes 200 twoSegments []).1 = 0 ∧
    ((Load_User_Program sampleEnv sampleKernel countingBytes 200 twoSegments
        []).2.2.userContexts
      (Load_User_Program sampleEnv sampleKernel countingBytes 200 twoSegments
        []).2.1).entryAddr = 4096 ∧
    ((Load_User_Program sampleEnv sampleKernel countingBytes 200 twoSegments
        []).2.2.userContexts
      (Load_User_Program sampleEnv sampleKernel countingBytes 200 twoSegments
        []).2.1).argBlockAddr = 8196 ∧
    ((Load_User_Program sampleEnv sampleKernel countingBytes 200 twoSegments
        []).2.2.userContexts
      (Load_User_Program sampleEnv sampleKernel countingBytes 200 twoSegments
        []).2.1).memory 8196 = 1 := by
  have hok : (Load_User_Program sampleEnv sampleKernel countingBytes 200 twoSegments
      []).1 = 0 := by decide
  have h := Load_User_Program_fields sampleEnv sampleKernel countingBytes 200 twoSegments []
    hok
  have harg : ((Load_User_Program sampleEnv sampleKernel countingBytes 200 twoSegments
        []).2.2.userContexts
      (Load_User_Program sampleEnv sampleKernel countingBytes 200 twoSegments
        []).2.1).argBlockAddr = 8196 := by
    rw [h.2.2.1]; decide
  refine ⟨hok, ?_, harg, ?_⟩
  · rw [h.1]; decide
  · have h5 := h.2.2.2.2 0 (by decide)
    rw [harg] at h5
    rw [h5]
    decide

end userseg

/-! ### Reading a loaded program back -/

namespace user

end user

namespace user

end user

namespace user

end user

/-! ### Spawn -/

namespace user

theorem Load_User_Program_keeps_threads (env : userseg.Collaborators) (k : Kernel)
    (data : Buffer) (len : Nat) (f : elf.Exe_Format) (command : Command) :
    (userseg.Load_User_Program env k data len f command).2.2.threads = k.threads ∧
    (userseg.Load_User_Program env k data len f command).2.2.g_currentThread
      = k.g_currentThread := by
  unfold userseg.Load_User_Program userseg.Create_User_Context
  by_cases hc : env.Malloc_context = 0
  · simp [hc]
  · by_cases hm : env.Malloc_memory
        ((Round_Up_To_Page (userseg.maxvaLoop f f.numSegments 0 0)
          + Round_Up_To_Page
            ((userseg.DEFAULT_USER_STACK_SIZE + (env.Get_Argument_Block_Size command).2)
              % WORD)) % WORD) = 0
    · simp [hc, hm]
    · simp [hc, hm]

theorem Spawn_read_failed (env : SpawnCollaborators) (k : Kernel)
    (program command : Command) (pThread : Nat) (hread : env.Read_Fully program = none) :
    Spawn env k program command pThread
      = { retVal := env.ENOTFOUND, pThread := pThread, kernel := k,
          made := [SpawnCall.Read_Fully] } := by
  simp [Spawn, Traced.Read_Fully, hread]

theorem Spawn_parse_failed (env : SpawnCollaborators) (k : Kernel)
    (program command : Command) (pThread : Nat) (exeFileData : Buffer)
    (exeFileLength : Nat)
    (hread : env.Read_Fully program = some (exeFileData, exeFileLength))
    (hparse : (elf.Parse_ELF_Executable env.EXE_MAX_SEGMENTS exeFileData exeFileLength
      env.exeFormat).1 ≠ 0) :
    Spawn env k program command pThread
      = { retVal := env.ENOEXEC, pThread := pThread, kernel := k,
          made := [SpawnCall.Read_Fully, SpawnCall.Parse_ELF_Executable,
            SpawnCall.Free] } := by
  simp [Spawn, Traced.Read_Fully, Traced.Parse_ELF_Executable, Traced.Free, hread, hparse]

theorem Spawn_load_failed (env : SpawnCollaborators) (k : Kernel)
    (program command : Command) (pThread : Nat) (exeFileData : Buffer)
    (exeFileLength : Nat)
    (hread : env.Read_Fully program = some (exeFileData, exeFileLength))
    (hparse : (elf.Parse_ELF_Executable env.EXE_MAX_SEGMENTS exeFileData exeFileLength
      env.exeFormat).1 = 0)
    (hload : (userseg.Load_User_Program env.loader k exeFileData exeFileLength
      (elf.Parse_ELF_Executable env.EXE_MAX_SEGMENTS exeFileData exeFileLength
        env.exeFormat).2 command).1 ≠ 0) :
    Spawn env k program command pThread
      = { retVal := env.EUNSPECIFIED, pThread := pThread,
          kernel := (userseg.Load_User_Program env.loader k exeFileData exeFileLength
            (elf.Parse_ELF_Executable env.EXE_MAX_SEGMENTS exeFileData exeFileLength
              env.exeFormat).2 command).2.2,
          made := [SpawnCall.Read_Fully, SpawnCall.Parse_ELF_Executable,
            SpawnCall.Load_User_Program, SpawnCall.Free] } := by
  simp [Spawn, Traced.Read_Fully, Traced.Parse_ELF_Executable, Traced.Load_User_Program,
    Traced.Free, hread, hparse, hload]

theorem Spawn_started (env : SpawnCollaborators) (k : Kernel)
    (program command : Command) (pThread : Nat) (exeFileData : Buffer)
    (exeFileLength : Nat)
    (hread : env.Read_Fully program = some (exeFileData, exeFileLength))
    (hparse : (elf.Parse_ELF_Executable env.EXE_MAX_SEGMENTS exeFileData exeFileLength
      env.exeFormat).1 = 0)
    (hload : (userseg.Load_User_Program env.loader k exeFileData exeFileLength
      (elf.Parse_ELF_Executable env.EXE_MAX_SEGMENTS exeFileData exeFileLength
        env.exeFormat).2 command).1 = 0) :
    Spawn env k program command pThread
      = { retVal := 0,
          pThread := (env.Start_User_Thread
            (userseg.Load_User_Program env.loader k exeFileData exeFileLength
              (elf.Parse_ELF_Executable env.EXE_MAX_SEGMENTS exeFileData exeFileLength
                env.exeFormat).2 command).2.2
            (userseg.Load_User_Program env.loader k exeFileData exeFileLength
              (elf.Parse_ELF_Executable env.EXE_MAX_SEGMENTS exeFileData exeFileLength
                env.exeFormat).2 command).2.1
            false).1,
          kernel := (env.Start_User_Thread
            (userseg.Load_User_Program env.loader k exeFileData exeFileLength
              (elf.Parse_ELF_Executable env.EXE_MAX_SEGMENTS exeFileData exeFileLength
                env.exeFormat).2 command).2.2
            (userseg.Load_User_Program env.loader k exeFileData exeFileLength
              (elf.Parse_ELF_Executable env.EXE_MAX_SEGMENTS exeFileData exeFileLength
                env.exeFormat).2 command).2.1
            false).2,
          made := [SpawnCall.Read_Fully, SpawnCall.Parse_ELF_Executable,
            SpawnCall.Load_User_Program, SpawnCall.Start_User_Thread,
            SpawnCall.Free] } := by
  simp [Spawn, Traced.Read_Fully, Traced.Parse_ELF_Executable, Traced.Load_User_Program,
    Traced.Start_User_Thread, Traced.Free, hread, hparse, hload]

/-- C13: the error code of `Spawn` is determined by the first failing stage.
When `Read_Fully` fails it returns `ENOTFOUND`; `Read_Fully` is the only call made
(neither the parser nor the builder is called) and the kernel state is the one `Spawn`
was entered with.
When the read succeeds and `Parse_ELF_Executable` returns non-zero it returns
`ENOEXEC`; the calls made are the read, the parse and `Free` (the builder is not
called) and the kernel state is the one `Spawn` was entered with.
When read and parse succeed and `Load_User_Program` returns non-zero it returns
`EUNSPECIFIED`; the calls made are the read, the parse, the load and `Free`, and the
kernel state is the one the failed `Load_User_Program` left, in which the threads are
those `Spawn` was entered with.
In each of the three cases `Start_User_Thread` is not called, so that no thread is
started (the kernel state is not the result of a `Start_User_Thread`, whatever that
collaborator does), and `*pThread` keeps the value it had. -/
theorem Spawn_error_codes (env : SpawnCollaborators) (k : Kernel)
    (program command : Command) (pThread : Nat) :
    (env.Read_Fully program = none →
      (Spawn env k program command pThread).retVal = env.ENOTFOUND ∧
      (Spawn env k program command pThread).made = [SpawnCall.Read_Fully] ∧
      SpawnCall.Parse_ELF_Executable ∉ (Spawn env k program command pThread).made ∧
      SpawnCall.Load_User_Program ∉ (Spawn env k program command pThread).made ∧
      SpawnCall.Start_User_Thread ∉ (Spawn env k program command pThread).made ∧
      (Spawn env k program command pThread).kernel = k ∧
      (Spawn env k program command pThread).pThread = pThread) ∧
    (∀ exeFileData exeFileLength,
      env.Read_Fully program = some (exeFileData, exeFileLength) →
      (elf.Parse_ELF_Executable env.EXE_MAX_SEGMENTS exeFileData exeFileLength
        env.exeFormat).1 ≠ 0 →
      (Spawn env k program command pThread).retVal = env.ENOEXEC ∧
      (Spawn env k program command pThread).made
        = [SpawnCall.Read_Fully, SpawnCall.Parse_ELF_Executable, SpawnCall.Free] ∧
      SpawnCall.Load_User_Program ∉ (Spawn env k program command pThread).made ∧
      SpawnCall.Start_User_Thread ∉ (Spawn env k program command pThread).made ∧
      (Spawn env k program command pThread).kernel = k ∧
      (Spawn env k program command pThread).pThread = pThread) ∧
    (∀ exeFileData exeFileLength,
      env.Read_Fully program = some (exeFileData, exeFileLength) →
      (elf.Parse_ELF_Executable env.EXE_MAX_SEGMENTS exeFileData exeFileLength
        env.exeFormat).1 = 0 →
      (userseg.Load_User_Program env.loader k exeFileData exeFileLength
        (elf.Parse_ELF_Executable env.EXE_MAX_SEGMENTS exeFileData exeFileLength
          env.exeFormat).2 command).1 ≠ 0 →
      (Spawn env k program command pThread).retVal = env.EUNSPECIFIED ∧
      (Spawn env k program command pThread).made
        = [SpawnCall.Read_Fully, SpawnCall.Parse_ELF_Executable,
            SpawnCall.Load_User_Program, SpawnCall.Free] ∧
      SpawnCall.Start_User_Thread ∉ (Spawn env k program command pThread).made ∧
      (Spawn env k program command pThread).kernel
        = (userseg.Load_User_Program env.loader k exeFileData exeFileLength
            (elf.Parse_ELF_Executable env.EXE_MAX_SEGMENTS exeFileData exeFileLength
              env.exeFormat).2 command).2.2 ∧
      (Spawn env k program command pThread).kernel.threads = k.threads ∧
      (Spawn env k program command pThread).kernel.g_currentThread = k.g_currentThread ∧
      (Spawn env k program command pThread).pThread = pThread) := by
  refine ⟨?_, ?_, ?_⟩
  · intro h
    rw [Spawn_read_failed env k program command pThread h]
    simp
  · intro d l h hp
    rw [Spawn_parse_failed env k program command pThread d l h hp]
    simp
  · intro d l h hp hl
    rw [Spawn_load_failed env k program command pThread d l h hp hl]
    have ht := Load_User_Program_keeps_threads env.loader k d l
      (elf.Parse_ELF_Executable env.EXE_MAX_SEGMENTS d l env.exeFormat).2 command
    exact ⟨rfl, rfl, by simp, rfl, ht.1, ht.2, rfl⟩

/-- Witness of C13 with the sample collaborators: a missing file gives `ENOTFOUND`
(-2); with a capacity of one segment the two-segment image gives `ENOEXEC` (-17); with
a failing block allocation the load fails and the result is `EUNSPECIFIED` (-1); in
all three cases `*pThread` keeps its value 99, and thread 7, the one the sample
`Start_User_Thread` creates with pid 5, still has pid 0. -/
theorem Spawn_error_codes_witness :
    ((Spawn sampleSpawnEnv sampleKernel [2] [] 99).retVal = -2 ∧
      (Spawn sampleSpawnEnv sampleKernel [2] [] 99).pThread = 99 ∧
      ((Spawn sampleSpawnEnv sampleKernel [2] [] 99).kernel.threads 7).pid = 0) ∧
    ((Spawn sampleSpawnEnvSmall sampleKernel [1] [] 99).retVal = -17 ∧
      (Spawn sampleSpawnEnvSmall sampleKernel [1] [] 99).pThread = 99 ∧
      ((Spawn sampleSpawnEnvSmall sampleKernel [1] [] 99).kernel.threads 7).pid = 0) ∧
    ((Spawn sampleSpawnEnvNoMemory sampleKernel [1] [] 99).retVal = -1 ∧
      (Spawn sampleSpawnEnvNoMemory sampleKernel [1] [] 99).pThread = 99 ∧
      ((Spawn sampleSpawnEnvNoMemory sampleKernel [1] [] 99).kernel.threads 7).pid = 0) := by
  have a := (Spawn_error_codes sampleSpawnEnv sampleKernel [2] [] 99).1 rfl
  have b := (Spawn_error_codes sampleSpawnEnvSmall sampleKernel [1] [] 99).2.1
    loadableImage 200 rfl (by decide)
  have c := (Spawn_error_codes sampleSpawnEnvNoMemory sampleKernel [1] [] 99).2.2
    loadableImage 200 rfl (by decide) (by decide)
  obtain ⟨a1, _, _, _, _, a6, a7⟩ := a
  obtain ⟨b1, _, _, _, b5, b6⟩ := b
  obtain ⟨c1, _, _, _, c5, _, c7⟩ := c
  refine ⟨⟨a1, a7, ?_⟩, ⟨b1, b6, ?_⟩, ⟨c1, c7, ?_⟩⟩
  · rw [a6]
    rfl
  · rw [b5]
    rfl
  · rw [c5]
    rfl

/-- C14, as stated, fails: with the sample collaborators the read, the parse and the
load all succeed, the started thread (thread 7) has pid 5, and `Spawn` returns 0, not
5. -/
theorem Spawn_returns_zero_not_pid :
    sampleSpawnEnv.Read_Fully [1] = some (loadableImage, 200) ∧
    (elf.Parse_ELF_Executable sampleSpawnEnv.EXE_MAX_SEGMENTS loadableImage 200
      sampleSpawnEnv.exeFormat).1 = 0 ∧
    (userseg.Load_User_Program sampleSpawnEnv.loader sampleKernel loadableImage 200
      (elf.Parse_ELF_Executable sampleSpawnEnv.EXE_MAX_SEGMENTS loadableImage 200
        sampleSpawnEnv.exeFormat).2 []).1 = 0 ∧
    (Spawn sampleSpawnEnv sampleKernel [1] [] 99).pThread = 7 ∧
    ((Spawn sampleSpawnEnv sampleKernel [1] [] 99).kernel.threads
      (Spawn sampleSpawnEnv sampleKernel [1] [] 99).pThread).pid = 5 ∧
    (Spawn sampleSpawnEnv sampleKernel [1] [] 99).retVal = 0 := by
  refine ⟨rfl, by decide, by decide, by decide, by decide, by decide⟩

/-- C14, amended: on success (read, parse and load all succeed) `Spawn` returns 0 and
stores in `*pThread` the pointer to the user thread that `Start_User_Thread` started
for the loaded context; the caller reads the process id from `(*pThread)->pid`. -/
theorem Spawn_success (env : SpawnCollaborators) (k : Kernel)
    (program command : Command) (pThread : Nat) (exeFileData : Buffer)
    (exeFileLength : Nat)
    (hread : env.Read_Fully program = some (exeFileData, exeFileLength))
    (hparse : (elf.Parse_ELF_Executable env.EXE_MAX_SEGMENTS exeFileData exeFileLength
      env.exeFormat).1 = 0)
    (hload : (userseg.Load_User_Program env.loader k exeFileData exeFileLength
      (elf.Parse_ELF_Executable env.EXE_MAX_SEGMENTS exeFileData exeFileLength
        env.exeFormat).2 command).1 = 0) :
    (Spawn env k program command pThread).retVal = 0 ∧
    (Spawn env k program command pThread).pThread
      = (env.Start_User_Thread
          (userseg.Load_User_Program env.loader k exeFileData exeFileLength
            (elf.Parse_ELF_Executable env.EXE_MAX_SEGMENTS exeFileData exeFileLength
              env.exeFormat).2 command).2.2
          (userseg.Load_User_Program env.loader k exeFileData exeFileLength
            (elf.Parse_ELF_Executable env.EXE_MAX_SEGMENTS exeFileData exeFileLength
              env.exeFormat).2 command).2.1
          false).1 ∧
    (Spawn env k program command pThread).kernel
      = (env.Start_User_Thread
          (userseg.Load_User_Program env.loader k exeFileData exeFileLength
            (elf.Parse_ELF_Executable env.EXE_MAX_SEGMENTS exeFileData exeFileLength
              env.exeFormat).2 command).2.2
          (userseg.Load_User_Program env.loader k exeFileData exeFileLength
            (elf.Parse_ELF_Executable env.EXE_MAX_SEGMENTS exeFileData exeFileLength
              env.exeFormat).2 command).2.1
          false).2 ∧
    SpawnCall.Start_User_Thread ∈ (Spawn env k program command pThread).made := by
  rw [Spawn_started env k program command pThread exeFileData exeFileLength hread hparse hload]
  simp

/-- Witness of the amended C14 with the sample collaborators: all three stages
succeed, `Spawn` returns 0 and `*pThread` is the started thread 7. -/
theorem Spawn_success_witness :
    (Spawn sampleSpawnEnv sampleKernel [1] [] 99).retVal = 0 ∧
    (Spawn sampleSpawnEnv sampleKernel [1] [] 99).pThread = 7 := by
  have h := Spawn_success sampleSpawnEnv sampleKernel [1] [] 99 loadableImage 200
    rfl (by decide) (by decide)
  refine ⟨h.1, ?_⟩
  rw [h.2.1]
  decide

end user

/-! ### The translation structure manager -/

namespace paging

theorem table_base_shift (page : Nat) (halign : page % PAGE_SIZE = 0) (hword : page < WORD) :
    (((page >>> PAGE_POWER) &&& 0xFFFFF) <<< 12) % WORD = page := by
  have e : (0xFFFFF : Nat) = 2 ^ 20 - 1 := by norm_num
  simp only [PAGE_POWER, PAGE_SIZE, WORD] at *
  rw [e, Nat.and_pow_two_sub_one_eq_mod, Nat.shiftRight_eq_div_pow, Nat.shiftLeft_eq]
  norm_num
  omega

theorem table_base_mask (page : Nat) (hword : page < WORD) :
    (page >>> PAGE_POWER) &&& 0xFFFFF = page >>> 12 := by
  have e : (0xFFFFF : Nat) = 2 ^ 20 - 1 := by norm_num
  simp only [PAGE_POWER, WORD] at *
  rw [e, Nat.and_pow_two_sub_one_eq_mod, Nat.shiftRight_eq_div_pow]
  norm_num
  omega

theorem Alloc_Page_freePages (m : Memory) :
    (Alloc_Page m).2.freePages = m.freePages.tail := by
  unfold Alloc_Page
  cases h : m.freePages <;> simp [h]

theorem Alloc_Page_pdes (m : Memory) : (Alloc_Page m).2.pdes = m.pdes := by
  unfold Alloc_Page
  cases m.freePages <;> rfl

theorem Alloc_Page_ptes (m : Memory) : (Alloc_Page m).2.ptes = m.ptes := by
  unfold Alloc_Page
  cases m.freePages <;> rfl

/-- C20: `Register_Page(directory, linearAddr, flags)`, with `d` the directory index
and `t` the leaf index of `linearAddr`.
If `directory[d]` is present: nothing is allocated, memory (so the directory) is
unchanged, and the result is entry `t` of the table at `pageTableBaseAddr << 12`.
If `directory[d]` is absent: one page is taken from the allocator and fully zeroed,
`directory[d]` becomes present with `pageTableBaseAddr = page >> 12` and
`flags = flags & 0xF`, every other directory entry is unchanged (the allocator's page
not being the directory's), and the result is entry `t` of the new table.
In both cases the returned leaf entry is not written by the call (in the second case
it is the zero entry of the cleared page), and a second call with the same address
returns the same handle and changes nothing, the allocator's page being page aligned. -/
theorem Register_Page_spec (m : Memory) (pageDirectory linearAddr flags : Nat) :
    ((m.pdes (dirEntryOf pageDirectory linearAddr)).present ≠ 0 →
      Register_Page m pageDirectory linearAddr flags
        = (((m.pdes (dirEntryOf pageDirectory linearAddr)).pageTableBaseAddr <<< 12) % WORD
            + ENTRY_SIZE * PAGE_TABLE_INDEX linearAddr, m) ∧
      ∀ flags2, Register_Page (Register_Page m pageDirectory linearAddr flags).2
          pageDirectory linearAddr flags2
        = Register_Page m pageDirectory linearAddr flags) ∧
    ((m.pdes (dirEntryOf pageDirectory linearAddr)).present = 0 →
      (Register_Page m pageDirectory linearAddr flags).1
        = (Alloc_Page m).1 + ENTRY_SIZE * PAGE_TABLE_INDEX linearAddr ∧
      (Register_Page m pageDirectory linearAddr flags).2.freePages = m.freePages.tail ∧
      (∀ a, (Alloc_Page m).1 ≤ a → a < (Alloc_Page m).1 + PAGE_SIZE →
        (Register_Page m pageDirectory linearAddr flags).2.ptes a = {} ∧
        (Register_Page m pageDirectory linearAddr flags).2.bytes a = 0) ∧
      (∀ a, ¬ ((Alloc_Page m).1 ≤ a ∧ a < (Alloc_Page m).1 + PAGE_SIZE) →
        (Register_Page m pageDirectory linearAddr flags).2.ptes a = m.ptes a) ∧
      ((Register_Page m pageDirectory linearAddr flags).2.pdes
          (dirEntryOf pageDirectory linearAddr)).present = 1 ∧
      ((Register_Page m pageDirectory linearAddr flags).2.pdes
          (dirEntryOf pageDirectory linearAddr)).flags = flags &&& 0x0F ∧
      ((Register_Page m pageDirectory linearAddr flags).2.pdes
          (dirEntryOf pageDirectory linearAddr)).pageTableBaseAddr
        = ((Alloc_Page m).1 >>> 12) &&& 0xFFFFF ∧
      ((Alloc_Page m).1 < WORD →
        ((Register_Page m pageDirectory linearAddr flags).2.pdes
            (dirEntryOf pageDirectory linearAddr)).pageTableBaseAddr
          = (Alloc_Page m).1 >>> 12) ∧
      (∀ e, e ≠ dirEntryOf pageDirectory linearAddr →
        ¬ ((Alloc_Page m).1 ≤ e ∧ e < (Alloc_Page m).1 + PAGE_SIZE) →
        (Register_Page m pageDirectory linearAddr flags).2.pdes e = m.pdes e) ∧
      ((Alloc_Page m).1 % PAGE_SIZE = 0 → (Alloc_Page m).1 < WORD →
        ∀ flags2, Register_Page (Register_Page m pageDirectory linearAddr flags).2
            pageDirectory linearAddr flags2
          = Register_Page m pageDirectory linearAddr flags)) := by
  constructor
  · intro hp
    have h1 : Register_Page m pageDirectory linearAddr flags
        = (((m.pdes (dirEntryOf pageDirectory linearAddr)).pageTableBaseAddr <<< 12) % WORD
            + ENTRY_SIZE * PAGE_TABLE_INDEX linearAddr, m) := by
      unfold dirEntryOf at hp
      simp [Register_Page, dirEntryOf, hp]
    refine ⟨h1, ?_⟩
    intro flags2
    rw [h1]
    unfold dirEntryOf at hp
    simp [Register_Page, dirEntryOf, hp]
  · intro hp
    have hp2 : (m.pdes (pageDirectory + ENTRY_SIZE * PAGE_DIRECTORY_INDEX linearAddr)).present
        = 0 := hp
    have hR : Register_Page m pageDirectory linearAddr flags
        = ((Alloc_Page m).1 + ENTRY_SIZE * PAGE_TABLE_INDEX linearAddr,
            Set_Page_Directory_Entry (clearPage (Alloc_Page m).2 (Alloc_Page m).1)
              (dirEntryOf pageDirectory linearAddr) (Alloc_Page m).1 flags) := by
      simp [Register_Page, dirEntryOf, hp2]
    rw [hR]
    refine ⟨rfl, ?_, ?_, ?_, ?_, ?_, ?_, ?_, ?_, ?_⟩
    · simp [Set_Page_Directory_Entry, clearPage, Alloc_Page_freePages]
    · intro a h1 h2
      simp [Set_Page_Directory_Entry, clearPage, memset, h1, h2]
    · intro a h
      simp [Set_Page_Directory_Entry, clearPage, h, Alloc_Page_ptes]
    · simp [Set_Page_Directory_Entry]
    · simp [Set_Page_Directory_Entry]
    · simp [Set_Page_Directory_Entry]
    · intro hw
      simp only [Set_Page_Directory_Entry, Function.update_same]
      exact table_base_mask _ hw
    · intro e he hout
      simp [Set_Page_Directory_Entry, clearPage, Function.update_noteq he, hout,
        Alloc_Page_pdes]
    · intro halign hw flags2
      have hpres : ((Set_Page_Directory_Entry (clearPage (Alloc_Page m).2 (Alloc_Page m).1)
          (dirEntryOf pageDirectory linearAddr) (Alloc_Page m).1 flags).pdes
          (pageDirectory + ENTRY_SIZE * PAGE_DIRECTORY_INDEX linearAddr)).present ≠ 0 := by
        simp [Set_Page_Directory_Entry, dirEntryOf]
      have hbase : ((Set_Page_Directory_Entry (clearPage (Alloc_Page m).2 (Alloc_Page m).1)
          (dirEntryOf pageDirectory linearAddr) (Alloc_Page m).1 flags).pdes
          (pageDirectory + ENTRY_SIZE * PAGE_DIRECTORY_INDEX linearAddr)).pageTableBaseAddr
          = ((Alloc_Page m).1 >>> PAGE_POWER) &&& 0xFFFFF := by
        simp [Set_Page_Directory_Entry, dirEntryOf]
      simp only [Register_Page, hpres, if_false, hbase,
        table_base_shift _ halign hw]

end paging

namespace paging

/-- Witness of C20 on the empty sample memory, directory at 0x1000, linear address
0x80001000 (directory index 512, leaf index 1): the entry at 0x1800 is absent, the first
free frame 0x5000 becomes the leaf table, the handle is 0x5004, the directory entry
becomes present with base 5 and flags 3, and a second call returns the same handle and
state. -/
theorem Register_Page_spec_witness :
    (emptyMemory.pdes (dirEntryOf 0x1000 0x80001000)).present = 0 ∧
    dirEntryOf 0x1000 0x80001000 = 0x1800 ∧
    (Register_Page emptyMemory 0x1000 0x80001000 3).1 = 0x5004 ∧
    (Register_Page emptyMemory 0x1000 0x80001000 3).2.freePages = [0x6000] ∧
    ((Register_Page emptyMemory 0x1000 0x80001000 3).2.pdes 0x1800).present = 1 ∧
    ((Register_Page emptyMemory 0x1000 0x80001000 3).2.pdes 0x1800).flags = 3 ∧
    ((Register_Page emptyMemory 0x1000 0x80001000 3).2.pdes 0x1800).pageTableBaseAddr = 5 ∧
    Register_Page (Register_Page emptyMemory 0x1000 0x80001000 3).2 0x1000 0x80001000 7
      = Register_Page emptyMemory 0x1000 0x80001000 3 := by
  have habsent : (emptyMemory.pdes (dirEntryOf 0x1000 0x80001000)).present = 0 := by decide
  have hde : dirEntryOf 0x1000 0x80001000 = 0x1800 := by decide
  have h := (Register_Page_spec emptyMemory 0x1000 0x80001000 3).2 habsent
  obtain ⟨h1, h2, _, _, h5, h6, h7, _, _, h10⟩ := h
  rw [hde] at h5 h6 h7
  refine ⟨habsent, hde, ?_, ?_, h5, ?_, ?_, h10 (by decide) (by decide) 7⟩
  · rw [h1]; decide
  · rw [h2]; decide
  · rw [h6]; decide
  · rw [h7]; decide

end paging

/-! ### The paged builder -/

namespace uservm

theorem Round_Up_To_Page_aligned (x : Nat) : Round_Up_To_Page x % PAGE_SIZE = 0 := by
  unfold Round_Up_To_Page
  simp only [PAGE_SIZE, WORD]
  by_cases hx : x % 4096 = 0
  · simp only [hx, ne_eq, not_true_eq_false, if_false]
  · simp only [hx, ne_eq, not_false_eq_true, if_true]
    omega

theorem virtSize_aligned (x : Nat) : (Round_Up_To_Page x + 0x2000) % WORD % PAGE_SIZE = 0 := by
  have h := Round_Up_To_Page_aligned x
  simp only [PAGE_SIZE, WORD] at h ⊢
  omega

theorem Create_User_Context_returns (c : Constants) (env : userseg.Collaborators)
    (k : Kernel) (size : Nat) (h : size % PAGE_SIZE = 0) :
    ∃ p k1, Create_User_Context c env k size = Run.returned p k1 := by
  cases hres : Create_User_Context c env k size with
  | returned p k1 => exact ⟨p, k1, rfl⟩
  | halted kh =>
    exfalso
    unfold Create_User_Context at hres
    simp only [h, ne_eq, not_true_eq_false, if_false] at hres
    split_ifs at hres

/-- C19: paged builder recorded fields: `Load_User_Program` of the paged variant always
returns, with code 0, and afterwards the context's `entryAddr` is
`exeFormat.entryAddr`, its `argBlockAddr` is `0xFFFFF000 - USER_VM_START` and its
`stackPointerAddr` is `0xFFFFE000 - USER_VM_START + PAGE_SIZE` (in `ulong_t` arithmetic;
the exact differences whenever `USER_VM_START <= 0xFFFFE000`), values in which neither
the segments nor the staged size nor the command occur; the base address given to the
argument serializer is this same `argBlockAddr`, and the bytes the serializer produces
for it are the ones found in the frame mapped for the argument block. -/
theorem Load_User_Program_paged_fields (c : Constants) (env : userseg.Collaborators)
    (s : State) (exeFileData : Buffer) (exeFileLength : Nat) (exeFormat : elf.Exe_Format)
    (command : Command) :
    ∃ r s2,
      Load_User_Program c env s exeFileData exeFileLength exeFormat command
        = Run.returned r s2 ∧
      r.ret = 0 ∧
      (s2.kernel.userContexts r.pUserContext).entryAddr = exeFormat.entryAddr ∧
      (s2.kernel.userContexts r.pUserContext).argBlockAddr
        = (0xFFFFF000 + WORD - c.USER_VM_START) % WORD ∧
      (s2.kernel.userContexts r.pUserContext).stackPointerAddr
        = ((0xFFFFE000 + WORD - c.USER_VM_START) % WORD + PAGE_SIZE) % WORD ∧
      (c.USER_VM_START ≤ 0xFFFFE000 →
        (s2.kernel.userContexts r.pUserContext).argBlockAddr
          = 0xFFFFF000 - c.USER_VM_START ∧
        (s2.kernel.userContexts r.pUserContext).stackPointerAddr
          = 0xFFFFE000 - c.USER_VM_START + PAGE_SIZE) ∧
      r.userAddress = (s2.kernel.userContexts r.pUserContext).argBlockAddr ∧
      ∀ i, i < (env.Get_Argument_Block_Size command).2 →
        s2.memory.bytes (r.argBlock + i)
          = env.Format_Argument_Block (env.Get_Argument_Block_Size command).1
              r.userAddress command i := by
  obtain ⟨p, k1, hc⟩ := Create_User_Context_returns c env s.kernel
    ((Round_Up_To_Page (userseg.maxvaLoop exeFormat exeFormat.numSegments 0 0) + 0x2000)
      % WORD)
    (virtSize_aligned _)
  unfold Load_User_Program
  simp only []
  rw [hc]
  refine ⟨_, _, rfl, rfl, ?_, ?_, ?_, ?_, ?_, ?_⟩
  · simp only [Function.update_same]
  · simp only [Function.update_same]
  · simp only [Function.update_same]
  · intro h
    simp only [Function.update_same]
    simp only [WORD, PAGE_SIZE]
    omega
  · simp only [Function.update_same]
  · intro i hi
    exact (userseg.memcpy_inside _ _ _ 0 _ i hi).trans (by simp only [Nat.zero_add])

end uservm

namespace uservm

/-- Witness of C19 with the sample constants (`USER_VM_START = 0x80000000`) on the
two-segment sample: the load returns 0, the entry address is 4096, and both
`argBlockAddr = 0xFFFFF000 - 0x80000000` and
`stackPointerAddr = 0xFFFFE000 - 0x80000000 + 0x1000` are `0x7FFFF000`. -/
theorem Load_User_Program_paged_fields_witness :
    sampleConstants.USER_VM_START ≤ 0xFFFFE000 ∧
    ∃ r s2,
      Load_User_Program sampleConstants sampleEnv sampleState countingBytes 200
        twoSegments [] = Run.returned r s2 ∧
      r.ret = 0 ∧
      (s2.kernel.userContexts r.pUserContext).entryAddr = 4096 ∧
      (s2.kernel.userContexts r.pUserContext).argBlockAddr = 0x7FFFF000 ∧
      (s2.kernel.userContexts r.pUserContext).stackPointerAddr = 0x7FFFF000 ∧
      r.userAddress = 0x7FFFF000 := by
  have hstart : sampleConstants.USER_VM_START ≤ 0xFFFFE000 := by decide
  obtain ⟨r, s2, hL, hret, hentry, _, _, hexact, hbase, _⟩ :=
    Load_User_Program_paged_fields sampleConstants sampleEnv sampleState countingBytes 200
      twoSegments []
  obtain ⟨harg, hstack⟩ := hexact hstart
  refine ⟨hstart, r, s2, hL, hret, ?_, ?_, ?_, ?_⟩
  · rw [hentry]; decide
  · rw [harg]; decide
  · rw [hstack]; decide
  · rw [hbase, harg]; decide

end uservm

/-! ### The page-fault handler -/

namespace paging

/-- C21: `Page_Fault_Handler`, entered with interrupts disabled: for every fault whose
`userModeFault` bit is clear it ends at a failed assertion (the kernel halts) and `Exit`
is not called; for every fault whose `userModeFault` bit is set it calls `Exit(-1)` on
the current thread; two faults with the same `userModeFault` bit have the same outcome,
whatever their addresses, `protectionViolation` and `writeFault` bits are; and the
handler never returns to the faulting code. -/
theorem Page_Fault_Handler_spec (k : Kernel) (address : Nat) (state : Interrupt_State)
    (hdisabled : k.interruptsEnabled = false) :
    ((faultcode_of state.errorCode).userModeFault = false →
      Page_Fault_Handler k address state = FaultOutcome.assertionFailed ∧
      ∀ t code, Page_Fault_Handler k address state ≠ FaultOutcome.exited t code) ∧
    ((faultcode_of state.errorCode).userModeFault = true →
      Page_Fault_Handler k address state = FaultOutcome.exited k.g_currentThread (-1)) ∧
    (∀ address2 state2,
      (faultcode_of state2.errorCode).userModeFault
        = (faultcode_of state.errorCode).userModeFault →
      Page_Fault_Handler k address2 state2 = Page_Fault_Handler k address state) ∧
    Page_Fault_Handler k address state ≠ FaultOutcome.returned := by
  refine ⟨?_, ?_, ?_, ?_⟩
  · intro h
    simp [Page_Fault_Handler, hdisabled, h]
  · intro h
    simp [Page_Fault_Handler, hdisabled, h]
  · intro address2 state2 h
    simp [Page_Fault_Handler, hdisabled, h]
  · cases h : (faultcode_of state.errorCode).userModeFault <;>
      simp [Page_Fault_Handler, hdisabled, h]

/-- Witness of C21 on the sample kernel with interrupts disabled (thread 1 running): a
fault with error code 3 (protection violation, write, supervisor mode) ends at the
assertion; faults with error codes 4 and 7 (user mode) end in `Exit(-1)` of thread 1,
at whatever address. -/
theorem Page_Fault_Handler_spec_witness :
    syscallKernel.interruptsEnabled = false ∧
    Page_Fault_Handler syscallKernel 4096 { errorCode := 3 } = FaultOutcome.assertionFailed ∧
    Page_Fault_Handler syscallKernel 4096 { errorCode := 4 } = FaultOutcome.exited 1 (-1) ∧
    Page_Fault_Handler syscallKernel 0 { errorCode := 7 }
      = Page_Fault_Handler syscallKernel 4096 { errorCode := 4 } := by
  have h3 := Page_Fault_Handler_spec syscallKernel 4096 { errorCode := 3 } (by decide)
  have h4 := Page_Fault_Handler_spec syscallKernel 4096 { errorCode := 4 } (by decide)
  exact ⟨by decide, (h3.1 (by decide)).1, h4.2.1 (by decide),
    h4.2.2.1 0 { errorCode := 7 } (by decide)⟩

end paging

/-! ### The flat builder: writes stay inside the block -/

namespace userseg

/-- C24, as stated, fails: `oversizedFile` has two segments, its segment 1 has
`sizeInMemory >= lengthInFile`, nothing overflows and the load succeeds with a block of
24576 bytes, but its segment 0 has 100000 file bytes, so
`startAddress + lengthInFile = 100000` exceeds the size of the block. -/
theorem segment_copy_leaves_block :
    2 ≤ oversizedFile.numSegments ∧
    (oversizedFile.segmentList 1).lengthInFile ≤ (oversizedFile.segmentList 1).sizeInMemory ∧
    exactSize sampleEnv oversizedFile [] < WORD ∧
    (Load_User_Program sampleEnv sampleKernel countingBytes 200000 oversizedFile []).1 = 0 ∧
    ((Load_User_Program sampleEnv sampleKernel countingBytes 200000 oversizedFile
        []).2.2.userContexts
      (Load_User_Program sampleEnv sampleKernel countingBytes 200000 oversizedFile
        []).2.1).size = 24576 ∧
    ¬ ((oversizedFile.segmentList 0).startAddress + (oversizedFile.segmentList 0).lengthInFile
      ≤ ((Load_User_Program sampleEnv sampleKernel countingBytes 200000 oversizedFile
          []).2.2.userContexts
        (Load_User_Program sampleEnv sampleKernel countingBytes 200000 oversizedFile
          []).2.1).size) := by
  refine ⟨by decide, by decide, by decide, by decide, by decide, by decide⟩

/-- C24, amended: flat builder, for every `Exe_Format` with at least two segments in
which every segment has `sizeInMemory >= lengthInFile`, and with no 32-bit overflow in
the size computation: after a successful `Load_User_Program`,
`argBlockAddr + argBlockSize <= size`, and `startAddress + lengthInFile <= size` for
every segment, so neither the argument block nor a segment copy writes outside the
block. -/
theorem Load_User_Program_stays_inside (env : Collaborators) (k : Kernel)
    (exeFileData : Buffer) (exeFileLength : Nat) (exeFormat : elf.Exe_Format)
    (command : Command)
    (hok : (Load_User_Program env k exeFileData exeFileLength exeFormat command).1 = 0)
    (hno : exactSize env exeFormat command < WORD)
    (htwo : 2 ≤ exeFormat.numSegments)
    (hlen : ∀ i, i < exeFormat.numSegments →
      (exeFormat.segmentList i).lengthInFile ≤ (exeFormat.segmentList i).sizeInMemory) :
    ((Load_User_Program env k exeFileData exeFileLength exeFormat command).2.2.userContexts
        (Load_User_Program env k exeFileData exeFileLength exeFormat
          command).2.1).argBlockAddr
      + (env.Get_Argument_Block_Size command).2
      ≤ ((Load_User_Program env k exeFileData exeFileLength exeFormat
          command).2.2.userContexts
        (Load_User_Program env k exeFileData exeFileLength exeFormat command).2.1).size ∧
    ∀ i, i < exeFormat.numSegments →
      (exeFormat.segmentList i).startAddress + (exeFormat.segmentList i).lengthInFile
        ≤ ((Load_User_Program env k exeFileData exeFileLength exeFormat
            command).2.2.userContexts
          (Load_User_Program env k exeFileData exeFileLength exeFormat command).2.1).size := by
  obtain ⟨_, hp, _, hsz, _, _, harg, _, _⟩ :=
    Load_User_Program_result env k exeFileData exeFileLength exeFormat command hok
  rw [hp, hsz, harg, computedSize_eq_exactSize env exeFormat command hno]
  have hA := pageAlign_ge (segmentEndsMax exeFormat exeFormat.numSegments)
  have hB := pageAlign_ge (DEFAULT_USER_STACK_SIZE + (env.Get_Argument_Block_Size command).2)
  have hsize : exactSize env exeFormat command
      = pageAlign (segmentEndsMax exeFormat exeFormat.numSegments)
        + pageAlign (DEFAULT_USER_STACK_SIZE + (env.Get_Argument_Block_Size command).2) := rfl
  have hstack : DEFAULT_USER_STACK_SIZE = 8192 := rfl
  constructor
  · have h1 := segmentEndsMax_ge exeFormat exeFormat.numSegments 1 (by omega)
    have h2 := hlen 1 (by omega)
    have hmod : computedArgAddr exeFormat
        = (exeFormat.segmentList 1).startAddress + (exeFormat.segmentList 1).lengthInFile :=
      Nat.mod_eq_of_lt (by omega)
    rw [hmod]
    omega
  · intro i hi
    have h1 := segmentEndsMax_ge exeFormat exeFormat.numSegments i hi
    have h2 := hlen i hi
    omega

/-- Witness of the amended C24 on the two-segment sample: the argument block is
`[8196, 8212)` and both segments end at or below 8196, inside the 24576-byte block. -/
theorem Load_User_Program_stays_inside_witness :
    (Load_User_Program sampleEnv sampleKernel countingBytes 200 twoSegments []).1 = 0 ∧
    exactSize sampleEnv twoSegments [] < WORD ∧
    2 ≤ twoSegments.numSegments ∧
    ((Load_User_Program sampleEnv sampleKernel countingBytes 200 twoSegments
        []).2.2.userContexts
      (Load_User_Program sampleEnv sampleKernel countingBytes 200 twoSegments
        []).2.1).argBlockAddr + (sampleEnv.Get_Argument_Block_Size []).2
      ≤ ((Load_User_Program sampleEnv sampleKernel countingBytes 200 twoSegments
          []).2.2.userContexts
        (Load_User_Program sampleEnv sampleKernel countingBytes 200 twoSegments
          []).2.1).size := by
  have hok : (Load_User_Program sampleEnv sampleKernel countingBytes 200 twoSegments
      []).1 = 0 := by decide
  have hno : exactSize sampleEnv twoSegments [] < WORD := by decide
  have hlen : ∀ i, i < twoSegments.numSegments →
      (twoSegments.segmentList i).lengthInFile ≤ (twoSegments.segmentList i).sizeInMemory := by
    intro i hi
    have hi2 : i < 2 := hi
    interval_cases i <;> simp [twoSegments]
  exact ⟨hok, hno, by decide,
    (Load_User_Program_stays_inside sampleEnv sampleKernel countingBytes 200 twoSegments []
      hok hno (by decide) hlen).1⟩

end userseg

/-! ### The bytes the parser reads -/

namespace elf

theorem read32_congr (d1 d2 : Buffer) (off : Nat)
    (h : ∀ j, j < 4 → d1 (off + j) = d2 (off + j)) : read32 d1 off = read32 d2 off := by
  have h0 := h 0 (by omega)
  have h1 := h 1 (by omega)
  have h2 := h 2 (by omega)
  have h3 := h 3 (by omega)
  simp only [Nat.add_zero] at h0
  simp only [read32, h0, h1, h2, h3]

theorem read16_congr (d1 d2 : Buffer) (off : Nat)
    (h : ∀ j, j < 2 → d1 (off + j) = d2 (off + j)) : read16 d1 off = read16 d2 off := by
  have h0 := h 0 (by omega)
  have h1 := h 1 (by omega)
  simp only [Nat.add_zero] at h0
  simp only [read16, h0, h1]

theorem mem_programHeader_reads (off j : Nat)
    (hj : (4 ≤ j ∧ j < 12) ∨ (16 ≤ j ∧ j < 28)) : off + j ∈ programHeader_reads off := by
  unfold programHeader_reads
  apply List.mem_map.2
  refine ⟨j, ?_, rfl⟩
  rcases hj with ⟨h1, h2⟩ | ⟨h1, h2⟩ <;> interval_cases j <;> simp

theorem programHeader_reads_bound (off a : Nat) (ha : a ∈ programHeader_reads off) :
    off + 4 ≤ a ∧ a < off + 28 := by
  unfold programHeader_reads at ha
  obtain ⟨j, hj, rfl⟩ := List.mem_map.1 ha
  simp only [List.mem_cons, List.mem_singleton, List.not_mem_nil, or_false] at hj
  omega

theorem programHeader_at_congr (d1 d2 : Buffer) (off : Nat)
    (h : ∀ a, a ∈ programHeader_reads off → d1 a = d2 a) :
    programHeader_at d1 off = programHeader_at d2 off := by
  have key : ∀ base j, ((4 ≤ base ∧ base + 4 ≤ 12) ∨ (16 ≤ base ∧ base + 4 ≤ 28)) → j < 4 →
      d1 (off + base + j) = d2 (off + base + j) := by
    intro base j hb hj
    rw [Nat.add_assoc]
    exact h _ (mem_programHeader_reads off (base + j) (by omega))
  unfold programHeader_at
  rw [read32_congr d1 d2 (off + 4) (fun j hj => key 4 j (by omega) hj),
    read32_congr d1 d2 (off + 8) (fun j hj => key 8 j (by omega) hj),
    read32_congr d1 d2 (off + 16) (fun j hj => key 16 j (by omega) hj),
    read32_congr d1 d2 (off + 20) (fun j hj => key 20 j (by omega) hj),
    read32_congr d1 d2 (off + 24) (fun j hj => key 24 j (by omega) hj)]

theorem mem_tableReads (phoff : Nat) :
    ∀ n i a, i < n → a ∈ programHeader_reads (phoff + sizeof_programHeader * i) →
      a ∈ tableReads phoff n := by
  intro n
  induction n with
  | zero => intro i a hi; omega
  | succ n ih =>
    intro i a hi ha
    simp only [tableReads, List.mem_append]
    by_cases h : i = n
    · subst h; exact Or.inr ha
    · exact Or.inl (ih i a (by omega) ha)

theorem tableReads_bound (phoff : Nat) :
    ∀ n a, a ∈ tableReads phoff n → a < phoff + sizeof_programHeader * n := by
  intro n
  induction n with
  | zero => intro a ha; simp [tableReads] at ha
  | succ n ih =>
    intro a ha
    simp only [tableReads, List.mem_append] at ha
    simp only [sizeof_programHeader] at *
    rcases ha with h | h
    · have := ih a h
      omega
    · have := programHeader_reads_bound _ a h
      omega

theorem segmentLoop_congr (d1 d2 : Buffer) (phnum : Nat) :
    ∀ (n i p : Nat) (f : Exe_Format), i + n = phnum →
      (∀ j, j < n → programHeader_at d1 (p + sizeof_programHeader * j)
        = programHeader_at d2 (p + sizeof_programHeader * j)) →
      segmentLoop d1 phnum n i p f = segmentLoop d2 phnum n i p f := by
  intro n
  induction n with
  | zero => intro i p f _ _; rfl
  | succ n ih =>
    intro i p f hi h
    have hlt : i < phnum := by omega
    have h0 := h 0 (by omega)
    simp only [Nat.mul_zero, Nat.add_zero] at h0
    simp only [segmentLoop, hlt, if_true, h0]
    apply ih (i + 1) (p + sizeof_programHeader) _ (by omega)
    intro j hj
    have := h (j + 1) (by omega)
    have e : p + sizeof_programHeader * (j + 1)
        = p + sizeof_programHeader + sizeof_programHeader * j := by
      rw [Nat.mul_add]; omega
    rw [e] at this
    exact this

theorem Parse_depends_on_reads (EXE_MAX_SEGMENTS : Nat) (d1 d2 : Buffer) (len : Nat)
    (f : Exe_Format)
    (h : ∀ a, a ∈ Parse_reads EXE_MAX_SEGMENTS d1 len → d1 a = d2 a) :
    Parse_ELF_Executable EXE_MAX_SEGMENTS d1 len f
      = Parse_ELF_Executable EXE_MAX_SEGMENTS d2 len f := by
  by_cases h0 : len = 0
  · simp [Parse_ELF_Executable, h0]
  · have hhead : ∀ a, a ∈ [28, 29, 30, 31, 44, 45] → d1 a = d2 a := by
      intro a ha
      apply h
      simp only [Parse_reads, h0, if_false, List.mem_append]
      exact Or.inl ha
    have hoff : (elfHeader_at d1).phoff = (elfHeader_at d2).phoff := by
      apply read32_congr
      intro j hj
      apply hhead
      interval_cases j <;> simp
    have hnum : (elfHeader_at d1).phnum = (elfHeader_at d2).phnum := by
      apply read16_congr
      intro j hj
      apply hhead
      interval_cases j <;> simp
    by_cases h1 : (elfHeader_at d1).phnum > EXE_MAX_SEGMENTS
    · have h2 : (elfHeader_at d2).phnum > EXE_MAX_SEGMENTS := by rw [← hnum]; exact h1
      simp [Parse_ELF_Executable, h0, h1, h2]
    · have h2 : ¬ ((elfHeader_at d2).phnum > EXE_MAX_SEGMENTS) := by rw [← hnum]; exact h1
      have hrest : ∀ a, a ∈ tableReads (elfHeader_at d1).phoff (elfHeader_at d1).phnum
          ++ [24, 25, 26, 27] → d1 a = d2 a := by
        intro a ha
        apply h
        simp only [Parse_reads, h0, h1, if_false, List.mem_append]
        exact Or.inr (List.mem_append.1 ha)
      have hentry : (elfHeader_at d1).entry = (elfHeader_at d2).entry := by
        apply read32_congr
        intro j hj
        apply hrest
        apply List.mem_append.2
        right
        interval_cases j <;> simp
      have hloop := segmentLoop_congr d1 d2 (elfHeader_at d1).phnum (elfHeader_at d1).phnum 0
        (elfHeader_at d1).phoff { f with numSegments := (elfHeader_at d1).phnum } (by omega)
        (fun j hj => programHeader_at_congr d1 d2 _ (fun a ha =>
          hrest a (List.mem_append.2 (Or.inl (mem_tableReads _ _ j a hj ha)))))
      simp only [Parse_ELF_Executable, h0, h1, h2, if_false]
      rw [hloop, ← hnum, ← hoff, ← hentry]

end elf

namespace elf

/-- C25, as stated, fails: the sample image cut to a length of 60 bytes (non-zero, the
whole ELF header inside) announces two program headers at offset 52; the parse succeeds
and reads, among others, byte 108, which is not below 60. The outcome depends on it: the
image that agrees with the sample on all 60 bytes and is zero beyond gives segment 1 the
flags 0 instead of 7. -/
theorem parse_reads_past_the_image :
    (60 : Nat) ≠ 0 ∧
    (Parse_ELF_Executable 3 sampleImage 60 emptyFormat).1 = 0 ∧
    108 ∈ Parse_reads 3 sampleImage 60 ∧ ¬ (108 < 60) ∧
    (∀ a, a < 60 → truncatedImage a = sampleImage a) ∧
    ((Parse_ELF_Executable 3 sampleImage 60 emptyFormat).2.segmentList 1).protFlags = 7 ∧
    ((Parse_ELF_Executable 3 truncatedImage 60 emptyFormat).2.segmentList 1).protFlags = 0 := by
  refine ⟨by decide, by decide, by decide, by decide, ?_, by decide, by decide⟩
  intro a ha
  simp [truncatedImage, ha]

/-- C25, amended: for every image of non-zero length whose ELF header fields lie below
`exeFileLength` (bytes 24 to 45, so `exeFileLength >= 46`) and whose program-header
table `[phoff, phoff + 32 * phnum)` lies below `exeFileLength` whenever it is read
(`0 < phnum <= EXE_MAX_SEGMENTS`), every byte `Parse_ELF_Executable` reads lies at an
offset below `exeFileLength`, and the parse does not depend on bytes outside the
buffer: any image with the same first `exeFileLength` bytes parses to the same result.
The parser itself tests only `exeFileLength != 0`. -/
theorem Parse_reads_inside (EXE_MAX_SEGMENTS : Nat) (exeFileData : Buffer)
    (exeFileLength : Nat) (exeFormat : Exe_Format)
    (_hlen : exeFileLength ≠ 0)
    (hhead : 46 ≤ exeFileLength)
    (htable : 0 < (elfHeader_at exeFileData).phnum →
      (elfHeader_at exeFileData).phnum ≤ EXE_MAX_SEGMENTS →
      (elfHeader_at exeFileData).phoff
        + sizeof_programHeader * (elfHeader_at exeFileData).phnum ≤ exeFileLength) :
    (∀ a, a ∈ Parse_reads EXE_MAX_SEGMENTS exeFileData exeFileLength → a < exeFileLength) ∧
    ∀ other : Buffer, (∀ a, a < exeFileLength → exeFileData a = other a) →
      Parse_ELF_Executable EXE_MAX_SEGMENTS exeFileData exeFileLength exeFormat
        = Parse_ELF_Executable EXE_MAX_SEGMENTS other exeFileLength exeFormat := by
  have hreads : ∀ a, a ∈ Parse_reads EXE_MAX_SEGMENTS exeFileData exeFileLength →
      a < exeFileLength := by
    intro a ha
    unfold Parse_reads at ha
    by_cases h0 : exeFileLength = 0
    · simp [h0] at ha
    · simp only [h0, if_false, List.mem_append] at ha
      rcases ha with ha | ha
      · simp only [List.mem_cons, List.mem_singleton, List.not_mem_nil, or_false] at ha
        omega
      · by_cases h1 : (elfHeader_at exeFileData).phnum > EXE_MAX_SEGMENTS
        · simp [h1] at ha
        · simp only [h1, if_false, List.mem_append] at ha
          rcases ha with ha | ha
          · have hb := tableReads_bound _ _ a ha
            by_cases hz : (elfHeader_at exeFileData).phnum = 0
            · rw [hz] at ha
              simp [tableReads] at ha
            · have := htable (by omega) (by omega)
              omega
          · simp only [List.mem_cons, List.mem_singleton, List.not_mem_nil, or_false] at ha
            omega
  refine ⟨hreads, ?_⟩
  intro other hsame
  exact Parse_depends_on_reads EXE_MAX_SEGMENTS exeFileData other exeFileLength exeFormat
    (fun a ha => hsame a (hreads a ha))

/-- Witness of the amended C25 on the whole sample image (116 bytes: header, and two
program headers at offsets 52 to 115): every byte read is below 116, byte 108 among
them. -/
theorem Parse_reads_inside_witness :
    (116 : Nat) ≠ 0 ∧ 46 ≤ 116 ∧
    (elfHeader_at sampleImage).phoff
      + sizeof_programHeader * (elfHeader_at sampleImage).phnum ≤ 116 ∧
    108 ∈ Parse_reads 3 sampleImage 116 ∧
    ∀ a, a ∈ Parse_reads 3 sampleImage 116 → a < 116 :=
  ⟨by decide, by decide, by decide, by decide,
    (Parse_reads_inside 3 sampleImage 116 emptyFormat (by decide) (by decide)
      (fun _ _ => by decide)).1⟩

end elf

/-! ### Sys_Spawn and the interrupt flag -/

namespace syscall

theorem Load_User_Program_keeps_interrupt_flag (env : userseg.Collaborators) (k : Kernel)
    (data : Buffer) (len : Nat) (f : elf.Exe_Format) (command : Command) :
    (userseg.Load_User_Program env k data len f command).2.2.interruptsEnabled
      = k.interruptsEnabled := by
  unfold userseg.Load_User_Program userseg.Create_User_Context
  by_cases hc : env.Malloc_context = 0
  · simp [hc]
  · by_cases hm : env.Malloc_memory
        ((Round_Up_To_Page (userseg.maxvaLoop f f.numSegments 0 0)
          + Round_Up_To_Page
            ((userseg.DEFAULT_USER_STACK_SIZE + (env.Get_Argument_Block_Size command).2)
              % WORD)) % WORD) = 0
    · simp [hc, hm]
    · simp [hc, hm]

theorem Spawn_failure_keeps_interrupt_flag (env : user.SpawnCollaborators) (k : Kernel)
    (program command : Command) (pThread : Nat)
    (hfail : (user.Spawn env k program command pThread).retVal ≠ 0) :
    (user.Spawn env k program command pThread).kernel.interruptsEnabled
      = k.interruptsEnabled := by
  cases hr : env.Read_Fully program with
  | none => rw [user.Spawn_read_failed env k program command pThread hr]
  | some img =>
    obtain ⟨data, len⟩ := img
    by_cases hp : (elf.Parse_ELF_Executable env.EXE_MAX_SEGMENTS data len env.exeFormat).1 = 0
    · by_cases hl : (userseg.Load_User_Program env.loader k data len
          (elf.Parse_ELF_Executable env.EXE_MAX_SEGMENTS data len env.exeFormat).2
          command).1 = 0
      · rw [user.Spawn_started env k program command pThread data len hr hp hl] at hfail
        exact absurd rfl hfail
      · rw [user.Spawn_load_failed env k program command pThread data len hr hp hl]
        exact Load_User_Program_keeps_interrupt_flag _ _ _ _ _ _
    · rw [user.Spawn_parse_failed env k program command pThread data len hr hp]

theorem Sys_Spawn_after_failed_Spawn (env : Collaborators) (k : Kernel)
    (state : Interrupt_State)
    (hm1 : env.Malloc_exeName ((state.ecx + 1) % WORD) ≠ 0)
    (hm2 : env.Malloc_command ((state.esi + 1) % WORD) ≠ 0)
    (hc1 : (userseg.Copy_From_User k (memset env.heap 0 0 ((state.ecx + 1) % WORD))
      state.ebx ((state.ecx + 1) % WORD)).1 = true)
    (hc2 : (userseg.Copy_From_User k (memset env.heap 0 0 ((state.esi + 1) % WORD))
      state.edx ((state.esi + 1) % WORD)).1 = true)
    (hfail : (user.Spawn env.spawn (Enable_Interrupts k)
      (cstring (userseg.Copy_From_User k (memset env.heap 0 0 ((state.ecx + 1) % WORD))
        state.ebx ((state.ecx + 1) % WORD)).2)
      (cstring (userseg.Copy_From_User k (memset env.heap 0 0 ((state.esi + 1) % WORD))
        state.edx ((state.esi + 1) % WORD)).2)
      env.kthread).retVal ≠ 0) :
    (Sys_Spawn env k state).1 = env.spawn.EUNSPECIFIED ∧
    (Sys_Spawn env k state).2.interruptsEnabled = true := by
  have hflag := Spawn_failure_keeps_interrupt_flag env.spawn (Enable_Interrupts k) _ _ _ hfail
  unfold Sys_Spawn
  simp only [hm1, hm2, hc1, hc2, hfail, if_false, if_true, Bool.not_true, ne_eq,
    not_false_eq_true, Bool.false_eq_true]
  exact ⟨trivial, by rw [hflag]; rfl⟩

/-- C26, evaluated on the code: `Sys_Spawn` is entered on the sample kernel with
interrupts disabled. When the named executable does not exist, both allocations and both
user copies succeed, `Spawn` fails, and `Sys_Spawn` returns `EUNSPECIFIED` (-1) with
interrupts enabled. On the paths that leave before `Enable_Interrupts()` (a failed
allocation, a user buffer outside the block) it returns with interrupts disabled. -/
theorem Sys_Spawn_returns_with_interrupts_enabled :
    syscallKernel.interruptsEnabled = false ∧
    (Sys_Spawn sampleSyscallEnv syscallKernel spawnMissingFile).1 = -1 ∧
    (Sys_Spawn sampleSyscallEnv syscallKernel spawnMissingFile).2.interruptsEnabled = true ∧
    (Sys_Spawn sampleSyscallEnvNoMemory syscallKernel spawnMissingFile).1 = -8 ∧
    (Sys_Spawn sampleSyscallEnvNoMemory syscallKernel spawnMissingFile).2.interruptsEnabled
      = false ∧
    (Sys_Spawn sampleSyscallEnv syscallKernel spawnOutOfBlock).1 = -1 ∧
    (Sys_Spawn sampleSyscallEnv syscallKernel spawnOutOfBlock).2.interruptsEnabled
      = false := by
  refine ⟨by decide, by decide, by decide, by decide, by decide, by decide, by decide⟩

end syscall

/-! ### The paged builder: the frames of the staged program -/

namespace uservm

theorem pageLoop_step (c : Constants) (pageDir : Nat) (staged : Buffer)
    (nPages flags n i : Nat) (m : paging.Memory) (hi : i < nPages) :
    pageLoop c pageDir staged nPages flags (n + 1) i m
      = pageLoop c pageDir staged nPages flags n (i + 1)
          (pageStep c pageDir staged flags i m) := by
  simp only [pageLoop, hi, if_true, pageStep]

theorem pageLoop_last (c : Constants) (pageDir : Nat) (staged : Buffer) (flags N : Nat) :
    ∀ (n i : Nat) (m : paging.Memory), i + n = N →
      pageLoop c pageDir staged (N + 1) flags (n + 1) i m
        = pageStep c pageDir staged flags N (pageLoop c pageDir staged N flags n i m) := by
  intro n
  induction n with
  | zero =>
    intro i m h
    have hi : i = N := by omega
    subst hi
    rw [pageLoop_step c pageDir staged (i + 1) flags 0 i m (by omega)]
    rfl
  | succ n ih =>
    intro i m h
    rw [pageLoop_step c pageDir staged (N + 1) flags (n + 1) i m (by omega),
      pageLoop_step c pageDir staged N flags n i m (by omega)]
    exact ih (i + 1) _ (by omega)

theorem pageStep_bytes (c : Constants) (pageDir : Nat) (staged : Buffer) (flags i j : Nat)
    (m : paging.Memory) (hj : j < PAGE_SIZE) :
    (pageStep c pageDir staged flags i m).bytes
        ((paging.Register_User_Page m pageDir
          ((c.USER_VM_START + i * PAGE_SIZE) % WORD) flags).1 + j)
      = staged (i * PAGE_SIZE + j) := by
  simp only [pageStep]
  exact userseg.memcpy_inside _ _ _ _ _ j hj

theorem pageLoop_runs_one_index_past (c : Constants) (pageDir : Nat) (staged : Buffer)
    (flags virtSize : Nat) (m : paging.Memory) :
    virtSize < (virtSize / PAGE_SIZE + 1) * PAGE_SIZE ∧
    pageLoop c pageDir staged (virtSize / PAGE_SIZE + 1) flags (virtSize / PAGE_SIZE + 1) 0 m
      = pageStep c pageDir staged flags (virtSize / PAGE_SIZE)
          (pageLoop c pageDir staged (virtSize / PAGE_SIZE) flags (virtSize / PAGE_SIZE) 0 m) ∧
    (virtSize % PAGE_SIZE = 0 → ∀ j, j < PAGE_SIZE →
      (pageLoop c pageDir staged (virtSize / PAGE_SIZE + 1) flags
          (virtSize / PAGE_SIZE + 1) 0 m).bytes
        ((paging.Register_User_Page
            (pageLoop c pageDir staged (virtSize / PAGE_SIZE) flags
              (virtSize / PAGE_SIZE) 0 m)
            pageDir ((c.USER_VM_START + virtSize / PAGE_SIZE * PAGE_SIZE) % WORD) flags).1 + j)
        = staged (virtSize + j)) := by
  have hlast := pageLoop_last c pageDir staged flags (virtSize / PAGE_SIZE)
    (virtSize / PAGE_SIZE) 0 m (by omega)
  refine ⟨?_, hlast, ?_⟩
  · simp only [PAGE_SIZE]
    omega
  · intro hal j hj
    rw [hlast, pageStep_bytes c pageDir staged flags _ j _ hj]
    have e : virtSize / PAGE_SIZE * PAGE_SIZE = virtSize := by
      simp only [PAGE_SIZE] at hal ⊢
      omega
    rw [e]

/-- C22, evaluated on the code with the sample constants, collaborators and state and
the two-segment sample executable. The staging buffer has
`virtSize = Round_Up_To_Page(8204) + 0x2000 = 20480` bytes, five page-aligned chunks
(indices 0 to 4). The loop runs for `nPages = 20480 / 4096 + 1 = 6` indices: a frame
(0x17000) is also mapped at `USER_VM_START + 5 * PAGE_SIZE`, although
`(5 + 1) * PAGE_SIZE = 24576 > virtSize`, and it is filled from staged offsets 20480 on,
past the end of the buffer: it holds 204, the byte found after the buffer, where the
frames of the chunks inside the buffer hold cleared or loaded bytes. No frame is mapped
for index 6. -/
theorem page_loop_copies_past_staging_buffer :
    ((Load_User_Program sampleConstants sampleEnv sampleState countingBytes 200
        twoSegments []).state.kernel.userContexts 200).size = 20480 ∧
    20480 < (5 + 1) * PAGE_SIZE ∧
    paging.dirEntryOf 0x10000 (0x80000000 + 5 * PAGE_SIZE) = 0x10800 ∧
    ((Load_User_Program sampleConstants sampleEnv sampleState countingBytes 200
        twoSegments []).state.memory.pdes 0x10800).pageTableBaseAddr = 0x11 ∧
    paging.PAGE_TABLE_INDEX (0x80000000 + 5 * PAGE_SIZE) = 5 ∧
    ((Load_User_Program sampleConstants sampleEnv sampleState countingBytes 200
        twoSegments []).state.memory.ptes (0x11000 + 4 * 5)).present = 1 ∧
    ((Load_User_Program sampleConstants sampleEnv sampleState countingBytes 200
        twoSegments []).state.memory.ptes (0x11000 + 4 * 5)).pageBaseAddr = 0x17 ∧
    (Load_User_Program sampleConstants sampleEnv sampleState countingBytes 200
        twoSegments []).state.memory.bytes 0x17000 = 204 ∧
    sampleEnv.heap 20480 = 204 ∧
    ((Load_User_Program sampleConstants sampleEnv sampleState countingBytes 200
        twoSegments []).state.memory.ptes (0x11000 + 4 * 4)).pageBaseAddr = 0x16 ∧
    (Load_User_Program sampleConstants sampleEnv sampleState countingBytes 200
        twoSegments []).state.memory.bytes 0x16000 = 0 ∧
    ((Load_User_Program sampleConstants sampleEnv sampleState countingBytes 200
        twoSegments []).state.memory.ptes (0x11000 + 4 * 6)).present = 0 := by
  refine ⟨by decide, by decide, by decide, by decide, by decide, by decide, by decide,
    by decide, by decide, by decide, by decide, by decide⟩

end uservm

/-! ### paging.c: the identity mapping built at boot -/

namespace paging

theorem page_address (i : Nat) (h : i < 2 ^ 20) : (i <<< PAGE_POWER) % WORD = i * 4096 := by
  simp only [PAGE_POWER, WORD, Nat.shiftLeft_eq]
  norm_num at h ⊢
  omega

theorem PAGE_DIRECTORY_INDEX_page (i : Nat) (h : i < 2 ^ 20) :
    PAGE_DIRECTORY_INDEX (i * 4096) = i / 1024 := by
  have e : (0x3ff : Nat) = 2 ^ 10 - 1 := by norm_num
  unfold PAGE_DIRECTORY_INDEX
  rw [e, Nat.and_pow_two_sub_one_eq_mod, Nat.shiftRight_eq_div_pow]
  norm_num at h ⊢
  omega

theorem PAGE_TABLE_INDEX_page (i : Nat) : PAGE_TABLE_INDEX (i * 4096) = i % 1024 := by
  have e : (0x3ff : Nat) = 2 ^ 10 - 1 := by norm_num
  unfold PAGE_TABLE_INDEX
  rw [e, Nat.and_pow_two_sub_one_eq_mod, Nat.shiftRight_eq_div_pow]
  norm_num

theorem page_base (i : Nat) (h : i < 2 ^ 20) :
    ((i * 4096) >>> PAGE_POWER) &&& 0xFFFFF = i := by
  have e : (0xFFFFF : Nat) = 2 ^ 20 - 1 := by norm_num
  simp only [PAGE_POWER]
  rw [e, Nat.and_pow_two_sub_one_eq_mod, Nat.shiftRight_eq_div_pow, Nat.mul_div_cancel _ (by norm_num)]
  exact Nat.mod_eq_of_lt h

theorem Set_Page_Table_Entry_ptes (m : Memory) (tableEntry physicalAddr flags a : Nat) :
    (Set_Page_Table_Entry m tableEntry physicalAddr flags).ptes a
      = if a = tableEntry then
          { present := 1, flags := flags &&& 0x0F,
            pageBaseAddr := (physicalAddr >>> PAGE_POWER) &&& 0xFFFFF }
        else m.ptes a := by
  simp only [Set_Page_Table_Entry, Function.update_apply]

theorem initStep_fields (VM_WRITE VM_READ dir i : Nat) (m : Memory) :
    (initStep VM_WRITE VM_READ dir i m).freePages
      = (Register_Page m dir ((i <<< PAGE_POWER) % WORD) (VM_WRITE ||| VM_READ)).2.freePages ∧
    (initStep VM_WRITE VM_READ dir i m).pdes
      = (Register_Page m dir ((i <<< PAGE_POWER) % WORD) (VM_WRITE ||| VM_READ)).2.pdes ∧
    ∀ a, (initStep VM_WRITE VM_READ dir i m).ptes a
      = if a = (Register_Page m dir ((i <<< PAGE_POWER) % WORD) (VM_WRITE ||| VM_READ)).1 then
          { present := 1, flags := (VM_WRITE ||| VM_READ) &&& 0x0F,
            pageBaseAddr := (((i <<< PAGE_POWER) % WORD) >>> PAGE_POWER) &&& 0xFFFFF }
        else (Register_Page m dir ((i <<< PAGE_POWER) % WORD)
          (VM_WRITE ||| VM_READ)).2.ptes a := by
  refine ⟨rfl, rfl, ?_⟩
  intro a
  simp only [initStep]
  exact Set_Page_Table_Entry_ptes _ _ _ _ a

theorem leafEntryOf_ne (tables : List Nat) (i j : Nat)
    (hal : ∀ d, d < tables.length → tables.getD d 0 % PAGE_SIZE = 0)
    (hinj : ∀ d e, d < tables.length → e < tables.length →
      tables.getD d 0 = tables.getD e 0 → d = e)
    (hi : i / 1024 < tables.length) (hj : j / 1024 < tables.length) (hne : i ≠ j) :
    leafEntryOf tables i ≠ leafEntryOf tables j := by
  have h1 := hal _ hi
  have h2 := hal _ hj
  have h3 := hinj _ _ hi hj
  simp only [leafEntryOf, ENTRY_SIZE, PAGE_SIZE] at *
  by_cases hq : i / 1024 = j / 1024
  · rw [hq]
    omega
  · have h4 : tables.getD (i / 1024) 0 ≠ tables.getD (j / 1024) 0 := fun h => hq (h3 h)
    omega

theorem leafEntryOf_outside (tables : List Nat) (d j : Nat)
    (hal : ∀ d, d < tables.length → tables.getD d 0 % PAGE_SIZE = 0)
    (hinj : ∀ d e, d < tables.length → e < tables.length →
      tables.getD d 0 = tables.getD e 0 → d = e)
    (hd : d < tables.length) (hj : j / 1024 < tables.length) (hne : j / 1024 ≠ d) :
    ¬ (tables.getD d 0 ≤ leafEntryOf tables j ∧
      leafEntryOf tables j < tables.getD d 0 + PAGE_SIZE) := by
  have h1 := hal _ hd
  have h2 := hal _ hj
  have h3 := hinj _ _ hj hd
  have h4 : tables.getD (j / 1024) 0 ≠ tables.getD d 0 := fun h => hne (h3 h)
  simp only [leafEntryOf, ENTRY_SIZE, PAGE_SIZE] at *
  omega

theorem dirEntry_outside (dir page d : Nat) (hdir : dir % PAGE_SIZE = 0)
    (hpage : page % PAGE_SIZE = 0) (hne : page ≠ dir) (hd : d < 1024) :
    ¬ (page ≤ dir + ENTRY_SIZE * d ∧ dir + ENTRY_SIZE * d < page + PAGE_SIZE) := by
  simp only [ENTRY_SIZE, PAGE_SIZE] at *
  omega

theorem initStep_new_table (VM_WRITE VM_READ dir : Nat) (tables : List Nat) (k : Nat)
    (m : Memory) (hk : k < 2 ^ 20) (hr : k % 1024 = 0)
    (hlen : k / 1024 < tables.length)
    (hinv : InitInv (VM_WRITE ||| VM_READ) dir tables k m) :
    Register_Page m dir ((k <<< PAGE_POWER) % WORD) (VM_WRITE ||| VM_READ)
      = (tables.getD (k / 1024) 0 + ENTRY_SIZE * (k % 1024),
          Set_Page_Directory_Entry
            (clearPage { m with freePages := tables.drop (k / 1024 + 1) }
              (tables.getD (k / 1024) 0))
            (dir + ENTRY_SIZE * (k / 1024)) (tables.getD (k / 1024) 0)
            (VM_WRITE ||| VM_READ)) := by
  obtain ⟨hfree, hdirs, _, _⟩ := hinv
  have hq : k / 1024 < 1024 := by
    norm_num at hk
    omega
  have ht : tablesFor k = k / 1024 := by
    unfold tablesFor
    omega
  have hp : (m.pdes (dir + ENTRY_SIZE * (k / 1024))).present = 0 :=
    (hdirs _ hq).2 (by rw [ht])
  have hdrop : m.freePages = tables.getD (k / 1024) 0 :: tables.drop (k / 1024 + 1) := by
    rw [hfree, ht, List.drop_eq_getElem_cons hlen, List.getD_eq_getElem _ _ hlen]
  have hA : Alloc_Page m = (tables.getD (k / 1024) 0,
      { m with freePages := tables.drop (k / 1024 + 1) }) := by
    simp only [Alloc_Page, hdrop]
  rw [page_address k hk]
  simp only [Register_Page, PAGE_DIRECTORY_INDEX_page k hk, PAGE_TABLE_INDEX_page k, hp,
    if_true, hA]

theorem initStep_old_table (VM_WRITE VM_READ dir : Nat) (tables : List Nat) (k : Nat)
    (m : Memory) (hk : k < 2 ^ 20) (hr : k % 1024 ≠ 0)
    (hpage : tables.getD (k / 1024) 0 % PAGE_SIZE = 0 ∧ tables.getD (k / 1024) 0 < WORD)
    (hinv : InitInv (VM_WRITE ||| VM_READ) dir tables k m) :
    Register_Page m dir ((k <<< PAGE_POWER) % WORD) (VM_WRITE ||| VM_READ)
      = (tables.getD (k / 1024) 0 + ENTRY_SIZE * (k % 1024), m) := by
  obtain ⟨_, hdirs, _, _⟩ := hinv
  have hq : k / 1024 < 1024 := by
    norm_num at hk
    omega
  have ht : tablesFor k = k / 1024 + 1 := by
    unfold tablesFor
    omega
  obtain ⟨hp, _, hb⟩ := (hdirs _ hq).1 (by rw [ht]; omega)
  have hp2 : ¬ (m.pdes (dir + ENTRY_SIZE * (k / 1024))).present = 0 := by
    rw [hp]
    decide
  have hshift : ((tables.getD (k / 1024) 0 >>> 12) <<< 12) % WORD
      = tables.getD (k / 1024) 0 := by
    have h := table_base_shift _ hpage.1 hpage.2
    rw [table_base_mask _ hpage.2] at h
    exact h
  rw [page_address k hk]
  simp only [Register_Page, PAGE_DIRECTORY_INDEX_page k hk, PAGE_TABLE_INDEX_page k, hp2,
    if_false, hb, hshift]

theorem initStep_inv (VM_WRITE VM_READ dir : Nat) (tables : List Nat) (k : Nat)
    (m : Memory) (hk : k < 2 ^ 20) (hlen : tablesFor (k + 1) ≤ tables.length)
    (hdir : dir % PAGE_SIZE = 0)
    (hpages : ∀ d, d < tables.length →
      tables.getD d 0 % PAGE_SIZE = 0 ∧ tables.getD d 0 < WORD ∧ tables.getD d 0 ≠ dir)
    (hinj : ∀ d e, d < tables.length → e < tables.length →
      tables.getD d 0 = tables.getD e 0 → d = e)
    (hinv : InitInv (VM_WRITE ||| VM_READ) dir tables k m) :
    InitInv (VM_WRITE ||| VM_READ) dir tables (k + 1)
      (initStep VM_WRITE VM_READ dir k m) := by
  have hq : k / 1024 < 1024 := by
    norm_num at hk
    omega
  have hqlen : k / 1024 < tables.length := by
    unfold tablesFor at hlen
    omega
  have hal : ∀ d, d < tables.length → tables.getD d 0 % PAGE_SIZE = 0 :=
    fun d h => (hpages d h).1
  obtain ⟨hF, hD, hP⟩ := initStep_fields VM_WRITE VM_READ dir k m
  have hbase : (((k <<< PAGE_POWER) % WORD) >>> PAGE_POWER) &&& 0xFFFFF = k := by
    rw [page_address k hk]
    exact page_base k hk
  have hentry : tables.getD (k / 1024) 0 + ENTRY_SIZE * (k % 1024) = leafEntryOf tables k :=
    rfl
  by_cases hr : k % 1024 = 0
  · have hR := initStep_new_table VM_WRITE VM_READ dir tables k m hk hr hqlen hinv
    have ht : tablesFor k = k / 1024 := by
      unfold tablesFor
      omega
    have ht1 : tablesFor (k + 1) = k / 1024 + 1 := by
      unfold tablesFor
      omega
    obtain ⟨_, hdirs, hdone, _⟩ := hinv
    rw [ht] at hdirs
    rw [hR] at hF hD hP
    simp only [hentry, hbase] at hP
    refine ⟨?_, ?_, ?_, ?_⟩
    · rw [hF, ht1]
      rfl
    · intro d hd
      rw [hD, ht1]
      simp only [Set_Page_Directory_Entry, clearPage, Function.update_apply]
      by_cases hdq : d = k / 1024
      · subst hdq
        simp only [if_true]
        refine ⟨fun _ => ⟨trivial, trivial, table_base_mask _ (hpages _ hqlen).2.1⟩, ?_⟩
        intro h
        omega
      · have hne : ¬ dir + ENTRY_SIZE * d = dir + ENTRY_SIZE * (k / 1024) := by
          simp only [ENTRY_SIZE]
          omega
        have hout := dirEntry_outside dir (tables.getD (k / 1024) 0) d hdir
          (hpages _ hqlen).1 (hpages _ hqlen).2.2 hd
        rw [if_neg hne, if_neg hout]
        exact ⟨fun h => (hdirs d hd).1 (by omega), fun h => (hdirs d hd).2 (by omega)⟩
    · intro j hj
      rw [hP]
      by_cases hjk : j = k
      · subst hjk
        rw [if_pos rfl]
      · have hjq : j / 1024 < k / 1024 := by omega
        have hne := leafEntryOf_ne tables j k hal hinj (by omega) hqlen hjk
        have hout := leafEntryOf_outside tables (k / 1024) j hal hinj hqlen (by omega)
          (by omega)
        rw [if_neg hne]
        simp only [Set_Page_Directory_Entry, clearPage]
        rw [if_neg hout]
        exact hdone j (by omega)
    · intro j hj1 hj2
      rw [ht1] at hj2
      rw [hP]
      have hjq : j / 1024 = k / 1024 := by omega
      have hne := leafEntryOf_ne tables j k hal hinj (by omega) hqlen (by omega)
      rw [if_neg hne]
      simp only [Set_Page_Directory_Entry, clearPage]
      have hin : tables.getD (k / 1024) 0 ≤ leafEntryOf tables j ∧
          leafEntryOf tables j < tables.getD (k / 1024) 0 + PAGE_SIZE := by
        simp only [leafEntryOf, hjq, ENTRY_SIZE, PAGE_SIZE]
        omega
      rw [if_pos hin]
  · have hR := initStep_old_table VM_WRITE VM_READ dir tables k m hk hr
      ⟨(hpages _ hqlen).1, (hpages _ hqlen).2.1⟩ hinv
    have ht : tablesFor (k + 1) = tablesFor k := by
      unfold tablesFor
      omega
    have ht1 : tablesFor k = k / 1024 + 1 := by
      unfold tablesFor
      omega
    obtain ⟨hfree, hdirs, hdone, hzero⟩ := hinv
    rw [hR] at hF hD hP
    simp only [hentry, hbase] at hP
    refine ⟨?_, ?_, ?_, ?_⟩
    · rw [hF, ht]
      exact hfree
    · intro d hd
      rw [hD, ht]
      exact hdirs d hd
    · intro j hj
      rw [hP]
      by_cases hjk : j = k
      · subst hjk
        rw [if_pos rfl]
      · have hne := leafEntryOf_ne tables j k hal hinj (by omega) hqlen hjk
        rw [if_neg hne]
        exact hdone j (by omega)
    · intro j hj1 hj2
      rw [ht] at hj2
      rw [hP]
      have hne := leafEntryOf_ne tables j k hal hinj (by omega) hqlen (by omega)
      rw [if_neg hne]
      exact hzero j (by omega) hj2

theorem initLoop_done (VM_WRITE VM_READ dir numPages : Nat) (n i : Nat) (m : Memory)
    (hi : numPages ≤ i) : initLoop VM_WRITE VM_READ dir numPages n i m = m := by
  cases n with
  | zero => rfl
  | succ n => simp only [initLoop, Nat.not_lt.mpr hi, if_false]

theorem initLoop_append (VM_WRITE VM_READ dir numPages : Nat) (b : Nat) :
    ∀ (a i : Nat) (m : Memory),
      initLoop VM_WRITE VM_READ dir numPages (a + b) i m
        = initLoop VM_WRITE VM_READ dir numPages b (i + a)
            (initLoop VM_WRITE VM_READ dir numPages a i m) := by
  intro a
  induction a with
  | zero =>
    intro i m
    simp only [Nat.zero_add, Nat.add_zero, initLoop]
  | succ a ih =>
    intro i m
    rw [show a + 1 + b = (a + b) + 1 by omega]
    by_cases hi : i < numPages
    · simp only [initLoop, hi, if_true]
      rw [ih (i + 1) _, show i + 1 + a = i + (a + 1) by omega]
    · simp only [initLoop, hi, if_false]
      rw [initLoop_done _ _ _ _ _ _ _ (by omega)]

theorem initLoop_last (VM_WRITE VM_READ dir N : Nat) :
    ∀ (n i : Nat) (m : Memory), i + n = N →
      initLoop VM_WRITE VM_READ dir (N + 1) (n + 1) i m
        = initStep VM_WRITE VM_READ dir N (initLoop VM_WRITE VM_READ dir N n i m) := by
  intro n
  induction n with
  | zero =>
    intro i m h
    have hi : i = N := by omega
    subst hi
    simp only [initLoop, Nat.lt_succ_self, if_true]
  | succ n ih =>
    intro i m h
    have h1 : i < N + 1 := by omega
    have h2 : i < N := by omega
    have e1 : initLoop VM_WRITE VM_READ dir (N + 1) (n + 1 + 1) i m
        = initLoop VM_WRITE VM_READ dir (N + 1) (n + 1) (i + 1)
            (initStep VM_WRITE VM_READ dir i m) := by
      simp only [initLoop, h1, if_true]
    have e2 : initLoop VM_WRITE VM_READ dir N (n + 1) i m
        = initLoop VM_WRITE VM_READ dir N n (i + 1)
            (initStep VM_WRITE VM_READ dir i m) := by
      simp only [initLoop, h2, if_true]
    rw [e1, e2]
    exact ih (i + 1) _ (by omega)

theorem initLoop_bound (VM_WRITE VM_READ dir N : Nat) :
    ∀ (n i : Nat) (m : Memory), i + n ≤ N →
      initLoop VM_WRITE VM_READ dir N n i m
        = initLoop VM_WRITE VM_READ dir (i + n) n i m := by
  intro n
  induction n with
  | zero =>
    intro i m _
    rfl
  | succ n ih =>
    intro i m h
    have h1 : i < N := by omega
    have h2 : i < i + (n + 1) := by omega
    simp only [initLoop, h1, h2, if_true]
    rw [ih (i + 1) _ (by omega), show i + 1 + n = i + (n + 1) by omega]

theorem initLoop_continues (VM_WRITE VM_READ dir N k : Nat) (m : Memory) (hk : k ≤ N) :
    initLoop VM_WRITE VM_READ dir N N 0 m
      = initLoop VM_WRITE VM_READ dir N (N - k) k
          (initLoop VM_WRITE VM_READ dir k k 0 m) := by
  have h := initLoop_append VM_WRITE VM_READ dir N (N - k) k 0 m
  rw [show k + (N - k) = N by omega, Nat.zero_add] at h
  rw [h, initLoop_bound VM_WRITE VM_READ dir N k 0 m (by omega), Nat.zero_add]

theorem initLoop_inv (VM_WRITE VM_READ dir : Nat) (tables : List Nat) (m : Memory)
    (hdir : dir % PAGE_SIZE = 0)
    (hpages : ∀ d, d < tables.length →
      tables.getD d 0 % PAGE_SIZE = 0 ∧ tables.getD d 0 < WORD ∧ tables.getD d 0 ≠ dir)
    (hinj : ∀ d e, d < tables.length → e < tables.length →
      tables.getD d 0 = tables.getD e 0 → d = e)
    (hinv : InitInv (VM_WRITE ||| VM_READ) dir tables 0 m) :
    ∀ k, k ≤ 2 ^ 20 → tablesFor k ≤ tables.length →
      InitInv (VM_WRITE ||| VM_READ) dir tables k
        (initLoop VM_WRITE VM_READ dir k k 0 m) := by
  intro k
  induction k with
  | zero =>
    intro _ _
    exact hinv
  | succ k ih =>
    intro hk hlen
    rw [initLoop_last VM_WRITE VM_READ dir k k 0 m (by omega)]
    have hlen2 : tablesFor k ≤ tables.length := by
      unfold tablesFor at hlen ⊢
      omega
    exact initStep_inv VM_WRITE VM_READ dir tables k _ (by omega) hlen hdir hpages hinj
      (ih (by omega) hlen2)

theorem clearPage_inv (flags dir : Nat) (rest : List Nat) (m : Memory)
    (hfree : m.freePages = dir :: rest) :
    InitInv flags dir rest 0 (clearPage (Alloc_Page m).2 (Alloc_Page m).1) := by
  have hA : Alloc_Page m = (dir, { m with freePages := rest }) := by
    simp only [Alloc_Page, hfree]
  rw [hA]
  refine ⟨rfl, ?_, ?_, ?_⟩
  · intro d hd
    refine ⟨fun h => ?_, fun _ => ?_⟩
    · unfold tablesFor at h
      omega
    · have hin : dir ≤ dir + ENTRY_SIZE * d ∧ dir + ENTRY_SIZE * d < dir + PAGE_SIZE := by
        simp only [ENTRY_SIZE, PAGE_SIZE]
        omega
      simp only [clearPage, hin, and_self, if_true]
  · intro j hj
    omega
  · intro j _ hj
    unfold tablesFor at hj
    omega

theorem flags_without (flags user : Nat) (h : flags &&& user = 0) :
    (flags &&& 0x0F) &&& user = 0 := by
  rw [Nat.land_assoc, Nat.land_comm 0x0F user, ← Nat.land_assoc, h]
  exact Nat.zero_and _

theorem Register_Page_mapped (m : Memory) (dir k flags table : Nat) (hk : k < 2 ^ 20)
    (hpage : table % PAGE_SIZE = 0 ∧ table < WORD)
    (hp : (m.pdes (dir + ENTRY_SIZE * (k / 1024))).present = 1)
    (hb : (m.pdes (dir + ENTRY_SIZE * (k / 1024))).pageTableBaseAddr = table >>> 12) :
    Register_Page m dir (k * 4096) flags = (table + ENTRY_SIZE * (k % 1024), m) := by
  have hp2 : ¬ (m.pdes (dir + ENTRY_SIZE * (k / 1024))).present = 0 := by
    rw [hp]
    decide
  have hshift : ((table >>> 12) <<< 12) % WORD = table := by
    have h := table_base_shift _ hpage.1 hpage.2
    rw [table_base_mask _ hpage.2] at h
    exact h
  simp only [Register_Page, PAGE_DIRECTORY_INDEX_page k hk, PAGE_TABLE_INDEX_page k, hp2,
    if_false, hb, hshift]

/-- C23: `Init_VM(bootInfo)` builds an identity mapping. The page allocator holds the
frames `dir :: rest`, distinct, page aligned and below 4 GB, `rest` being enough for the
leaf tables of `numPages = memSizeKB >> 2` pages, at most `2 ^ 20`; the flags
`VM_WRITE | VM_READ` do not contain `VM_USER`. Then the kernel page directory is `dir`
and, in the memory left by `Init_VM`:
for every page index `i < numPages`, the directory entry of linear address `i << 12` is
present, the walk of `Register_Page` from the directory reaches the leaf entry of `i`
(entry `i % 1024` of the table `rest[i / 1024]`) without changing memory, and this
entry is present, has `pageBaseAddr << 12 = i << 12` and the flags
`(VM_WRITE | VM_READ) & 0xF`, without `VM_USER`;
for every `k <= numPages` the run is the `k` first iterations followed by the others,
and the leaf entry of every page index `j < k` is after the `k` first iterations what it
is at the end (later iterations do not overwrite it);
the leaf entries of the page indices from `numPages` up to the end of the last table
handed out are zero, no directory entry beyond the tables of the `numPages` pages is
present, and the allocator keeps every frame after these tables. -/
theorem Init_VM_identity_mapping (VM_WRITE VM_READ VM_USER : Nat) (bootInfo : Boot_Info)
    (m : Memory) (dir : Nat) (rest : List Nat)
    (hfree : m.freePages = dir :: rest)
    (hpages : ∀ p, p ∈ dir :: rest → p % PAGE_SIZE = 0 ∧ p < WORD)
    (hnodup : (dir :: rest).Nodup)
    (hmem : bootInfo.memSizeKB >>> 2 ≤ 2 ^ 20)
    (hlen : tablesFor (bootInfo.memSizeKB >>> 2) ≤ rest.length)
    (huser : (VM_WRITE ||| VM_READ) &&& VM_USER = 0) :
    (Init_VM VM_WRITE VM_READ bootInfo m).1 = dir ∧
    (∀ i, i < bootInfo.memSizeKB >>> 2 →
      ((Init_VM VM_WRITE VM_READ bootInfo m).2.pdes (dirEntryOf dir (i <<< 12))).present = 1 ∧
      (∀ flags, Register_Page (Init_VM VM_WRITE VM_READ bootInfo m).2 dir (i <<< 12) flags
        = (leafEntryOf rest i, (Init_VM VM_WRITE VM_READ bootInfo m).2)) ∧
      ((Init_VM VM_WRITE VM_READ bootInfo m).2.ptes (leafEntryOf rest i)).present = 1 ∧
      ((Init_VM VM_WRITE VM_READ bootInfo m).2.ptes (leafEntryOf rest i)).pageBaseAddr <<< 12
        = i <<< 12 ∧
      ((Init_VM VM_WRITE VM_READ bootInfo m).2.ptes (leafEntryOf rest i)).flags
        = (VM_WRITE ||| VM_READ) &&& 0x0F ∧
      ((Init_VM VM_WRITE VM_READ bootInfo m).2.ptes (leafEntryOf rest i)).flags &&& VM_USER
        = 0) ∧
    (∀ k j, j < k → k ≤ bootInfo.memSizeKB >>> 2 →
      (Init_VM VM_WRITE VM_READ bootInfo m).2
        = initLoop VM_WRITE VM_READ dir (bootInfo.memSizeKB >>> 2)
            (bootInfo.memSizeKB >>> 2 - k) k
            (initLoop VM_WRITE VM_READ dir k k 0 (clearPage (Alloc_Page m).2 dir)) ∧
      (initLoop VM_WRITE VM_READ dir k k 0 (clearPage (Alloc_Page m).2 dir)).ptes
          (leafEntryOf rest j)
        = (Init_VM VM_WRITE VM_READ bootInfo m).2.ptes (leafEntryOf rest j)) ∧
    (∀ j, bootInfo.memSizeKB >>> 2 ≤ j → j < 1024 * tablesFor (bootInfo.memSizeKB >>> 2) →
      (Init_VM VM_WRITE VM_READ bootInfo m).2.ptes (leafEntryOf rest j) = {}) ∧
    (∀ d, tablesFor (bootInfo.memSizeKB >>> 2) ≤ d → d < 1024 →
      ((Init_VM VM_WRITE VM_READ bootInfo m).2.pdes (dir + ENTRY_SIZE * d)).present = 0) ∧
    (Init_VM VM_WRITE VM_READ bootInfo m).2.freePages
      = rest.drop (tablesFor (bootInfo.memSizeKB >>> 2)) := by
  have hA1 : (Alloc_Page m).1 = dir := by
    simp only [Alloc_Page, hfree]
  have hdir : dir % PAGE_SIZE = 0 := (hpages dir (List.mem_cons_self _ _)).1
  have hT : ∀ d, d < rest.length →
      rest.getD d 0 % PAGE_SIZE = 0 ∧ rest.getD d 0 < WORD ∧ rest.getD d 0 ≠ dir := by
    intro d hd
    rw [List.getD_eq_getElem _ _ hd]
    have hin : rest[d] ∈ rest := List.getElem_mem hd
    refine ⟨(hpages _ (List.mem_cons_of_mem _ hin)).1,
      (hpages _ (List.mem_cons_of_mem _ hin)).2, ?_⟩
    intro h
    exact (List.nodup_cons.mp hnodup).1 (h ▸ hin)
  have hinj : ∀ d e, d < rest.length → e < rest.length →
      rest.getD d 0 = rest.getD e 0 → d = e := by
    intro d e hd he h
    rw [List.getD_eq_getElem _ _ hd, List.getD_eq_getElem _ _ he] at h
    exact (List.Nodup.getElem_inj_iff (List.nodup_cons.mp hnodup).2).mp h
  have h0 : InitInv (VM_WRITE ||| VM_READ) dir rest 0 (clearPage (Alloc_Page m).2 dir) := by
    have h := clearPage_inv (VM_WRITE ||| VM_READ) dir rest m hfree
    rw [hA1] at h
    exact h
  have hall := initLoop_inv VM_WRITE VM_READ dir rest _ hdir hT hinj h0
  have hfin1 : (Init_VM VM_WRITE VM_READ bootInfo m).1 = dir := hA1
  have hfin2 : (Init_VM VM_WRITE VM_READ bootInfo m).2
      = initLoop VM_WRITE VM_READ dir (bootInfo.memSizeKB >>> 2)
          (bootInfo.memSizeKB >>> 2) 0 (clearPage (Alloc_Page m).2 dir) := by
    simp only [Init_VM, hA1]
  rw [hfin2]
  refine ⟨hfin1, ?_⟩
  clear hfin1 hfin2
  generalize bootInfo.memSizeKB >>> 2 = N at *
  obtain ⟨hfreeN, hdirsN, hdoneN, hzeroN⟩ := hall N hmem hlen
  refine ⟨?_, ?_, hzeroN, ?_, hfreeN⟩
  · intro i hi
    have hi20 : i < 2 ^ 20 := by omega
    have hq : i / 1024 < 1024 := by
      norm_num at hi20
      omega
    have hqt : i / 1024 < tablesFor N := by
      unfold tablesFor
      omega
    have hqlen : i / 1024 < rest.length := by omega
    have haddr : i <<< 12 = i * 4096 := by
      rw [Nat.shiftLeft_eq]
    obtain ⟨hp, _, hb⟩ := (hdirsN _ hq).1 hqt
    have hentry := hdoneN i hi
    rw [haddr]
    refine ⟨?_, ?_, ?_, ?_, ?_, ?_⟩
    · simp only [dirEntryOf, PAGE_DIRECTORY_INDEX_page i hi20]
      exact hp
    · intro flags
      exact Register_Page_mapped _ dir i flags _ hi20 ⟨(hT _ hqlen).1, (hT _ hqlen).2.1⟩ hp hb
    · rw [hentry]
    · rw [hentry, Nat.shiftLeft_eq]
    · rw [hentry]
    · rw [hentry]
      exact flags_without _ _ huser
  · intro k j hj hk
    refine ⟨initLoop_continues VM_WRITE VM_READ dir N k _ hk, ?_⟩
    have hlenk : tablesFor k ≤ rest.length := by
      unfold tablesFor at hlen ⊢
      omega
    obtain ⟨_, _, hdonek, _⟩ := hall k (by omega) hlenk
    rw [hdonek j hj, hdoneN j (by omega)]
  · intro d h1 h2
    exact (hdirsN d h2).2 h1

/-- Witness of C23 with `VM_WRITE = 1`, `VM_READ = 0`, `VM_USER = 2`, 4104 KB of memory
(1026 pages) and the sample boot memory: the directory is the first free frame,
0x100000, the tables are 0x101000 and 0x102000; page 1025 is mapped to itself by the
entry at 0x102004, with flags 1; the entry of page index 1026, at 0x102008, is zero; the
frame 0x103000 stays free. -/
theorem Init_VM_identity_mapping_witness :
    bootMemory.freePages = 0x100000 :: [0x101000, 0x102000, 0x103000] ∧
    (Init_VM 1 0 ⟨4104⟩ bootMemory).1 = 0x100000 ∧
    ((Init_VM 1 0 ⟨4104⟩ bootMemory).2.pdes (dirEntryOf 0x100000 (1025 <<< 12))).present
      = 1 ∧
    Register_Page (Init_VM 1 0 ⟨4104⟩ bootMemory).2 0x100000 (1025 <<< 12) 0
      = (0x102004, (Init_VM 1 0 ⟨4104⟩ bootMemory).2) ∧
    ((Init_VM 1 0 ⟨4104⟩ bootMemory).2.ptes 0x102004).present = 1 ∧
    ((Init_VM 1 0 ⟨4104⟩ bootMemory).2.ptes 0x102004).pageBaseAddr <<< 12 = 1025 <<< 12 ∧
    ((Init_VM 1 0 ⟨4104⟩ bootMemory).2.ptes 0x102004).flags = 1 ∧
    (Init_VM 1 0 ⟨4104⟩ bootMemory).2.ptes 0x102008 = {} ∧
    (Init_VM 1 0 ⟨4104⟩ bootMemory).2.freePages = [0x103000] := by
  have h := Init_VM_identity_mapping 1 0 2 ⟨4104⟩ bootMemory 0x100000
    [0x101000, 0x102000, 0x103000] rfl (by decide) (by decide) (by decide) (by decide)
    (by decide)
  obtain ⟨h1, h2, _, h4, _, h6⟩ := h
  obtain ⟨a1, a2, a3, a4, a5, _⟩ := h2 1025 (by decide)
  have e : leafEntryOf [0x101000, 0x102000, 0x103000] 1025 = 0x102004 := by decide
  have e2 : leafEntryOf [0x101000, 0x102000, 0x103000] 1026 = 0x102008 := by decide
  rw [e] at a2 a3 a4 a5
  have z := h4 1026 (by decide) (by decide)
  rw [e2] at z
  exact ⟨rfl, h1, a1, a2 0, a3, a4, a5, z, h6⟩

end paging

end geekos
